import Mathlib

/-!
# lisa-asset-manager: filter, selection, upload and cache model

A shallow embedding of the client logic of `src/script-supabase.js` (the hosted
variant, in the namespace `Hosted`) and of `src/script.js` (the local-storage
variant, in the namespace `Local`), of the export handler of
`src/figma-plugin/code.js` (namespace `Figma`) and of the image analysis handler of
`src/server.js` (namespace `Server`).

Conventions of the embedding.

* A JavaScript string is a Lean `String`; a nullable column (`project_id`,
  `folder_id`, `parent_id`) is an `Option String`, with `none` for `null`.
* Module-level `let` variables become the fields of a `State` record and every
  function becomes a state transformer.
* The DOM is reduced to what the functions write: the cards of the asset grid
  (the assets themselves, in order), the count label, the toast messages.
* The backing store is an external collaborator: each request the code issues is
  appended to `State.requests`, and the reply of the store is an argument of
  the function that awaits it.
* Host functions (`JSON.parse`, `figma.base64Encode`, `node.exportAsync`, the call
  of the vision model) are arguments as well; a call that throws returns `none`.
* The two patterns of the relay are modelled on the characters of the reply: the
  leftmost match, with the optional line break greedy and the group lazy.
-/

namespace Js

/-- JavaScript truthiness of a nullable string: `null` and `''` are falsy. -/
def truthy : Option String → Bool
  | none => false
  | some s => s != ""

/-- Model of `String.prototype.toLowerCase`: the letters `A`..`Z` are mapped and every
other character is kept as it is. On a string of ASCII characters this is what the
JavaScript function returns; beyond ASCII the JavaScript function also maps the other
cased letters and applies the final-sigma rule, which is not modelled, so a statement
that rests on a property of lower-casing is made for ASCII text. -/
def toLowerCase (s : String) : String := ⟨s.data.map Char.toLower⟩

/-- Whether every character of the string is an ASCII character. -/
def isAscii (s : String) : Bool := s.data.all (fun c => decide (c.toNat < 128))

/-- Model of `String.prototype.includes`: `q` occurs in `s` at some position. -/
def includes (s q : String) : Bool := s.data.tails.any (fun t => q.data.isPrefixOf t)

/-- The characters `String.prototype.trim` removes: the ECMAScript `WhiteSpace` and
`LineTerminator` code points. -/
def isWhiteSpace (c : Char) : Bool :=
  decide (c.toNat ∈ [0x09, 0x0A, 0x0B, 0x0C, 0x0D, 0x20, 0xA0, 0x1680, 0x2028, 0x2029,
    0x202F, 0x205F, 0x3000, 0xFEFF]) || (decide (0x2000 ≤ c.toNat) && decide (c.toNat ≤ 0x200A))

/-- Model of `String.prototype.trim`: the white space at both ends is removed. -/
def trim (s : String) : String :=
  ⟨((s.data.dropWhile isWhiteSpace).reverse.dropWhile isWhiteSpace).reverse⟩

end Js

/-- A toast: the message and its type (`'info'`, `'error'`, `'success'`). -/
structure Toast where
  message : String
  type : String
  deriving DecidableEq, Repr

/-- A candidate file of an upload: the three `File` properties the code reads, and
`read`, what `FileReader.readAsDataURL` yields for it (`none` when the reader
reports an error). -/
structure File where
  name : String
  type : String
  size : Nat
  read : Option String
  deriving DecidableEq, Repr

/-- The `<a>` element a download clicks: its `href` and its `download` name. -/
structure Link where
  href : String
  download : String
  deriving DecidableEq, Repr

/-- The reply `{ data, error }` of a store query. -/
structure Response (α : Type) where
  data : Option α
  error : Bool
  deriving DecidableEq, Repr

namespace Hosted

/-- `MAX_FILE_SIZE = 2 * 1024 * 1024` (script-supabase.js, line 9). -/
def MAX_FILE_SIZE : Nat := 2 * 1024 * 1024

/-- `ALLOWED_TYPES` (script-supabase.js, line 10). -/
def ALLOWED_TYPES : List String :=
  ["image/jpeg", "image/png", "image/gif", "image/webp", "image/svg+xml"]

/-- A row of the `projects` table. -/
structure Project where
  id : String
  name : String
  description : Option String
  color : String
  created_at : String
  deriving DecidableEq, Repr

/-- A row of the `folders` table. -/
structure Folder where
  id : String
  project_id : Option String
  parent_id : Option String
  name : String
  created_at : String
  deriving DecidableEq, Repr

/-- A row of the `assets` table. -/
structure Asset where
  id : String
  project_id : Option String
  folder_id : Option String
  name : String
  type : String
  size : Nat
  data : String
  upload_date : String
  deriving DecidableEq, Repr

/-- A request sent to the store. -/
inductive Request where
  | selectProjects
  | selectFolders
  | countAssets (projectId : String)
  | selectSizes
  | selectAssets (projectId : Option String)
  | insertProject (name : String) (description : Option String) (color : String)
  | insertFolder (name : String) (projectId : String) (parentId : Option String)
  | insertAsset (name type : String) (size : Nat) (data : String)
      (projectId : String) (folderId : Option String)
  | deleteProject (id : String)
  | deleteFolder (id : String)
  | deleteAsset (id : String)
  | deleteAssetsIn (ids : List String)
  deriving DecidableEq, Repr

/-- A child of the folder bar that `renderFolders` builds: the Back button, the
breadcrumb with the name of the folder drilled into, the "All" button, or the chip of
a folder with its `active` class and its sub-folder mark. -/
inductive Chip where
  | back
  | breadcrumb (name : String)
  | all (active : Bool)
  | folder (folder : Folder) (active : Bool) (hasSubfolders : Bool)
  deriving DecidableEq, Repr

/-- The module-level state of script-supabase.js (lines 13-23), the parts of the
page the functions write, and the log of store requests. -/
structure State where
  projects : List Project
  folders : List Folder
  assets : List Asset
  assetCounts : List (String × Nat)
  searchQuery : String
  currentProject : Option Project
  selectedFolder : String
  currentParentFolder : Option String
  selectedAssets : List String
  selectionMode : Bool
  pendingFiles : List File
  assetGrid : List Asset
  assetCount : String
  emptyAssetsHidden : Bool
  selectedCount : String
  storageUsed : Nat
  projectGrid : List Project
  emptyProjectsHidden : Bool
  folderChips : List Chip
  bulkActionsShown : Bool
  selectionModeBtnActive : Bool
  uploadModalShown : Bool
  fileInput : String
  projectSelect : String
  folderSelect : String
  filePreviewShown : Bool
  uploadFilesBtnDisabled : Bool
  dashboardViewShown : Bool
  projectViewShown : Bool
  backToDashboardShown : Bool
  pageTitle : String
  searchInput : String
  clearSearchVisible : Bool
  folderModalShown : Bool
  toasts : List Toast
  requests : List Request
  deriving DecidableEq, Repr

/-- `showToast(message, type)`: the toast is appended to the ones shown so far. -/
def showToast (message type : String) (st : State) : State :=
  { st with toasts := st.toasts ++ [⟨message, type⟩] }

/-- The store request is appended to the log. -/
def send (r : Request) (st : State) : State :=
  { st with requests := st.requests ++ [r] }

/-- The root-level test of `renderAssets` (line 565):
`!a.folder_id || folders.find(f => f.id === a.folder_id && !f.parent_id)`. -/
def atRoot (folders : List Folder) (a : Asset) : Bool :=
  !Js.truthy a.folder_id ||
    (folders.find? (fun f => decide (some f.id = a.folder_id) && !Js.truthy f.parent_id)).isSome

/-- The filter chain of `renderAssets` (lines 555-573), for the active project. -/
def filteredAssets (st : State) (p : Project) : List Asset :=
  let filteredAssets := st.assets.filter (fun a => decide (a.project_id = some p.id))
  let filteredAssets :=
    if st.selectedFolder ≠ "all" then
      filteredAssets.filter (fun a => decide (a.folder_id = some st.selectedFolder))
    else if Js.truthy st.currentParentFolder then
      filteredAssets.filter (fun a => decide (a.folder_id = st.currentParentFolder))
    else
      filteredAssets.filter (fun a => atRoot st.folders a)
  if st.searchQuery ≠ "" then
    filteredAssets.filter (fun a => Js.includes (Js.toLowerCase a.name) st.searchQuery)
  else filteredAssets

/-- The count label of a non-empty grid (line 584). -/
def countLabel (n : Nat) : String :=
  toString n ++ " asset" ++ (if n ≠ 1 then "s" else "")

/-- `renderAssets()` (script-supabase.js, lines 552-590). -/
def renderAssets (st : State) : State :=
  match st.currentProject with
  | none => st
  | some p =>
    let filteredAssets := filteredAssets st p
    if filteredAssets.length = 0 then
      { st with
        assetGrid := []
        emptyAssetsHidden := false
        assetCount := if st.searchQuery ≠ "" then "No matching assets" else "0 assets" }
    else
      { st with
        assetGrid := filteredAssets
        emptyAssetsHidden := true
        assetCount := countLabel filteredAssets.length }

/-- `updateSelectedCount()` (lines 1097-1099). -/
def updateSelectedCount (st : State) : State :=
  { st with selectedCount := toString st.selectedAssets.length ++ " selected" }

/-- `updateStorageInfo()` (lines 1213-1216): the byte total handed to
`formatFileSize`. -/
def updateStorageInfo (st : State) : State :=
  { st with storageUsed := st.assets.foldl (fun sum asset => sum + asset.size) 0 }

/-- `Set.prototype.add` on an insertion-ordered set of ids. -/
def setAdd (s : List String) (id : String) : List String :=
  if id ∈ s then s else s ++ [id]

/-- `assetCounts[key] = value` on the object used as a map. -/
def setCount (m : List (String × Nat)) (key : String) (value : Nat) : List (String × Nat) :=
  if m.any (fun e => e.1 == key) then
    m.map (fun e => if e.1 == key then (key, value) else e)
  else m ++ [(key, value)]

/-- `assetCounts[key]`, `none` for `undefined`. -/
def getCount (m : List (String × Nat)) (key : String) : Option Nat :=
  (m.find? (fun e => e.1 == key)).map (fun e => e.2)

/-- The filter chain of `selectAll` (lines 1074-1084), for the active project. -/
def selectAllFiltered (st : State) (p : Project) : List Asset :=
  let filteredAssets := st.assets.filter (fun a => decide (a.project_id = some p.id))
  let filteredAssets :=
    if st.selectedFolder ≠ "all" then
      filteredAssets.filter (fun a => decide (a.folder_id = some st.selectedFolder))
    else filteredAssets
  if st.searchQuery ≠ "" then
    filteredAssets.filter (fun a => Js.includes (Js.toLowerCase a.name) st.searchQuery)
  else filteredAssets

/-- `selectAll()` (lines 1071-1089). -/
def selectAll (st : State) : State :=
  match st.currentProject with
  | none => st
  | some p =>
    let filteredAssets := selectAllFiltered st p
    let st := { st with
      selectedAssets := filteredAssets.foldl (fun s asset => setAdd s asset.id) st.selectedAssets }
    renderAssets (updateSelectedCount st)

/-- `loadProjects()` (lines 177-191), given the reply of the store. -/
def loadProjects (reply : Response (List Project)) (st : State) : State :=
  let st := send .selectProjects st
  if reply.error then
    let st := showToast "Error loading projects from database" "error" st
    { st with projects := [] }
  else { st with projects := reply.data.getD [] }

/-- `loadFolders()` (lines 193-207), given the reply of the store. -/
def loadFolders (reply : Response (List Folder)) (st : State) : State :=
  let st := send .selectFolders st
  if reply.error then
    let st := showToast "Error loading folders from database" "error" st
    { st with folders := [] }
  else { st with folders := reply.data.getD [] }

/-- The reply `{ count, error }` of a head count query. -/
structure CountResponse where
  count : Option Nat
  error : Bool
  deriving DecidableEq, Repr

/-- The `for` loop of `loadAssetCounts` (lines 212-220) over the cached projects;
the flag tells whether an error was thrown, which ends the loop. -/
def loadAssetCountsLoop (reply : String → CountResponse) : List Project → State → State × Bool
  | [], st => (st, false)
  | project :: rest, st =>
    let st := send (.countAssets project.id) st
    if (reply project.id).error then (st, true)
    else
      loadAssetCountsLoop reply rest
        { st with assetCounts := setCount st.assetCounts project.id ((reply project.id).count.getD 0) }

/-- `loadAssetCounts()` (lines 209-234): `reply` answers the count query of each
project, `sizes` the query of the `size` column (a missing size counts 0). -/
def loadAssetCounts (reply : String → CountResponse) (sizes : Response (List (Option Nat)))
    (st : State) : State :=
  match loadAssetCountsLoop reply st.projects st with
  | (st, true) => st
  | (st, false) =>
    let st := send .selectSizes st
    match sizes.error, sizes.data with
    | false, some data =>
      { st with storageUsed := data.foldl (fun sum size => sum + size.getD 0) 0 }
    | _, _ => st

/-- `loadAssets(projectId = null)` (lines 236-268), given the reply of the store. -/
def loadAssets (projectId : Option String) (reply : Response (List Asset)) (st : State) : State :=
  let st := send (.selectAssets (if Js.truthy projectId then projectId else none)) st
  if reply.error then
    let st := showToast "Error loading assets from database" "error" st
    if !Js.truthy projectId then { st with assets := [] } else st
  else
    match projectId with
    | some id =>
      if id ≠ "" then
        { st with
          assets := st.assets.filter (fun a => decide (a.project_id ≠ some id)) ++ reply.data.getD []
          assetCounts := setCount st.assetCounts id ((reply.data.map List.length).getD 0) }
      else { st with assets := reply.data.getD [] }
    | none => { st with assets := reply.data.getD [] }

/-- `bulkDelete()` (lines 1101-1131): `confirm` is the answer to the dialog, `del` the
reply to the delete request, `fetch` the reply to the reload that follows. -/
def bulkDelete (confirm : Bool) (del : Response Unit) (fetch : Response (List Asset))
    (st : State) : State :=
  if st.selectedAssets.length = 0 then showToast "No assets selected" "error" st
  else if confirm then
    let assetIds := st.selectedAssets
    let st := send (.deleteAssetsIn assetIds) st
    if del.error then showToast "Error deleting assets" "error" st
    else
      let st := showToast (toString st.selectedAssets.length ++ " asset(s) deleted successfully")
        "success" st
      let st := { st with selectedAssets := [] }
      let st :=
        match st.currentProject with
        | some p => loadAssets (some p.id) fetch st
        | none => st
      updateStorageInfo (renderAssets (updateSelectedCount st))
  else st

/-- The filter callback of `uploadFiles` (lines 933-943): the message of the toast
shown for a rejected file, `none` for a file that is kept. -/
def rejection (file : File) : Option String :=
  if !ALLOWED_TYPES.contains file.type then
    some ("\"" ++ file.name ++ "\" is not a supported format")
  else if file.size > MAX_FILE_SIZE then
    some ("\"" ++ file.name ++ "\" exceeds 2MB limit")
  else none

/-- Whether the filter callback of `uploadFiles` returns `true`. -/
def isValid (file : File) : Bool := (rejection file).isNone

/-- The store's answer to the query of `loadAssets(projectId)`: the rows of the
project, at most 200 of them (`.eq('project_id', projectId)`, `.limit(200)`), taken
from a table `rows` that is kept in the order the query asks for. -/
def storeSelectAssets (rows : List Asset) (projectId : String) : List Asset :=
  (rows.filter (fun a => decide (a.project_id = some projectId))).take 200

/-- The store's answer to the count query of `loadAssetCounts`: the exact number of
rows of the project. -/
def storeCountAssets (rows : List Asset) (projectId : String) : Nat :=
  (rows.filter (fun a => decide (a.project_id = some projectId))).length

/-- `renderDashboard()` (lines 383-397): one card for each cached project. -/
def renderDashboard (st : State) : State :=
  if st.projects.length = 0 then
    { st with projectGrid := [], emptyProjectsHidden := false }
  else
    { st with projectGrid := st.projects, emptyProjectsHidden := true }

/-- `renderFolders()` (lines 444-527). -/
def renderFolders (st : State) : State :=
  match st.currentProject with
  | none => st
  | some p =>
    let projectFolders := st.folders.filter (fun f => decide (f.project_id = some p.id))
    let currentLevelFolders :=
      projectFolders.filter (fun f => decide (f.parent_id = st.currentParentFolder))
    let navigation :=
      if Js.truthy st.currentParentFolder then
        Chip.back ::
          (match st.folders.find? (fun f => decide (some f.id = st.currentParentFolder)) with
           | some currentFolder => [Chip.breadcrumb currentFolder.name]
           | none => [])
      else [Chip.all (decide (st.selectedFolder = "all"))]
    { st with
      folderChips := navigation ++ currentLevelFolders.map (fun folder =>
        Chip.folder folder (decide (st.selectedFolder = folder.id))
          (projectFolders.any (fun f => decide (f.parent_id = some folder.id)))) }

/-- `deleteProject(projectId)` (lines 734-763): `confirm` is the answer to the dialog,
`del` the reply to the delete request, the two other replies answer the reloads. -/
def deleteProject (projectId : String) (confirm : Bool) (del : Response Unit)
    (projectsReply : Response (List Project)) (foldersReply : Response (List Folder))
    (st : State) : State :=
  match st.projects.find? (fun p => p.id == projectId) with
  | none => st
  | some _ =>
    if confirm then
      let st := send (.deleteProject projectId) st
      if del.error then showToast "Error deleting project" "error" st
      else
        let st := showToast "Project deleted" "success" st
        let st := loadProjects projectsReply st
        let st := loadFolders foldersReply st
        let st := { st with
          assets := st.assets.filter (fun a => decide (a.project_id ≠ some projectId)) }
        renderDashboard st
    else st

/-- `deleteFolder(folderId)` (lines 801-832): `confirm` is the answer to the dialog,
`del` the reply to the delete request, the two other replies answer the reloads. -/
def deleteFolder (folderId : String) (confirm : Bool) (del : Response Unit)
    (foldersReply : Response (List Folder)) (fetch : Response (List Asset))
    (st : State) : State :=
  match st.folders.find? (fun f => f.id == folderId) with
  | none => st
  | some _ =>
    if confirm then
      let st := send (.deleteFolder folderId) st
      if del.error then showToast "Error deleting folder" "error" st
      else
        let st := showToast "Folder deleted" "success" st
        let st := { st with selectedFolder := "all" }
        let st := loadFolders foldersReply st
        let st :=
          match st.currentProject with
          | some p => loadAssets (some p.id) fetch st
          | none => st
        renderAssets (renderFolders st)
    else st

/-- `deleteAsset(id)` (lines 993-1017): `confirm` is the answer to the dialog, `del` the
reply to the delete request, `fetch` the reply to the reload that follows. -/
def deleteAsset (id : String) (confirm : Bool) (del : Response Unit)
    (fetch : Response (List Asset)) (st : State) : State :=
  match st.assets.find? (fun a => a.id == id) with
  | none => st
  | some _ =>
    if confirm then
      let st := send (.deleteAsset id) st
      if del.error then showToast "Error deleting asset" "error" st
      else
        let st := showToast "Asset deleted" "success" st
        match st.currentProject with
        | some p => updateStorageInfo (renderAssets (loadAssets (some p.id) fetch st))
        | none => st
    else st

/-- `toggleSelectionMode()` (lines 1035-1049). -/
def toggleSelectionMode (st : State) : State :=
  let st := { st with selectionMode := !st.selectionMode, selectedAssets := [] }
  let st :=
    if st.selectionMode then
      { st with bulkActionsShown := true, selectionModeBtnActive := true }
    else
      { st with bulkActionsShown := false, selectionModeBtnActive := false }
  renderAssets (updateSelectedCount st)

/-- `exitSelectionMode()` (lines 1051-1059). -/
def exitSelectionMode (st : State) : State :=
  let st := { st with
    selectionMode := false, selectedAssets := [], bulkActionsShown := false,
    selectionModeBtnActive := false }
  match st.currentProject with
  | some _ => renderAssets st
  | none => st

/-- `closeUploadModal()` (lines 841-849). -/
def closeUploadModal (st : State) : State :=
  { st with
    uploadModalShown := false, fileInput := "", projectSelect := "", folderSelect := "",
    filePreviewShown := false, uploadFilesBtnDisabled := true, pendingFiles := [] }

/-- The `for` loop of `uploadFiles` (lines 948-970) from the `k`-th valid file on;
`insert k` is the reply of the store to the insert of that file. The result is the
state and `successCount`. -/
def uploadLoop (projectId : String) (folderId : Option String) (insert : Nat → Response Unit) :
    List File → Nat → State → Nat → State × Nat
  | [], _, st, successCount => (st, successCount)
  | file :: rest, k, st, successCount =>
    match file.read with
    | some base64 =>
      let st := send (.insertAsset file.name file.type file.size base64 projectId folderId) st
      if (insert k).error then
        uploadLoop projectId folderId insert rest (k + 1)
          (showToast ("Failed to upload \"" ++ file.name ++ "\"") "error" st) successCount
      else uploadLoop projectId folderId insert rest (k + 1) st (successCount + 1)
    | none =>
      uploadLoop projectId folderId insert rest (k + 1)
        (showToast ("Failed to upload \"" ++ file.name ++ "\"") "error" st) successCount

/-- `uploadFiles()` (lines 924-981): the project and the folder are the values of the
two select elements, `insert` answers the inserts and `fetch` the reload. -/
def uploadFiles (insert : Nat → Response Unit) (fetch : Response (List Asset))
    (st : State) : State :=
  let projectId := st.projectSelect
  let folderId := if st.folderSelect ≠ "" then some st.folderSelect else none
  if projectId = "" ∨ st.pendingFiles.length = 0 then
    showToast "Please select a project and files" "error" st
  else
    let validFiles := st.pendingFiles.filter isValid
    let st := { st with
      toasts := st.toasts ++ (st.pendingFiles.filterMap rejection).map (fun m => ⟨m, "error"⟩) }
    if validFiles.length = 0 then st
    else
      match uploadLoop projectId folderId insert validFiles 0 st 0 with
      | (st, successCount) =>
        if successCount > 0 then
          let st := showToast (toString successCount ++ " asset(s) uploaded successfully")
            "success" st
          let st :=
            match st.currentProject with
            | some p =>
              if p.id = projectId then
                updateStorageInfo (renderAssets (loadAssets (some projectId) fetch st))
              else st
            | none => st
          closeUploadModal st
        else st

/-- `toggleAssetSelection(assetId)` (lines 1061-1069). -/
def toggleAssetSelection (assetId : String) (st : State) : State :=
  let st :=
    if assetId ∈ st.selectedAssets then
      { st with selectedAssets := st.selectedAssets.filter (fun id => decide (id ≠ assetId)) }
    else
      { st with selectedAssets := setAdd st.selectedAssets assetId }
  renderAssets (updateSelectedCount st)

/-- `handleSearch(e)` (lines 1169-1173), `value` being the text of the search box. -/
def handleSearch (value : String) (st : State) : State :=
  let st := { st with searchInput := value, searchQuery := Js.trim (Js.toLowerCase value) }
  let st := { st with clearSearchVisible := decide (st.searchQuery.length > 0) }
  renderAssets st

/-- `clearSearch()` (lines 1175-1180). -/
def clearSearch (st : State) : State :=
  renderAssets { st with searchInput := "", searchQuery := "", clearSearchVisible := false }

/-- The click handler of the Back button (lines 462-468). -/
def backClick (st : State) : State :=
  let parent := st.folders.find? (fun f => decide (some f.id = st.currentParentFolder))
  let st := { st with
    currentParentFolder :=
      match parent with
      | some parent => parent.parent_id
      | none => none
    selectedFolder := "all" }
  renderAssets (renderFolders st)

/-- The click handler of the "All" button (lines 488-492). -/
def allClick (st : State) : State :=
  renderAssets (renderFolders { st with selectedFolder := "all" })

/-- The click handler of the chip of `folder` (lines 511-515). -/
def chipClick (folder : Folder) (st : State) : State :=
  renderAssets (renderFolders { st with selectedFolder := folder.id })

/-- The double-click handler of the chip of `folder` (lines 517-523). -/
def chipDblClick (folder : Folder) (st : State) : State :=
  renderAssets (renderFolders
    { st with currentParentFolder := some folder.id, selectedFolder := "all" })

/-- `showSkeletonLoading()` (lines 529-550): the grid holds twelve skeleton cards and
no asset. -/
def showSkeletonLoading (st : State) : State :=
  match st.currentProject with
  | none => st
  | some _ => { st with assetGrid := [], emptyAssetsHidden := true, assetCount := "" }

/-- `showProject(projectId)` (lines 332-357), `fetch` being the reply to its
`loadAssets`. -/
def showProject (projectId : String) (fetch : Response (List Asset)) (st : State) : State :=
  match st.projects.find? (fun p => p.id == projectId) with
  | none => st
  | some project =>
    let st := { st with
      currentProject := some project, selectedFolder := "all", currentParentFolder := none,
      searchQuery := "" }
    let st := exitSelectionMode st
    let st := { st with
      dashboardViewShown := false, projectViewShown := true, backToDashboardShown := true,
      pageTitle := project.name, searchInput := "" }
    let st := renderFolders st
    let st := showSkeletonLoading st
    let st := loadAssets (some projectId) fetch st
    updateStorageInfo (renderAssets st)

/-- `closeFolderModal()` (lines 1208-1210). -/
def closeFolderModal (st : State) : State := { st with folderModalShown := false }

/-- `createFolder()` (lines 766-799): `value` is the text of the name input, `insert`
the reply to the insert and `foldersReply` the reply to the reload. -/
def createFolder (value : String) (insert : Response Unit)
    (foldersReply : Response (List Folder)) (st : State) : State :=
  match st.currentProject with
  | none => showToast "Please select a project first" "error" st
  | some p =>
    let name := Js.trim value
    if name = "" then showToast "Please enter a folder name" "error" st
    else
      let st := send (.insertFolder name p.id st.currentParentFolder) st
      if insert.error then showToast "Error creating folder" "error" st
      else
        let st := showToast ("Folder \"" ++ name ++ "\" created") "success" st
        let st := loadFolders foldersReply st
        closeFolderModal (renderFolders st)

/-- `downloadAsset(asset)` (lines 1019-1032): the state and the link that is
clicked. -/
def downloadAsset (asset : Asset) (st : State) : State × Link :=
  (showToast ("Downloaded \"" ++ asset.name ++ "\"") "success" st,
    { href := asset.data, download := asset.name })

/-- A `setTimeout` call of `bulkDownload`: after `delay` milliseconds a link is
clicked, or a toast is shown. -/
inductive Timer where
  | download (delay : Nat) (link : Link)
  | toast (delay : Nat) (message type : String)
  deriving DecidableEq, Repr

/-- `bulkDownload()` (lines 1133-1166): the state and the timers it sets, in the order
of the `setTimeout` calls. -/
def bulkDownload (st : State) : State × List Timer :=
  if st.selectedAssets.length = 0 then (showToast "No assets selected" "error" st, [])
  else
    let assetIds := st.selectedAssets
    let selectedAssetsList := st.assets.filter (fun a => assetIds.contains a.id)
    (showToast ("Downloading " ++ toString selectedAssetsList.length ++ " asset(s)...")
        "info" st,
      selectedAssetsList.enum.map
          (fun e => Timer.download (e.1 * 300) { href := e.2.data, download := e.2.name }) ++
        [Timer.toast (selectedAssetsList.length * 300 + 500)
          (toString selectedAssetsList.length ++ " asset(s) downloaded") "success"])

/-- The visibility rule in the words of the specification: the asset belongs to the
project `P`, satisfies the folder rule for `s` and `c`, and matches the query. -/
def visibleSpec (F : List Folder) (P : String) (s : String) (c : Option String)
    (q : String) (a : Asset) : Prop :=
  a.project_id = some P ∧
  (if s ≠ "all" then a.folder_id = some s
   else if Js.truthy c = true then a.folder_id = c
   else (Js.truthy a.folder_id = false ∨
          ∃ f ∈ F, some f.id = a.folder_id ∧ Js.truthy f.parent_id = false)) ∧
  (q ≠ "" → Js.includes (Js.toLowerCase a.name) q = true)

instance (F : List Folder) (P s : String) (c : Option String) (q : String) (a : Asset) :
    Decidable (visibleSpec F P s c q a) := by
  unfold visibleSpec; infer_instance

end Hosted

namespace Local

/-- `MAX_FILE_SIZE = 2 * 1024 * 1024` (script.js, line 3). -/
def MAX_FILE_SIZE : Nat := 2 * 1024 * 1024

/-- `ALLOWED_TYPES` (script.js, line 5). -/
def ALLOWED_TYPES : List String :=
  ["image/jpeg", "image/png", "image/gif", "image/webp", "image/svg+xml"]

/-- The `estimatedQuota` of `checkStorageAvailable` and `updateStorageInfo`. -/
def estimatedQuota : Nat := 5 * 1024 * 1024

/-- An asset record of the local collection (script.js, lines 118-125). -/
structure Asset where
  id : String
  name : String
  type : String
  size : Nat
  data : String
  uploadDate : String
  deriving DecidableEq, Repr

/-- How `localStorage.setItem` ends: normally, or by throwing `QuotaExceededError`,
or by throwing another error. -/
inductive SetItem where
  | ok
  | quotaExceeded
  | otherError
  deriving DecidableEq, Repr

/-- The module-level state of script.js (lines 8-9), the item kept in `localStorage`
under `STORAGE_KEY` (the collection it serializes), the number of `setItem` calls,
and the parts of the page the functions write. -/
structure State where
  assets : List Asset
  searchQuery : String
  storage : Option (List Asset)
  setItemCalls : Nat
  assetGrid : List Asset
  assetCount : String
  emptyStateHidden : Bool
  storageUsed : Nat
  storageDanger : Bool
  clearSearchVisible : Bool
  toasts : List Toast
  deriving DecidableEq, Repr

/-- `showToast(message, type)`: the toast is appended to the ones shown so far. -/
def showToast (message type : String) (st : State) : State :=
  { st with toasts := st.toasts ++ [⟨message, type⟩] }

/-- The `totalSize` of `checkStorageAvailable` and `updateStorageInfo`: the sum of
the lengths of the data strings (data URLs, whose characters are ASCII). -/
def totalSize (assets : List Asset) : Nat :=
  assets.foldl (fun sum asset => sum + asset.data.length) 0

/-- `checkStorageAvailable()` (lines 360-368): `totalSize < estimatedQuota * 0.95`. The
product is the integer 4980736, also in double arithmetic, so the comparison is
made on integers. -/
def checkStorageAvailable (st : State) : Bool :=
  decide (totalSize st.assets * 100 < estimatedQuota * 95)

/-- `saveAssets()` (lines 186-197), given how `setItem` ends. -/
def saveAssets (outcome : SetItem) (st : State) : State :=
  let st := { st with setItemCalls := st.setItemCalls + 1 }
  match outcome with
  | .ok => { st with storage := some st.assets }
  | .quotaExceeded => showToast "Storage quota exceeded. Please delete some assets." "error" st
  | .otherError => showToast "Error saving assets to storage" "error" st

/-- The count label of a non-empty grid (line 259). -/
def countLabel (n : Nat) : String :=
  toString n ++ " asset" ++ (if n ≠ 1 then "s" else "")

/-- `renderAssets()` (script.js, lines 243-265). -/
def renderAssets (st : State) : State :=
  let filteredAssets :=
    if st.searchQuery ≠ "" then
      st.assets.filter (fun asset => Js.includes (Js.toLowerCase asset.name) st.searchQuery)
    else st.assets
  if filteredAssets.length = 0 then
    { st with
      assetGrid := []
      emptyStateHidden := false
      assetCount := if st.searchQuery ≠ "" then "No matching assets" else "0 assets" }
  else
    { st with
      assetGrid := filteredAssets
      emptyStateHidden := true
      assetCount := countLabel filteredAssets.length }

/-- `updateStorageInfo()` (lines 345-358): the total handed to `formatFileSize`, and
whether `totalSize / estimatedQuota > 0.8` colours it as a warning. -/
def updateStorageInfo (st : State) : State :=
  { st with
    storageUsed := totalSize st.assets
    storageDanger := decide (totalSize st.assets * 10 > estimatedQuota * 8) }

/-- The filter callback of `processFiles` (lines 89-103): the message of the toast
shown for a rejected file, `none` for a file that is kept. -/
def rejection (file : File) : Option String :=
  if !ALLOWED_TYPES.contains file.type then
    some ("\"" ++ file.name ++ "\" is not a supported format")
  else if file.size > MAX_FILE_SIZE then
    some ("\"" ++ file.name ++ "\" exceeds 2MB limit")
  else none

/-- Whether the filter callback of `processFiles` returns `true`. -/
def isValid (file : File) : Bool := (rejection file).isNone

/-- `Array.prototype.findIndex`, with `none` for `-1`. -/
def findIndex (p : Asset → Bool) : List Asset → Option Nat
  | [] => none
  | a :: rest => if p a then some 0 else (findIndex p rest).map (fun i => i + 1)

/-- Lines 128-134 of `processFiles`: the asset replaces the first one of the same
name, or is pushed at the end. -/
def store (assets : List Asset) (asset : Asset) : List Asset :=
  match findIndex (fun a => a.name == asset.name) assets with
  | some existingIndex => assets.set existingIndex asset
  | none => assets ++ [asset]

/-- The `for` loop of `processFiles` (lines 115-141) from the `k`-th valid file on;
`fresh k` is the pair of `generateId()` and `new Date().toISOString()` at that file.
The result is the state and `successCount`. -/
def processLoop (fresh : Nat → String × String) :
    List File → Nat → State → Nat → State × Nat
  | [], _, st, successCount => (st, successCount)
  | file :: rest, k, st, successCount =>
    match file.read with
    | some base64 =>
      let asset : Asset :=
        { id := (fresh k).1, name := file.name, type := file.type, size := file.size,
          data := base64, uploadDate := (fresh k).2 }
      processLoop fresh rest (k + 1) { st with assets := store st.assets asset }
        (successCount + 1)
    | none =>
      processLoop fresh rest (k + 1)
        (showToast ("Failed to process \"" ++ file.name ++ "\"") "error" st) successCount

/-- `processFiles(files)` (lines 85-149): `fresh` supplies ids and dates, `outcome`
tells how the `setItem` of `saveAssets` ends. -/
def processFiles (files : List File) (fresh : Nat → String × String) (outcome : SetItem)
    (st : State) : State :=
  if files.length = 0 then st
  else
    let st := { st with
      toasts := st.toasts ++ (files.filterMap rejection).map (fun m => ⟨m, "error"⟩) }
    let validFiles := files.filter isValid
    if validFiles.length = 0 then st
    else if !checkStorageAvailable st then
      showToast "Storage limit reached. Please delete some assets." "error" st
    else
      match processLoop fresh validFiles 0 st 0 with
      | (st, successCount) =>
        if successCount > 0 then
          showToast (toString successCount ++ " asset(s) uploaded successfully") "success"
            (updateStorageInfo (renderAssets (saveAssets outcome st)))
        else st

/-- `deleteAsset(id)` (script.js, lines 199-210): `confirm` is the answer to the
dialog, `outcome` tells how the `setItem` of `saveAssets` ends. -/
def deleteAsset (id : String) (confirm : Bool) (outcome : SetItem) (st : State) : State :=
  match st.assets.find? (fun a => a.id == id) with
  | none => st
  | some _ =>
    if confirm then
      let st := { st with assets := st.assets.filter (fun a => a.id != id) }
      showToast "Asset deleted" "success"
        (updateStorageInfo (renderAssets (saveAssets outcome st)))
    else st

/-- `handleClearAll()` (script.js, lines 230-240). -/
def handleClearAll (confirm : Bool) (outcome : SetItem) (st : State) : State :=
  if st.assets.length = 0 then st
  else if confirm then
    let st := { st with assets := [] }
    showToast "All assets cleared" "success"
      (updateStorageInfo (renderAssets (saveAssets outcome st)))
  else st

/-- `handleSearch(e)` (script.js, lines 161-165), `value` being the text of the search
box. -/
def handleSearch (value : String) (st : State) : State :=
  let st := { st with searchQuery := Js.trim (Js.toLowerCase value) }
  let st := { st with clearSearchVisible := decide (st.searchQuery.length > 0) }
  renderAssets st

/-- `loadAssets()` (script.js, lines 175-184). The stored item is kept as the
collection it serializes, so `JSON.parse` gives that collection back. -/
def loadAssets (st : State) : State :=
  match st.storage with
  | some stored => { st with assets := stored }
  | none => { st with assets := [] }

/-- `downloadAsset(id)` (script.js, lines 212-228): the state and the link that is
clicked, if the asset exists. -/
def downloadAsset (id : String) (st : State) : State × Option Link :=
  match st.assets.find? (fun a => a.id == id) with
  | none => (st, none)
  | some asset =>
    (showToast ("Downloaded \"" ++ asset.name ++ "\"") "success" st,
      some { href := asset.data, download := asset.name })

end Local

/-! ## Auxiliary definitions and example states -/

namespace Hosted

/-- Whether a request deletes rows of the store. -/
def isDeleteRequest : Request → Bool
  | .deleteProject _ => true
  | .deleteFolder _ => true
  | .deleteAsset _ => true
  | .deleteAssetsIn _ => true
  | _ => false

/-- The project "Marketing". -/
def exProject : Project :=
  { id := "p1", name := "Marketing", description := none, color := "#667eea",
    created_at := "2024-01-01T00:00:00Z" }

/-- The root folder "Logos" and its child folder "2024". -/
def exFolders : List Folder :=
  [ { id := "f1", project_id := some "p1", parent_id := none, name := "Logos",
      created_at := "2024-01-02T00:00:00Z" },
    { id := "f2", project_id := some "p1", parent_id := some "f1", name := "2024",
      created_at := "2024-01-03T00:00:00Z" } ]

/-- An asset of the project outside every folder. -/
def exRootAsset : Asset :=
  { id := "a1", project_id := some "p1", folder_id := none, name := "root.png",
    type := "image/png", size := 10, data := "data:image/png;base64,AAAA",
    upload_date := "2024-02-02T00:00:00Z" }

/-- An asset of the project inside the child folder "2024". -/
def exNestedAsset : Asset :=
  { id := "a2", project_id := some "p1", folder_id := some "f2", name := "nested.png",
    type := "image/png", size := 20, data := "data:image/png;base64,BBBB",
    upload_date := "2024-02-01T00:00:00Z" }

/-- The project "Marketing" is open at its root "All" view, no search, nothing
selected; the cache holds the two assets. -/
def exState : State :=
  { projects := [exProject], folders := exFolders, assets := [exRootAsset, exNestedAsset],
    assetCounts := [("p1", 2)], searchQuery := "", currentProject := some exProject,
    selectedFolder := "all", currentParentFolder := none, selectedAssets := [],
    selectionMode := true, pendingFiles := [], assetGrid := [exRootAsset],
    assetCount := "1 asset", emptyAssetsHidden := true, selectedCount := "0 selected",
    storageUsed := 30, projectGrid := [exProject], emptyProjectsHidden := true,
    folderChips := [.all true, .folder ⟨"f1", some "p1", none, "Logos",
      "2024-01-02T00:00:00Z"⟩ false true],
    bulkActionsShown := true, selectionModeBtnActive := true, uploadModalShown := false,
    fileInput := "", projectSelect := "", folderSelect := "", filePreviewShown := false,
    uploadFilesBtnDisabled := true, dashboardViewShown := false, projectViewShown := true,
    backToDashboardShown := true, pageTitle := "Marketing", searchInput := "",
    clearSearchVisible := false, folderModalShown := false, toasts := [], requests := [] }


/-- A store table with 201 asset rows of the project "Marketing". -/
def exManyRows : List Asset :=
  (List.range 201).map (fun i => { exRootAsset with id := "a" ++ toString i })

/-- The store answers every count query with the exact row count of `exManyRows`. -/
def exCountReply (projectId : String) : CountResponse :=
  { count := some (storeCountAssets exManyRows projectId), error := false }

end Hosted

namespace Local

/-- A data URL of 22 + 2796204 = 2796226 characters, the length of the base64
encoding of a PNG file of 2 * 1024 * 1024 bytes. -/
def exDataUrl : String := ⟨"data:image/png;base64,".data ++ List.replicate 2796204 'A'⟩

/-- The page before anything is uploaded. -/
def exEmpty : State :=
  { assets := [], searchQuery := "", storage := none, setItemCalls := 0, assetGrid := [],
    assetCount := "0 assets", emptyStateHidden := false, storageUsed := 0,
    storageDanger := false, clearSearchVisible := false, toasts := [] }

/-- A stored asset of 2 MiB named "x.png". -/
def exAssetX : Asset :=
  { id := "x1", name := "x.png", type := "image/png", size := 2097152,
    data := exDataUrl, uploadDate := "2024-02-01T00:00:00.000Z" }

/-- A stored asset of 2 MiB named "y.png". -/
def exAssetY : Asset :=
  { id := "y1", name := "y.png", type := "image/png", size := 2097152,
    data := exDataUrl, uploadDate := "2024-02-02T00:00:00.000Z" }

/-- A collection of two assets of 2 MiB each, with distinct names. -/
def exFull : State := { exEmpty with assets := [exAssetX, exAssetY] }

/-- A first file named "logo.png". -/
def exLogo1 : File :=
  { name := "logo.png", type := "image/png", size := 3,
    read := some "data:image/png;base64,AAAA" }

/-- A second file named "logo.png", with other content. -/
def exLogo2 : File :=
  { name := "logo.png", type := "image/png", size := 3,
    read := some "data:image/png;base64,BBBB" }

/-- A file of 2 MiB named "a.png". -/
def exBigA : File :=
  { name := "a.png", type := "image/png", size := 2097152, read := some exDataUrl }

/-- A file of 2 MiB named "b.png". -/
def exBigB : File :=
  { name := "b.png", type := "image/png", size := 2097152, read := some exDataUrl }

/-- A supply of ids and dates. -/
def exFresh (k : Nat) : String × String :=
  ("id" ++ toString k, "2024-03-01T00:00:0" ++ toString k ++ ".000Z")

end Local

namespace Js

/-- The `<` of JavaScript on two strings, as lists of characters: the first
difference decides, and a proper beginning comes first. On timestamps written by
`toISOString` it is the order of time. -/
def lessThan : List Char → List Char → Bool
  | [], [] => false
  | [], _ :: _ => true
  | _ :: _, [] => false
  | a :: as, b :: bs =>
    if a.toNat < b.toNat then true
    else if b.toNat < a.toNat then false
    else lessThan as bs

end Js

namespace Local

/-- The search rule in the words of the specification, for ASCII text: the name
contains the query as a substring, letter case ignored. -/
def matchesIgnoringCase (name query : String) : Bool :=
  Js.includes (Js.toLowerCase name) (Js.toLowerCase query)

/-- An asset record with the given name. -/
def exNamed (id name : String) : Asset :=
  { id := id, name := name, type := "image/png", size := 3,
    data := "data:image/png;base64,AAAA", uploadDate := "2024-02-01T00:00:00.000Z" }

/-- The collection "cat.png", "dog.png", "Category.svg". -/
def exCats : State :=
  { exEmpty with
    assets := [exNamed "c1" "cat.png", exNamed "c2" "dog.png", exNamed "c3" "Category.svg"] }

/-- A file named "icon.png". -/
def exIcon : File :=
  { name := "icon.png", type := "image/png", size := 3,
    read := some "data:image/png;base64,CCCC" }

end Local

/-! ## The outcome of an upload batch, stated file by file -/

namespace Hosted

/-- The toasts of the validation step: one for each rejected file, in batch order. -/
def rejectionToasts (files : List File) : List Toast :=
  (files.filterMap rejection).map (fun m => ⟨m, "error"⟩)

/-- One insert request for each file whose read succeeds, in batch order. -/
def insertRequests (projectId : String) (folderId : Option String) (files : List File) :
    List Request :=
  files.filterMap (fun f =>
    f.read.map (fun d => Request.insertAsset f.name f.type f.size d projectId folderId))

/-- Whether the file at position `e.1` among the valid files is uploaded: its read
succeeds and the store accepts its insert. -/
def uploaded (insert : Nat → Response Unit) (e : Nat × File) : Bool :=
  e.2.read.isSome && !(insert e.1).error

/-- The number of valid files, counted from position `k`, whose read and insert
succeed. -/
def uploadedCount (insert : Nat → Response Unit) (files : List File) (k : Nat) : Nat :=
  ((files.enumFrom k).filter (uploaded insert)).length

/-- One failure toast for each valid file whose read or insert fails, in batch
order. -/
def failureToasts (insert : Nat → Response Unit) (files : List File) (k : Nat) : List Toast :=
  ((files.enumFrom k).filter (fun e => !uploaded insert e)).map
    (fun e => ⟨"Failed to upload \"" ++ e.2.name ++ "\"", "error"⟩)

/-- The project id and folder id that `uploadFiles` reads from the two selects. -/
def targetFolder (st : State) : Option String :=
  if st.folderSelect ≠ "" then some st.folderSelect else none

/-- Whether the project chosen in the upload dialog is the open project, so that a
successful batch reloads the cache. -/
def reloads (st : State) : Bool :=
  match st.currentProject with
  | some p => decide (p.id = st.projectSelect)
  | none => false

end Hosted

namespace Local

/-- The toasts of the validation step: one for each rejected file, in batch order. -/
def rejectionToasts (files : List File) : List Toast :=
  (files.filterMap rejection).map (fun m => ⟨m, "error"⟩)

/-- The collection after the valid files, counted from position `k`, are handled one
after the other: a file whose read succeeds is stored, a file whose read fails is
skipped. -/
def processedAssets (fresh : Nat → String × String) (files : List File) (k : Nat)
    (assets : List Asset) : List Asset :=
  (files.enumFrom k).foldl
    (fun acc e =>
      match e.2.read with
      | some d => store acc ⟨(fresh e.1).1, e.2.name, e.2.type, e.2.size, d, (fresh e.1).2⟩
      | none => acc)
    assets

/-- The number of files whose read succeeds. -/
def readCount (files : List File) : Nat := (files.filter (fun f => f.read.isSome)).length

/-- One failure toast for each file whose read fails, in batch order. -/
def readFailureToasts (files : List File) : List Toast :=
  (files.filter (fun f => f.read.isNone)).map
    (fun f => ⟨"Failed to process \"" ++ f.name ++ "\"", "error"⟩)

/-- The toast `saveAssets` shows for each way `setItem` can end. -/
def saveToasts : SetItem → List Toast
  | .ok => []
  | .quotaExceeded => [⟨"Storage quota exceeded. Please delete some assets.", "error"⟩]
  | .otherError => [⟨"Error saving assets to storage", "error"⟩]

end Local

namespace Hosted

/-- A valid file whose read fails. -/
def exUnreadable : File :=
  { name := "broken.png", type := "image/png", size := 3, read := none }

/-- A valid file whose read succeeds. -/
def exReadable : File :=
  { name := "logo.png", type := "image/png", size := 3,
    read := some "data:image/png;base64,AAAA" }

/-- The upload dialog of the example state, with the open project chosen and two
pending files, the first of which cannot be read. -/
def exUploadState : State :=
  { exState with
    pendingFiles := [exUnreadable, exReadable], projectSelect := "p1",
    uploadModalShown := true, filePreviewShown := true, uploadFilesBtnDisabled := false }

/-- The store accepts every insert. -/
def exInsertOk (_ : Nat) : Response Unit := { data := none, error := false }

end Hosted

namespace Local

/-- The toasts `processFiles` shows after the validation step, given the valid files
`V` of the batch: nothing when there is none, the storage warning when the check
fails, and otherwise the read failures, the toast of `saveAssets` and the success
toast. -/
def laterToasts (o : SetItem) (st : State) (V : List File) : List Toast :=
  if V.length = 0 then []
  else if checkStorageAvailable st = true then
    readFailureToasts V ++
      (if 0 < readCount V then
        saveToasts o ++ [⟨toString (readCount V) ++ " asset(s) uploaded successfully", "success"⟩]
      else [])
  else [⟨"Storage limit reached. Please delete some assets.", "error"⟩]

end Local

/-- A PNG file of 2,097,153 bytes, one byte over the ceiling. -/
def exHuge : File :=
  { name := "huge.png", type := "image/png", size := 2097153,
    read := some "data:image/png;base64,AAAA" }

namespace Hosted

/-- Whether a timer of `bulkDownload` clicks a download link. -/
def isDownloadTimer : Timer → Bool
  | .download _ _ => true
  | .toast _ _ _ => false

/-- The cached assets whose id is selected, in cache order: the `selectedAssetsList`
of `bulkDownload`. -/
def selectedCached (st : State) : List Asset :=
  st.assets.filter (fun a => st.selectedAssets.contains a.id)

end Hosted

/-! ## The Figma plugin (figma-plugin/code.js) -/

namespace Figma

/-- The settings object `handleExportFrames` hands to `node.exportAsync` (lines
95-107). -/
inductive ExportSettings where
  | svg (svgOutlineText svgIdAttribute svgSimplifyStroke : Bool)
  | png (scale : ℚ)
  deriving DecidableEq, Repr

/-- A node of the selection. `exportAsync` is `none` for a node without that property;
the function answers with the bytes, or with `none` when the promise is rejected.
Numbers are kept as exact rationals. -/
structure Node where
  id : String
  name : String
  width : ℚ
  height : ℚ
  exportAsync : Option (ExportSettings → Option (List Nat))

/-- The `options` of an `export-frames` message. -/
structure Options where
  format : String
  scale : ℚ
  deriving DecidableEq, Repr

/-- An entry of `exportedFrames` (lines 125-133). -/
structure Frame where
  id : String
  name : String
  type : String
  size : Nat
  data : String
  width : ℤ
  height : ℤ
  deriving DecidableEq, Repr

/-- The messages `handleExportFrames` posts to the UI. -/
inductive Message where
  | exportError (error : String)
  | exportComplete (frames : List Frame)
  deriving DecidableEq, Repr

/-- What a call leaves behind: the messages given to `figma.ui.postMessage` and the
texts given to `figma.notify`, each in order. -/
structure Effects where
  posted : List Message
  notified : List String
  deriving DecidableEq, Repr

/-- `Math.round` on an exact number: the nearest integer, halves going up. -/
def mathRound (x : ℚ) : ℤ := ⌊x + 1 / 2⌋

/-- The `for` loop of `handleExportFrames` (lines 90-140): the frames pushed and the
notifications shown so far are carried along. `base64Encode` is `figma.base64Encode`. -/
def exportLoop (base64Encode : List Nat → String) (format : String) (scale : ℚ) :
    List Node → List Frame → List String → List Frame × List String
  | [], exportedFrames, notified => (exportedFrames, notified)
  | node :: rest, exportedFrames, notified =>
    match node.exportAsync with
    | none => exportLoop base64Encode format scale rest exportedFrames notified
    | some exportAsync =>
      let exportSettings : ExportSettings :=
        if format = "SVG" then .svg true false true else .png scale
      match exportAsync exportSettings with
      | some bytes =>
        let base64 := base64Encode bytes
        let mimeType := if format = "SVG" then "image/svg+xml" else "image/png"
        let dataUrl := "data:" ++ mimeType ++ ";base64," ++ base64
        exportLoop base64Encode format scale rest
          (exportedFrames ++
            [{ id := node.id
               name := node.name ++ (if format = "SVG" then ".svg" else ".png")
               type := mimeType
               size := bytes.length
               data := dataUrl
               width := mathRound (node.width * (if format = "SVG" then 1 else scale))
               height := mathRound (node.height * (if format = "SVG" then 1 else scale)) }])
          notified
      | none =>
        exportLoop base64Encode format scale rest exportedFrames
          (notified ++ ["Error exporting " ++ node.name])

/-- `handleExportFrames(options)` (lines 76-146) on the selection of the current
page. -/
def handleExportFrames (base64Encode : List Nat → String) (options : Options)
    (selection : List Node) : Effects :=
  if selection.length = 0 then
    { posted := [.exportError "No frames selected"], notified := [] }
  else
    match exportLoop base64Encode options.format options.scale selection [] [] with
    | (exportedFrames, notified) =>
      { posted := [.exportComplete exportedFrames], notified := notified }

/-- The bytes a node exports under the options, `none` for a node that has no
`exportAsync` or whose export fails. -/
def exported (options : Options) (node : Node) : Option (List Nat) :=
  node.exportAsync.bind (fun exportAsync =>
    exportAsync (if options.format = "SVG" then .svg true false true else .png options.scale))

/-- Whether the node supports export and its export fails. -/
def failed (options : Options) (node : Node) : Bool :=
  node.exportAsync.isSome && (exported options node).isNone

/-- The entry built for a node from its exported bytes. -/
def frameOf (base64Encode : List Nat → String) (options : Options) (node : Node)
    (bytes : List Nat) : Frame :=
  { id := node.id
    name := node.name ++ (if options.format = "SVG" then ".svg" else ".png")
    type := if options.format = "SVG" then "image/svg+xml" else "image/png"
    size := bytes.length
    data := "data:" ++ (if options.format = "SVG" then "image/svg+xml" else "image/png") ++
      ";base64," ++ base64Encode bytes
    width := mathRound (node.width * (if options.format = "SVG" then 1 else options.scale))
    height := mathRound (node.height * (if options.format = "SVG" then 1 else options.scale)) }

/-- The entries for the nodes whose export succeeds, in selection order. -/
def framesOf (base64Encode : List Nat → String) (options : Options)
    (selection : List Node) : List Frame :=
  selection.filterMap (fun node =>
    (exported options node).map (frameOf base64Encode options node))

/-- The base64 alphabet. -/
def exAlphabet : List Char :=
  "ABCDEFGHIJKLMNOPQRSTUVWXYZabcdefghijklmnopqrstuvwxyz0123456789+/".data

/-- A base64 encoder for the examples, standing for the host's `figma.base64Encode`. -/
def exBase64Chars : List Nat → List Char
  | a :: b :: c :: rest =>
    [exAlphabet.getD (a / 4) 'A', exAlphabet.getD (a % 4 * 16 + b / 16) 'A',
      exAlphabet.getD (b % 16 * 4 + c / 64) 'A', exAlphabet.getD (c % 64) 'A'] ++
        exBase64Chars rest
  | [a, b] =>
    [exAlphabet.getD (a / 4) 'A', exAlphabet.getD (a % 4 * 16 + b / 16) 'A',
      exAlphabet.getD (b % 16 * 4) 'A', '=']
  | [a] => [exAlphabet.getD (a / 4) 'A', exAlphabet.getD (a % 4 * 16) 'A', '=', '=']
  | [] => []

/-- The encoder of the examples as a function to strings. -/
def exBase64Encode (bytes : List Nat) : String := ⟨exBase64Chars bytes⟩

/-- A frame whose export gives three bytes. -/
def exCover : Node :=
  { id := "1:2", name := "Cover", width := 100, height := 50,
    exportAsync := some (fun _ => some [77, 97, 110]) }

/-- A node without `exportAsync`. -/
def exGuide : Node :=
  { id := "1:3", name := "Guide", width := 10, height := 10, exportAsync := none }

/-- A frame whose export fails. -/
def exBroken : Node :=
  { id := "1:4", name := "Broken", width := 20, height := 20,
    exportAsync := some (fun _ => none) }

/-- A frame whose export gives one byte. -/
def exIcon : Node :=
  { id := "1:5", name := "Icon", width := 24, height := 24,
    exportAsync := some (fun _ => some [255]) }

end Figma

/-! ## The vision relay (server.js) -/

namespace Server

/-- A JSON value, as `JSON.parse` returns it. A number is kept as the decimal it is
written as, `mantissa * 10 ^ exponent`; the members of an object are kept in the
order of the text. -/
inductive Json where
  | null
  | bool (b : Bool)
  | num (mantissa exponent : Int)
  | str (s : String)
  | arr (items : List Json)
  | obj (members : List (String × Json))

/-- The read `value[key]` of a parsed value, for a key that no prototype defines
(`imageData`, `category`, `error`, ...): `none` is `undefined`. Of members with the
same key the last one counts. -/
def Json.member (key : String) : Json → Option Json
  | .obj members => (members.reverse.find? (fun m => m.1 == key)).map (fun m => m.2)
  | _ => none

/-- Whether the value has the property. -/
def hasField (value : Json) (key : String) : Bool := (value.member key).isSome

/-- JavaScript truthiness of a property read: `undefined`, `null`, `false`, `0` and
`''` are falsy. -/
def truthy : Option Json → Bool
  | none => false
  | some .null => false
  | some (.bool b) => b
  | some (.num mantissa _) => decide (mantissa ≠ 0)
  | some (.str s) => decide (s ≠ "")
  | some (.arr _) => true
  | some (.obj _) => true

/-- The three backticks of a code fence. -/
def fence : List Char := "```".data

/-- The opening fence with the language tag. -/
def fenceJson : List Char := "```json".data

/-- Whether the end of the two patterns, `\n?` followed by the fence, matches at the
start of `l`. -/
def closes (l : List Char) : Bool := fence.isPrefixOf l || ('\n' :: fence).isPrefixOf l

/-- The lazy group `([\s\S]*?)` followed by the end of the pattern: the shortest
start of `l` after which the end matches, `none` when there is none. -/
def lazyCapture : List Char → Option (List Char)
  | [] => none
  | c :: rest =>
    if closes (c :: rest) then some [] else (lazyCapture rest).map (fun m => c :: m)

/-- A match of `opener\n?([\s\S]*?)\n?` and the fence that starts at the start of `l`:
the captured group. The optional line break after the opener is taken when there is
one, and given back only if the rest cannot match then. -/
def matchAt (opener l : List Char) : Option (List Char) :=
  if opener.isPrefixOf l then
    match l.drop opener.length with
    | c :: rest =>
      if c = '\n' then
        match lazyCapture rest with
        | some m => some m
        | none => lazyCapture (c :: rest)
      else lazyCapture (c :: rest)
    | [] => none
  else none

/-- The group of `content.match(...)`: the leftmost match. -/
def matchFirst (opener : List Char) : List Char → Option (List Char)
  | [] => none
  | c :: rest =>
    match matchAt opener (c :: rest) with
    | some m => some m
    | none => matchFirst opener rest

/-- The text `jsonMatch[1]` of lines 150-152: the group of the first pattern that
matches, or the whole content. -/
def jsonMatch (content : List Char) : List Char :=
  match matchFirst fenceJson content with
  | some m => m
  | none =>
    match matchFirst fence content with
    | some m => m
    | none => content

/-- Lines 147-157: the value of `analysis`, `none` when the fallback `JSON.parse`
throws as well. `parse` is `JSON.parse`, with `none` for a `SyntaxError`. A `null`
content makes `content.match` throw, and the fallback then parses the text
"null". -/
def extract (parse : String → Option Json) : Option String → Option Json
  | none => parse "null"
  | some content =>
    match parse ⟨jsonMatch content.data⟩ with
    | some analysis => some analysis
    | none => parse content

/-- How the call of the model ends: it throws (or the reply has no first choice), or
it replies with a content, which may be `null`. -/
inductive ModelOutcome where
  | failure
  | reply (content : Option String)
  deriving DecidableEq, Repr

/-- The errors the `try` block of the handler can throw. -/
inductive Thrown where
  | bodyNotJson
  | bodyNull
  | modelCall
  | replyNotJson
  | analysisNull
  deriving DecidableEq, Repr

/-- The status and the JSON value written to the response. -/
structure Reply where
  status : Nat
  body : Json

/-- The `catch` block of lines 164-171; `message` gives the text of `error.message`. -/
def failedReply (message : Thrown → String) (error : Thrown) : Reply :=
  { status := 500,
    body := .obj [("error", .str "Failed to analyze image"),
      ("details", .str (message error))] }

/-- `handleImageAnalysis` (server.js, lines 82-173): `openai` tells whether the client
was created, `body` is the request body, `outcome` the end of the call of the model.
Destructuring `null` throws, and so does `analysis.category` on `null`. -/
def handleImageAnalysis (openai : Bool) (parse : String → Option Json)
    (message : Thrown → String) (body : String) (outcome : ModelOutcome) : Reply :=
  if !openai then
    { status := 500,
      body := .obj [("error",
        .str "OpenAI API key not configured. Please add OPENAI_API_KEY to .env file")] }
  else
    match parse body with
    | none => failedReply message .bodyNotJson
    | some .null => failedReply message .bodyNull
    | some parsed =>
      if !truthy (parsed.member "imageData") then
        { status := 400, body := .obj [("error", .str "No image data provided")] }
      else
        match outcome with
        | .failure => failedReply message .modelCall
        | .reply content =>
          match extract parse content with
          | none => failedReply message .replyNotJson
          | some .null => failedReply message .analysisNull
          | some analysis => { status := 200, body := analysis }

end Server

/-! ## A JSON reader for the examples of the vision relay -/

namespace Server

/-- The white space of JSON texts: space, tab, line feed, carriage return. -/
def isJsonSpace (c : Char) : Bool := c == ' ' || c == '\t' || c == '\n' || c == '\r'

/-- The text without the white space at its two ends. -/
def strip (l : List Char) : List Char :=
  ((l.dropWhile isJsonSpace).reverse.dropWhile isJsonSpace).reverse

/-- The character an escape stands for; `\u` escapes are not read. -/
def exEscape (c : Char) : Option Char :=
  if c = '"' then some '"'
  else if c = '\\' then some '\\'
  else if c = '/' then some '/'
  else if c = 'b' then some (Char.ofNat 8)
  else if c = 'f' then some (Char.ofNat 12)
  else if c = 'n' then some '\n'
  else if c = 'r' then some '\r'
  else if c = 't' then some '\t'
  else none

/-- The rest of a string after its opening quote: the string and the text after the
closing quote. -/
def exString : List Char → List Char → Option (String × List Char)
  | [], _ => none
  | c :: rest, acc =>
    if c = '"' then some (⟨acc⟩, rest)
    else if c = '\\' then
      match rest with
      | e :: rest2 =>
        match exEscape e with
        | some x => exString rest2 (acc ++ [x])
        | none => none
      | [] => none
    else if c.toNat < 32 then none
    else exString rest (acc ++ [c])

/-- The digits at the start of the text, read in base ten. -/
def exDigits : List Char → Nat → Nat × List Char
  | [], n => (n, [])
  | c :: rest, n =>
    if c.isDigit then exDigits rest (n * 10 + (c.toNat - 48)) else (n, c :: rest)

/-- Whether the text goes on with a fraction or an exponent, which are not read. -/
def exGoesOn : List Char → Bool
  | c :: _ => c == '.' || c == 'e' || c == 'E' || c.isDigit
  | [] => false

/-- An integer without sign: `0`, or digits that do not start with `0`. -/
def exNatural : List Char → Option (Nat × List Char)
  | [] => none
  | c :: rest =>
    if c = '0' then (if exGoesOn rest then none else some (0, rest))
    else if c.isDigit then
      match exDigits (c :: rest) 0 with
      | (n, after) => if exGoesOn after then none else some (n, after)
    else none

/-- An integer, with or without a minus sign. -/
def exNumber : List Char → Option (Json × List Char)
  | [] => none
  | c :: rest =>
    if c = '-' then (exNatural rest).map (fun p => (Json.num (-(p.1 : Int)) 0, p.2))
    else (exNatural (c :: rest)).map (fun p => (Json.num (p.1 : Int) 0, p.2))

/-- The elements of an array after the first bracket, `value` reading one value. -/
def exItems (value : List Char → Option (Json × List Char)) :
    Nat → List Char → List Json → Option (List Json × List Char)
  | 0, _, _ => none
  | fuel + 1, l, acc =>
    match value l with
    | none => none
    | some (v, after) =>
      match after.dropWhile isJsonSpace with
      | c :: rest =>
        if c = ',' then exItems value fuel rest (acc ++ [v])
        else if c = ']' then some (acc ++ [v], rest)
        else none
      | [] => none

/-- The members of an object after the first brace, `value` reading one value. -/
def exMembers (value : List Char → Option (Json × List Char)) :
    Nat → List Char → List (String × Json) → Option (List (String × Json) × List Char)
  | 0, _, _ => none
  | fuel + 1, l, acc =>
    match l.dropWhile isJsonSpace with
    | q :: afterQuote =>
      if q = '"' then
        match exString afterQuote [] with
        | none => none
        | some (key, afterKey) =>
          match afterKey.dropWhile isJsonSpace with
          | colon :: afterColon =>
            if colon = ':' then
              match value afterColon with
              | none => none
              | some (v, after) =>
                match after.dropWhile isJsonSpace with
                | c :: rest =>
                  if c = ',' then exMembers value fuel rest (acc ++ [(key, v)])
                  else if c = '\x7d' then some (acc ++ [(key, v)], rest)
                  else none
                | [] => none
            else none
          | [] => none
      else none
    | [] => none

/-- One JSON value at the start of the text, after white space, and the text that
follows it. The fuel bounds the nesting. -/
def exValue : Nat → List Char → Option (Json × List Char)
  | 0, _ => none
  | fuel + 1, l =>
    match l.dropWhile isJsonSpace with
    | [] => none
    | c :: rest =>
      if c = '"' then (exString rest []).map (fun p => (Json.str p.1, p.2))
      else if c = '[' then
        match rest.dropWhile isJsonSpace with
        | d :: rest2 =>
          if d = ']' then some (Json.arr [], rest2)
          else (exItems (exValue fuel) fuel rest []).map (fun p => (Json.arr p.1, p.2))
        | [] => none
      else if c = '\x7b' then
        match rest.dropWhile isJsonSpace with
        | d :: rest2 =>
          if d = '\x7d' then some (Json.obj [], rest2)
          else (exMembers (exValue fuel) fuel rest []).map (fun p => (Json.obj p.1, p.2))
        | [] => none
      else if "null".data.isPrefixOf (c :: rest) then some (Json.null, (c :: rest).drop 4)
      else if "true".data.isPrefixOf (c :: rest) then some (Json.bool true, (c :: rest).drop 4)
      else if "false".data.isPrefixOf (c :: rest) then
        some (Json.bool false, (c :: rest).drop 5)
      else exNumber (c :: rest)

/-- A reader standing for `JSON.parse` in the examples: white space around the text
is ignored, and the text must be one value. It reads the JSON texts made of `null`,
`true`, `false`, integers, strings without `\u` escapes, arrays and objects, and
rejects every other text. -/
def exParse (s : String) : Option Json :=
  match exValue ((strip s.data).length + 1) (strip s.data) with
  | some (v, []) => some v
  | _ => none

/-- The texts of `error.message` in the examples. -/
def exMessage : Thrown → String
  | .bodyNotJson => "Unexpected end of JSON input"
  | .bodyNull => "Cannot destructure property"
  | .modelCall => "Connection error."
  | .replyNotJson => "Unexpected token"
  | .analysisNull => "Cannot read properties of null"

/-- A request body with an image. -/
def exBody : String := "\x7b\"imageData\":\"data:image/png;base64,AAAA\"\x7d"

end Server

namespace Server

/-- The backtick character. -/
def backtick : Char := Char.ofNat 96

/-- Whether no run of three backticks begins inside `l` when a closing fence follows
it: `l` contains no such run and does not end in a backtick. -/
def fenceFree : List Char → Bool
  | [] => true
  | c :: rest => !fence.isPrefixOf (c :: rest ++ fence) && fenceFree rest

/-- A reply of the model in the requested format. -/
def exAnswer : String :=
  "\x7b\"category\":\"logo\",\"tags\":[\"brand\"],\"colors\":[\"#ffffff\"],\"description\":\"A logo\"\x7d"

end Server

/-! ## The folder bar and the folders table of the store -/

namespace Hosted

/-- The hosted page together with the `folders` table of the store. -/
structure World where
  table : List Folder
  st : State
  deriving DecidableEq, Repr

/-- An action on the folder bar or the folder dialog. For `createFolder`, `value` is
the text of the name input; `insert` is `none` when the store rejects the insert and
otherwise the id and the creation date it gives the new row; `reload` is `none` when
the select of `loadFolders` fails and otherwise the rows it returns. -/
inductive Event where
  | chipClick (folder : Folder)
  | allClick
  | chipDblClick (folder : Folder)
  | backClick
  | createFolder (value : String) (insert : Option (String × String))
      (reload : Option (List Folder))
  deriving DecidableEq, Repr

/-- The store carries out a request on the folders table: an insert appends the row,
with the id and the creation date the store assigns. -/
def storeApply (assigned : String × String) (table : List Folder) : Request → List Folder
  | .insertFolder name projectId parentId =>
    table ++ [{ id := assigned.1, project_id := some projectId, parent_id := parentId,
                name := name, created_at := assigned.2 }]
  | _ => table

/-- One action: the page runs the handler, and the store carries out the requests
the handler sent, unless it rejects the insert. -/
def step (w : World) : Event → World
  | .chipClick folder => { w with st := chipClick folder w.st }
  | .allClick => { w with st := allClick w.st }
  | .chipDblClick folder => { w with st := chipDblClick folder w.st }
  | .backClick => { w with st := backClick w.st }
  | .createFolder value insert reload =>
    let st := createFolder value ⟨none, insert.isNone⟩ ⟨reload, reload.isNone⟩ w.st
    { table :=
        match insert with
        | none => w.table
        | some assigned =>
          (st.requests.drop w.st.requests.length).foldl (storeApply assigned) w.table
      st := st }

/-- Whether the folder bar shows the chip of `folder`. -/
def showsChip (st : State) (folder : Folder) : Bool :=
  st.folderChips.any (fun c =>
    match c with
    | .folder f _ _ => decide (f = folder)
    | _ => false)

/-- Whether the folder bar shows the "All" button. -/
def showsAll (st : State) : Bool :=
  st.folderChips.any (fun c =>
    match c with
    | .all _ => true
    | _ => false)

/-- Whether the action can happen: a click needs its button on the folder bar, the
store assigns an id that no row has, and a select that succeeds returns the rows of
the table, in some order. -/
def allowed (w : World) : Event → Bool
  | .chipClick folder => showsChip w.st folder
  | .allClick => showsAll w.st
  | .chipDblClick folder => showsChip w.st folder
  | .backClick => w.st.folderChips.contains .back
  | .createFolder value insert reload =>
    (match insert with
      | none => true
      | some assigned => !(w.table.map (fun f => f.id)).contains assigned.1) &&
    (match reload with
      | none => true
      | some rows => rows.isPerm (step w (.createFolder value insert reload)).table)

/-- Whether every action of the sequence can happen when its turn comes. -/
def allowedRun : World → List Event → Bool
  | _, [] => true
  | w, e :: rest => allowed w e && allowedRun (step w e) rest

/-- The world after the actions of the sequence. -/
def run (w : World) (events : List Event) : World := events.foldl step w

/-- Whether the action is not a `createFolder` whose reload of the folders fails. -/
def reloadOk : Event → Bool
  | .createFolder _ (some _) none => false
  | _ => true

/-- Every non-empty `parent_id` is the id of a folder of the same project. -/
def ParentsInProject (table : List Folder) : Prop :=
  ∀ f ∈ table, Js.truthy f.parent_id = true →
    ∃ g ∈ table, f.parent_id = some g.id ∧ g.project_id = f.project_id

/-- The parent chain has no cycle: the folders can be ranked so that every folder
ranks above its parent. -/
def Acyclic (table : List Folder) : Prop :=
  ∃ rank : String → Nat, ∀ f ∈ table, Js.truthy f.parent_id = true →
    rank (f.parent_id.getD "") < rank f.id

/-- The folder `a` lies below the folder with id `b`: `b` is the non-empty
`parent_id` of `a`, or of a folder that `a` lies below. -/
inductive Below (table : List Folder) : String → String → Prop where
  | parent (f : Folder) (p : String) : f ∈ table → f.parent_id = some p →
      Js.truthy f.parent_id = true → Below table f.id p
  | trans (a b c : String) : Below table a b → Below table b c → Below table a c

/-- What the page knows of the folders: the open project, the cache, the folder
drilled into, and the folder bar. -/
def folderView (st : State) : Option Project × List Folder × Option String × List Chip :=
  (st.currentProject, st.folders, st.currentParentFolder, st.folderChips)

/-- The facts that hold of the page and the table at every moment of a run. -/
structure FolderInv (P : Project) (w : World) : Prop where
  project : w.st.currentProject = some P
  ids : (w.table.map (fun f => f.id)).Nodup
  parents : ParentsInProject w.table
  acyclic : Acyclic w.table
  cache : ∀ f ∈ w.st.folders, f ∈ w.table
  current : Js.truthy w.st.currentParentFolder = true →
    ∃ g ∈ w.table, w.st.currentParentFolder = some g.id ∧ g.project_id = some P.id
  chips : ∀ f a h, Chip.folder f a h ∈ w.st.folderChips →
    f ∈ w.st.folders ∧ f.project_id = some P.id
  back : Chip.back ∈ w.st.folderChips → Js.truthy w.st.currentParentFolder = true

/-- The row the store gives the id "f3". -/
def exNewRow : String × String := ("f3", "2024-03-01T00:00:00Z")

/-- The row the store gives the id "f4". -/
def exNextRow : String × String := ("f4", "2024-03-02T00:00:00Z")

/-- The folder "Logos" of the example. -/
def exLogos : Folder :=
  { id := "f1", project_id := some "p1", parent_id := none, name := "Logos",
    created_at := "2024-01-02T00:00:00Z" }

/-- The world in which the project "Marketing" has just been opened. -/
def exWorld : World :=
  { table := exFolders,
    st := showProject "p1" ⟨some [exRootAsset, exNestedAsset], false⟩ exState }

end Hosted

namespace Hosted

/-- The folder "New" as the store keeps it after the insert of the example. -/
def exNewFolder : Folder :=
  { id := "f3", project_id := some "p1", parent_id := some "f1", name := "New",
    created_at := "2024-03-01T00:00:00Z" }

/-- A rank of the example folders in which every folder ranks above its parent. -/
def exRank (id : String) : Nat := if id = "f2" then 1 else 0

end Hosted

/-! ## Theorems -/

namespace Hosted

theorem atRoot_iff (F : List Folder) (a : Asset) :
    atRoot F a = true ↔
      (Js.truthy a.folder_id = false ∨
        ∃ f ∈ F, some f.id = a.folder_id ∧ Js.truthy f.parent_id = false) := by
  simp [atRoot, List.find?_isSome]

theorem filteredAssets_eq_filter (st : State) (p : Project) :
    filteredAssets st p =
      st.assets.filter (fun a => decide (visibleSpec st.folders p.id st.selectedFolder
        st.currentParentFolder st.searchQuery a)) := by
  unfold filteredAssets
  by_cases hs : st.selectedFolder = "all" <;> cases hc : Js.truthy st.currentParentFolder
    <;> by_cases hq : st.searchQuery = ""
    <;> simp only [hs, hq, ne_eq, not_true_eq_false, not_false_eq_true, if_true, if_false,
      List.filter_filter, Bool.false_eq_true]
    <;> apply List.filter_congr
    <;> intro a _
    <;> rw [Bool.eq_iff_iff]
    <;> simp only [visibleSpec, hs, hc, hq, atRoot_iff, Bool.and_eq_true, decide_eq_true_eq,
      ne_eq, not_true_eq_false, not_false_eq_true, if_true, if_false, Bool.false_eq_true,
      true_implies, false_implies, and_true]
    <;> tauto


/-- C1. renderAssets draws exactly the assets of the cache that belong to the active
project, satisfy the folder rule and match the stored query, in cache order. -/
theorem renderAssets_draws_visible (st : State) (P : Project)
    (h : st.currentProject = some P) :
    (renderAssets st).assetGrid =
      st.assets.filter (fun a => decide (visibleSpec st.folders P.id st.selectedFolder
        st.currentParentFolder st.searchQuery a)) := by
  rw [← filteredAssets_eq_filter]
  unfold renderAssets
  simp only [h]
  split
  · rename_i h0
    exact (List.length_eq_zero.mp h0).symm
  · rfl

/-- Witness of C1 at the example state: the root view shows the asset outside every
folder and hides the one of the child folder. -/
theorem renderAssets_draws_visible_witness :
    exState.currentProject = some exProject ∧
    (renderAssets exState).assetGrid =
      exState.assets.filter (fun a => decide (visibleSpec exState.folders exProject.id
        exState.selectedFolder exState.currentParentFolder exState.searchQuery a)) :=
  ⟨rfl, renderAssets_draws_visible exState exProject rfl⟩

/-- C2. At the example state renderAssets shows only the root asset `a1`, while
selectAll also selects `a2`, which the folder rule hides. -/
theorem selectAll_selects_hidden :
    (renderAssets exState).assetGrid.map (fun a => a.id) = ["a1"] ∧
    (selectAll exState).selectedAssets = ["a1", "a2"] := by
  decide


/-- C3. At the example state, where only `a1` is visible, selectAll followed by a
confirmed and accepted bulkDelete requests the deletion of `a1` and of the hidden
asset `a2`. -/
theorem selectAll_bulkDelete_deletes_hidden :
    (renderAssets exState).assetGrid.map (fun a => a.id) = ["a1"] ∧
    (bulkDelete true ⟨none, false⟩ ⟨some [], false⟩ (selectAll exState)).requests =
      [.deleteAssetsIn ["a1", "a2"], .selectAssets (some "p1")] := by
  decide

theorem loadAssets_requests (projectId : Option String) (reply : Response (List Asset))
    (st : State) :
    (loadAssets projectId reply st).requests =
      st.requests ++ [.selectAssets (if Js.truthy projectId then projectId else none)] := by
  unfold loadAssets
  cases reply.error <;> cases projectId <;> simp [send, showToast, Js.truthy]
  all_goals split <;> rfl

theorem renderAssets_frame (st : State) :
    (renderAssets st).requests = st.requests ∧
    (renderAssets st).selectedAssets = st.selectedAssets ∧
    (renderAssets st).assets = st.assets := by
  unfold renderAssets
  cases st.currentProject with
  | none => simp
  | some p => simp only []; split <;> simp

/-- C7. A confirmed bulkDelete on a non-empty selection sends one delete request, with
the selected ids; on a store error the selection and the asset cache are as before;
when the store accepts, the selection is empty afterwards. -/
theorem bulkDelete_confirmed (st : State) (del : Response Unit)
    (fetch : Response (List Asset)) (h : st.selectedAssets ≠ []) :
    (∃ rest, (bulkDelete true del fetch st).requests =
        st.requests ++ .deleteAssetsIn st.selectedAssets :: rest ∧
        ∀ r ∈ rest, isDeleteRequest r = false) ∧
    (del.error = true →
      (bulkDelete true del fetch st).selectedAssets = st.selectedAssets ∧
      (bulkDelete true del fetch st).assets = st.assets) ∧
    (del.error = false → (bulkDelete true del fetch st).selectedAssets = []) := by
  have hlen : ¬ st.selectedAssets.length = 0 := by
    simpa [List.length_eq_zero] using h
  unfold bulkDelete
  simp only [hlen, if_false, if_true]
  cases hdel : del.error
  · simp only [Bool.false_eq_true, if_false, updateStorageInfo, updateSelectedCount]
    refine ⟨?_, ?_, ?_⟩
    · cases hp : st.currentProject with
      | none =>
        refine ⟨[], ?_, by simp⟩
        simp [(renderAssets_frame _).1, send, showToast, hp]
      | some p =>
        refine ⟨[.selectAssets (if Js.truthy (some p.id) then some p.id else none)], ?_, ?_⟩
        · simp [(renderAssets_frame _).1, loadAssets_requests, send, showToast, hp]
        · intro r hr
          simp only [List.mem_singleton] at hr
          subst hr
          rfl
    · intro hcontra
      cases hcontra
    · intro _
      simp only [(renderAssets_frame _).2.1]
      cases hp : st.currentProject with
      | none => simp [send, showToast, hp]
      | some p =>
        simp only [send, showToast, hp, loadAssets]
        cases fetch.error <;> simp [Js.truthy] <;> split <;> rfl
  · simp only [if_true]
    refine ⟨⟨[], by simp [send, showToast], by simp⟩, ?_, ?_⟩
    · intro _
      simp [send, showToast]
    · intro hcontra
      cases hcontra

/-- Witness of C7 at the example state with both assets selected. -/
theorem bulkDelete_confirmed_witness :
    ({ exState with selectedAssets := ["a1", "a2"] } : State).selectedAssets ≠ [] ∧
    (bulkDelete true ⟨none, true⟩ ⟨none, false⟩
      { exState with selectedAssets := ["a1", "a2"] }).assets = exState.assets :=
  ⟨by decide,
   ((bulkDelete_confirmed { exState with selectedAssets := ["a1", "a2"] } ⟨none, true⟩
      ⟨none, false⟩ (by decide)).2.1 rfl).2⟩


theorem loadAssets_ok_assets (p : String) (hp : p ≠ "") (data : Option (List Asset))
    (st : State) :
    (loadAssets (some p) ⟨data, false⟩ st).assets =
      st.assets.filter (fun a => decide (a.project_id ≠ some p)) ++ data.getD [] := by
  simp [loadAssets, send, hp]

theorem loadAssets_error_caches (p : String) (hp : p ≠ "") (data : Option (List Asset))
    (st : State) :
    (loadAssets (some p) ⟨data, true⟩ st).assets = st.assets ∧
    (loadAssets (some p) ⟨data, true⟩ st).projects = st.projects ∧
    (loadAssets (some p) ⟨data, true⟩ st).folders = st.folders := by
  simp [loadAssets, send, showToast, Js.truthy, hp]

/-- C8. loadAssets(p) with a project id p and a successful fetch result D leaves the
cache as the assets of other projects, in order, followed by D; when D holds rows of
p, as the query asks, the cached rows of every other project are unchanged; on a
failed fetch the cache is unchanged. -/
theorem loadAssets_replaces_project_rows (st : State) (p : String) (D : List Asset)
    (hp : p ≠ "") :
    (loadAssets (some p) ⟨some D, false⟩ st).assets =
      st.assets.filter (fun a => decide (a.project_id ≠ some p)) ++ D ∧
    ((∀ a ∈ D, a.project_id = some p) → ∀ q : Option String, q ≠ some p →
      (loadAssets (some p) ⟨some D, false⟩ st).assets.filter
          (fun a => decide (a.project_id = q)) =
        st.assets.filter (fun a => decide (a.project_id = q))) ∧
    (∀ data, (loadAssets (some p) ⟨data, true⟩ st).assets = st.assets) := by
  refine ⟨by simpa using loadAssets_ok_assets p hp (some D) st, ?_, ?_⟩
  · intro hD q hq
    rw [loadAssets_ok_assets p hp (some D) st]
    have hDq : D.filter (fun a => decide (a.project_id = q)) = [] := by
      rw [List.filter_eq_nil_iff]
      intro a ha
      simp only [decide_eq_true_eq]
      rw [hD a ha]
      exact fun h => hq h.symm
    simp only [Option.getD_some, List.filter_append, List.filter_filter, hDq, List.append_nil]
    apply List.filter_congr
    intro a _
    rw [Bool.eq_iff_iff]
    simp only [Bool.and_eq_true, decide_eq_true_eq, ne_eq]
    constructor
    · exact fun h => h.1
    · intro h
      exact ⟨h, fun h2 => hq (h.symm.trans h2)⟩
  · intro data
    exact (loadAssets_error_caches p hp data st).1

/-- Witness of C8: the project of the example state is reloaded with one row, and the
cached rows without a project stay as they were. -/
theorem loadAssets_replaces_project_rows_witness :
    (loadAssets (some "p1") ⟨some [exRootAsset], false⟩ exState).assets =
      exState.assets.filter (fun a => decide (a.project_id ≠ some "p1")) ++ [exRootAsset] ∧
    (loadAssets (some "p1") ⟨some [exRootAsset], false⟩ exState).assets.filter
        (fun a => decide (a.project_id = none)) =
      exState.assets.filter (fun a => decide (a.project_id = none)) :=
  have h := loadAssets_replaces_project_rows exState "p1" [exRootAsset] (by decide)
  ⟨h.1, h.2.1 (by decide) none (by decide)⟩

/-- C9, as the specification states it, fails: a failed read of the projects empties
the cached projects of the example state. -/
theorem loadProjects_error_empties_cache :
    (loadProjects ⟨none, true⟩ exState).projects ≠ exState.projects := by
  decide

/-- C9, amended. When the store read fails, loadAssets(p) with a project id leaves the
three caches as they were; loadProjects empties the cached projects, loadFolders the
cached folders, and loadAssets without a project id the cached assets, each leaving
the two other caches as they were. -/
theorem failed_read_caches (st : State) :
    (∀ (p : String) (data : Option (List Asset)), p ≠ "" →
      (loadAssets (some p) ⟨data, true⟩ st).projects = st.projects ∧
      (loadAssets (some p) ⟨data, true⟩ st).folders = st.folders ∧
      (loadAssets (some p) ⟨data, true⟩ st).assets = st.assets) ∧
    (∀ data : Option (List Project),
      (loadProjects ⟨data, true⟩ st).projects = [] ∧
      (loadProjects ⟨data, true⟩ st).folders = st.folders ∧
      (loadProjects ⟨data, true⟩ st).assets = st.assets) ∧
    (∀ data : Option (List Folder),
      (loadFolders ⟨data, true⟩ st).projects = st.projects ∧
      (loadFolders ⟨data, true⟩ st).folders = [] ∧
      (loadFolders ⟨data, true⟩ st).assets = st.assets) ∧
    (∀ data : Option (List Asset),
      (loadAssets none ⟨data, true⟩ st).projects = st.projects ∧
      (loadAssets none ⟨data, true⟩ st).folders = st.folders ∧
      (loadAssets none ⟨data, true⟩ st).assets = []) := by
  refine ⟨?_, ?_, ?_, ?_⟩
  · intro p data hp
    have h := loadAssets_error_caches p hp data st
    exact ⟨h.2.1, h.2.2, h.1⟩
  · intro data
    simp [loadProjects, send, showToast]
  · intro data
    simp [loadFolders, send, showToast]
  · intro data
    simp [loadAssets, send, showToast, Js.truthy]

/-- Witness of C9 at the example state: a failed reload of the open project keeps the
three caches. -/
theorem failed_read_caches_witness :
    (loadAssets (some "p1") ⟨none, true⟩ exState).projects = exState.projects ∧
    (loadAssets (some "p1") ⟨none, true⟩ exState).folders = exState.folders ∧
    (loadAssets (some "p1") ⟨none, true⟩ exState).assets = exState.assets :=
  (failed_read_caches exState).1 "p1" none (by decide)

end Hosted

/-- C4. In both variants a file passes the upload validation exactly when its MIME
type is one of the five allowed ones and its size is at most 2,097,152 bytes; the
two predicates agree on every file; a file of an allowed type passes at exactly
2,097,152 bytes and is rejected at 2,097,153 bytes. -/
theorem upload_validation (f : File) :
    (Local.isValid f = true ↔
      f.type ∈ ["image/jpeg", "image/png", "image/gif", "image/webp", "image/svg+xml"] ∧
        f.size ≤ 2097152) ∧
    (Hosted.isValid f = true ↔
      f.type ∈ ["image/jpeg", "image/png", "image/gif", "image/webp", "image/svg+xml"] ∧
        f.size ≤ 2097152) ∧
    Local.isValid f = Hosted.isValid f ∧
    (Local.isValid { f with size := 2097152 } = true ↔ f.type ∈ Local.ALLOWED_TYPES) ∧
    (Hosted.isValid { f with size := 2097152 } = true ↔ f.type ∈ Hosted.ALLOWED_TYPES) ∧
    Local.isValid { f with size := 2097153 } = false ∧
    Hosted.isValid { f with size := 2097153 } = false := by
  have hL : ∀ g : File, Local.isValid g = true ↔
      g.type ∈ ["image/jpeg", "image/png", "image/gif", "image/webp", "image/svg+xml"] ∧
        g.size ≤ 2097152 := by
    intro g
    unfold Local.isValid Local.rejection Local.ALLOWED_TYPES Local.MAX_FILE_SIZE
    by_cases ht : g.type ∈
        ["image/jpeg", "image/png", "image/gif", "image/webp", "image/svg+xml"]
    · by_cases hs : g.size > 2 * 1024 * 1024
      · simp [ht, hs]
      · simp [ht, hs]; omega
    · simp [ht]
  have hH : ∀ g : File, Hosted.isValid g = true ↔
      g.type ∈ ["image/jpeg", "image/png", "image/gif", "image/webp", "image/svg+xml"] ∧
        g.size ≤ 2097152 := by
    intro g
    unfold Hosted.isValid Hosted.rejection Hosted.ALLOWED_TYPES Hosted.MAX_FILE_SIZE
    by_cases ht : g.type ∈
        ["image/jpeg", "image/png", "image/gif", "image/webp", "image/svg+xml"]
    · by_cases hs : g.size > 2 * 1024 * 1024
      · simp [ht, hs]
      · simp [ht, hs]; omega
    · simp [ht]
  refine ⟨hL f, hH f, ?_, ?_, ?_, ?_, ?_⟩
  · rw [Bool.eq_iff_iff, hL, hH]
  · rw [hL]; simp [Local.ALLOWED_TYPES]
  · rw [hH]; simp [Hosted.ALLOWED_TYPES]
  · rw [← Bool.not_eq_true, hL]; simp
  · rw [← Bool.not_eq_true, hH]; simp

namespace Hosted

theorem getCount_setCount (m : List (String × Nat)) (key : String) (value : Nat) :
    getCount (setCount m key value) key = some value := by
  unfold getCount setCount
  by_cases h : m.any (fun e => e.1 == key) = true
  · simp only [h, if_true]
    induction m with
    | nil => simp at h
    | cons e rest ih =>
      by_cases he : e.1 = key
      · simp [he]
      · have hrest : rest.any (fun e => e.1 == key) = true := by
          simpa [he] using h
        simpa [he] using ih hrest
  · simp only [h, if_false]
    have hnone : m.find? (fun e => e.1 == key) = none := by
      rw [List.find?_eq_none]
      intro e he hk
      exact h (List.any_eq_true.mpr ⟨e, he, hk⟩)
    simp [List.find?_append, hnone]

theorem exManyRows_count : storeCountAssets exManyRows "p1" = 201 := by
  unfold storeCountAssets
  rw [List.filter_eq_self.mpr]
  · simp [exManyRows]
  · intro a ha
    simp only [exManyRows, List.mem_map] at ha
    obtain ⟨i, _, rfl⟩ := ha
    simp [exRootAsset]

theorem exManyRows_select_length : (storeSelectAssets exManyRows "p1").length = 200 := by
  have h := exManyRows_count
  unfold storeCountAssets at h
  unfold storeSelectAssets
  rw [List.length_take, h]
  rfl

/-- C10. With 201 rows of the project in the store, loadAssetCounts records 201, and a
later successful loadAssets of that project, answered with the 200 rows the capped
query returns, records 200. -/
theorem loadAssets_count_capped :
    storeCountAssets exManyRows "p1" = 201 ∧
    getCount (loadAssetCounts exCountReply ⟨none, false⟩ exState).assetCounts "p1" = some 201 ∧
    getCount (loadAssets (some "p1") ⟨some (storeSelectAssets exManyRows "p1"), false⟩
      (loadAssetCounts exCountReply ⟨none, false⟩ exState)).assetCounts "p1" = some 200 := by
  refine ⟨exManyRows_count, ?_, ?_⟩
  · have h : (loadAssetCounts exCountReply ⟨none, false⟩ exState).assetCounts =
        setCount exState.assetCounts "p1" (storeCountAssets exManyRows "p1") := by
      simp [loadAssetCounts, loadAssetCountsLoop, exState, exProject, exCountReply, send]
    rw [h, getCount_setCount, exManyRows_count]
  · have h : ∀ st : State,
        (loadAssets (some "p1") ⟨some (storeSelectAssets exManyRows "p1"), false⟩ st).assetCounts =
          setCount st.assetCounts "p1" (storeSelectAssets exManyRows "p1").length := by
      intro st
      simp [loadAssets, send]
    rw [h, getCount_setCount, exManyRows_select_length]

end Hosted

namespace Local

theorem store_nil (a : Asset) : store [] a = [a] := rfl

theorem store_cons (b : Asset) (rest : List Asset) (a : Asset) :
    store (b :: rest) a = if b.name = a.name then a :: rest else b :: store rest a := by
  unfold store
  by_cases h : b.name = a.name
  · simp [findIndex, h]
  · simp only [findIndex, beq_iff_eq, h, if_false]
    cases findIndex (fun x => x.name == a.name) rest <;> simp

theorem store_names (l : List Asset) (a : Asset) :
    (store l a).map (fun x => x.name) =
      if a.name ∈ l.map (fun x => x.name) then l.map (fun x => x.name)
      else l.map (fun x => x.name) ++ [a.name] := by
  induction l with
  | nil => simp [store_nil]
  | cons b rest ih =>
    rw [store_cons]
    by_cases h : b.name = a.name
    · simp [h]
    · have h2 : ¬ a.name = b.name := fun e => h e.symm
      simp only [h, if_false, List.map_cons, List.mem_cons, h2, false_or, ih]
      split <;> simp

theorem store_nodup (l : List Asset) (a : Asset)
    (h : (l.map (fun x => x.name)).Nodup) : ((store l a).map (fun x => x.name)).Nodup := by
  rw [store_names]
  split
  · exact h
  · rename_i hmem
    rw [List.nodup_append]
    refine ⟨h, List.nodup_singleton _, ?_⟩
    intro n hn hn2
    simp only [List.mem_singleton] at hn2
    subst hn2
    exact hmem hn

theorem store_filter_name (l : List Asset) (a : Asset)
    (h : (l.map (fun x => x.name)).Nodup) :
    (store l a).filter (fun x => x.name == a.name) = [a] := by
  induction l with
  | nil => simp [store_nil]
  | cons b rest ih =>
    rw [store_cons]
    simp only [List.map_cons, List.nodup_cons] at h
    by_cases hb : b.name = a.name
    · simp only [hb, if_true]
      have hrest : rest.filter (fun x => x.name == a.name) = [] := by
        rw [List.filter_eq_nil_iff]
        intro x hx hxa
        apply h.1
        rw [hb]
        simp only [beq_iff_eq] at hxa
        rw [← hxa]
        exact List.mem_map_of_mem _ hx
      simp [hrest]
    · simp only [hb, if_false]
      simp [hb, ih h.2]

theorem processLoop_nodup (fresh : Nat → String × String) (files : List File) :
    ∀ (k : Nat) (st : State) (n : Nat), (st.assets.map (fun x => x.name)).Nodup →
      (((processLoop fresh files k st n).1).assets.map (fun x => x.name)).Nodup := by
  induction files with
  | nil => intro k st n h; exact h
  | cons file rest ih =>
    intro k st n h
    unfold processLoop
    cases file.read with
    | none => exact ih _ _ _ h
    | some base64 => exact ih _ _ _ (store_nodup _ _ h)

theorem renderAssets_assets (st : State) : (renderAssets st).assets = st.assets := by
  unfold renderAssets
  simp only []
  split <;> split <;> rfl

theorem saveAssets_assets (o : SetItem) (st : State) : (saveAssets o st).assets = st.assets := by
  cases o <;> rfl

theorem checkStorageAvailable_toasts (st : State) (t : List Toast) :
    checkStorageAvailable { st with toasts := t } = checkStorageAvailable st := rfl

/-- When the batch has a valid file and the storage check passes, the collection
after `processFiles` is the one the loop leaves. -/
theorem processFiles_assets_run (files : List File) (fresh : Nat → String × String)
    (o : SetItem) (st : State) (h1 : (files.filter isValid).length ≠ 0)
    (hc : checkStorageAvailable st = true) :
    (processFiles files fresh o st).assets =
      ((processLoop fresh (files.filter isValid) 0
        { st with toasts := st.toasts ++
            (files.filterMap rejection).map (fun m => ⟨m, "error"⟩) } 0).1).assets := by
  have h0 : ¬ files.length = 0 := by
    intro h
    have : files = [] := List.length_eq_zero.mp h
    subst this
    exact h1 rfl
  unfold processFiles
  simp only [h0, h1, if_false, checkStorageAvailable_toasts, hc, Bool.not_true,
    Bool.false_eq_true]
  split
  · simp [showToast, updateStorageInfo, renderAssets_assets, saveAssets_assets]
  · rfl

/-- When the batch has no valid file or the storage check fails, `processFiles`
leaves the collection, the stored item and the number of writes as they were. -/
theorem processFiles_skip (files : List File) (fresh : Nat → String × String)
    (o : SetItem) (st : State)
    (h : (files.filter isValid).length = 0 ∨ checkStorageAvailable st = false) :
    (processFiles files fresh o st).assets = st.assets ∧
    (processFiles files fresh o st).storage = st.storage ∧
    (processFiles files fresh o st).setItemCalls = st.setItemCalls := by
  unfold processFiles
  by_cases h0 : files.length = 0
  · simp [h0]
  · simp only [h0, if_false]
    by_cases h1 : (files.filter isValid).length = 0
    · simp [h1]
    · have hc : checkStorageAvailable st = false := h.resolve_left h1
      simp [h1, checkStorageAvailable_toasts, hc, showToast]


theorem exDataUrl_length : exDataUrl.length = 2796226 := by
  show ("data:image/png;base64,".data ++ List.replicate 2796204 'A').length = 2796226
  rw [List.length_append, List.length_replicate]
  rfl

theorem processFiles_nodup (files : List File) (fresh : Nat → String × String)
    (o : SetItem) (st : State) (h : (st.assets.map (fun x => x.name)).Nodup) :
    ((processFiles files fresh o st).assets.map (fun x => x.name)).Nodup := by
  by_cases hrun : (files.filter isValid).length ≠ 0 ∧ checkStorageAvailable st = true
  · rw [processFiles_assets_run files fresh o st hrun.1 hrun.2]
    exact processLoop_nodup fresh _ 0 _ 0 h
  · have hskip : (files.filter isValid).length = 0 ∨ checkStorageAvailable st = false := by
      by_cases h1 : (files.filter isValid).length = 0
      · exact Or.inl h1
      · right
        cases hc : checkStorageAvailable st
        · rfl
        · exact absurd ⟨h1, hc⟩ hrun
    rw [(processFiles_skip files fresh o st hskip).1]
    exact h

theorem processFiles_single (f : File) (d : String) (fresh : Nat → String × String)
    (o : SetItem) (st : State) (hv : isValid f = true) (hr : f.read = some d)
    (hc : checkStorageAvailable st = true) :
    (processFiles [f] fresh o st).assets =
      store st.assets
        { id := (fresh 0).1, name := f.name, type := f.type, size := f.size,
          data := d, uploadDate := (fresh 0).2 } := by
  rw [processFiles_assets_run [f] fresh o st (by simp [hv]) hc]
  simp [hv, processLoop, hr]

theorem processFiles_pair (f1 f2 : File) (d1 d2 : String) (fresh : Nat → String × String)
    (o : SetItem) (st : State) (hv1 : isValid f1 = true) (hv2 : isValid f2 = true)
    (hr1 : f1.read = some d1) (hr2 : f2.read = some d2)
    (hc : checkStorageAvailable st = true) :
    (processFiles [f1, f2] fresh o st).assets =
      store
        (store st.assets
          { id := (fresh 0).1, name := f1.name, type := f1.type, size := f1.size,
            data := d1, uploadDate := (fresh 0).2 })
        { id := (fresh 1).1, name := f2.name, type := f2.type, size := f2.size,
          data := d2, uploadDate := (fresh 1).2 } := by
  rw [processFiles_assets_run [f1, f2] fresh o st (by simp [hv1, hv2]) hc]
  simp [hv1, hv2, processLoop, hr1, hr2]

theorem checkStorageAvailable_iff (st : State) :
    checkStorageAvailable st = true ↔ totalSize st.assets < 4980736 := by
  simp only [checkStorageAvailable, estimatedQuota, decide_eq_true_eq]
  omega

theorem totalSize_pair (a b : Asset) : totalSize [a, b] = a.data.length + b.data.length := by
  simp [totalSize]

theorem exAssetX_length : exAssetX.data.length = 2796226 := exDataUrl_length

theorem exAssetY_length : exAssetY.data.length = 2796226 := exDataUrl_length

theorem exFull_totalSize : totalSize exFull.assets = 5592452 := by
  have h : exFull.assets = [exAssetX, exAssetY] := rfl
  rw [h, totalSize_pair, exAssetX_length, exAssetY_length]

theorem exFull_check : checkStorageAvailable exFull = false := by
  rw [← Bool.not_eq_true, checkStorageAvailable_iff, exFull_totalSize]
  omega

/-- C5, as the specification states it, fails: the collection `exFull` has distinct
names and fills the estimated quota, so the two valid files named "logo.png" are
both dropped and no asset of that name exists afterwards. -/
theorem processFiles_full_storage_drops_upload :
    (exFull.assets.map (fun x => x.name)).Nodup ∧
    isValid exLogo1 = true ∧ isValid exLogo2 = true ∧
    exLogo1.read.isSome = true ∧ exLogo2.read.isSome = true ∧
    (processFiles [exLogo1, exLogo2] exFresh .ok exFull).assets.filter
      (fun x => x.name == "logo.png") = [] := by
  have h1 : (exFull.assets.map (fun x => x.name)).Nodup := by
    simp [exFull, exEmpty, exAssetX, exAssetY]
  have h2 : exFull.assets.filter (fun x => x.name == "logo.png") = [] := by
    simp [exFull, exEmpty, exAssetX, exAssetY]
  refine ⟨h1, by decide, by decide, by decide, by decide, ?_⟩
  rw [(processFiles_skip [exLogo1, exLogo2] exFresh .ok exFull (Or.inr exFull_check)).1]
  exact h2

/-- C5, amended. `processFiles` keeps the names of the collection pairwise distinct;
and when the storage check passes before each batch, two valid readable files of the
same name, uploaded in one batch or in two, leave exactly one asset of that name,
which carries the data of the later file. -/
theorem processFiles_overwrites_by_name (st : State) (f1 f2 : File) (d1 d2 : String)
    (fresh fresh' : Nat → String × String) (o o' : SetItem)
    (hnodup : (st.assets.map (fun x => x.name)).Nodup)
    (hv1 : isValid f1 = true) (hv2 : isValid f2 = true)
    (hr1 : f1.read = some d1) (hr2 : f2.read = some d2) (hname : f1.name = f2.name) :
    (∀ (files : List File) (fresh : Nat → String × String) (o : SetItem),
      ((processFiles files fresh o st).assets.map (fun x => x.name)).Nodup) ∧
    (checkStorageAvailable st = true →
      ∃ a, (processFiles [f1, f2] fresh o st).assets.filter
        (fun x => x.name == f1.name) = [a] ∧ a.data = d2) ∧
    (checkStorageAvailable st = true →
      checkStorageAvailable (processFiles [f1] fresh o st) = true →
      ∃ a, (processFiles [f2] fresh' o' (processFiles [f1] fresh o st)).assets.filter
        (fun x => x.name == f1.name) = [a] ∧ a.data = d2) := by
  refine ⟨fun files fresh o => processFiles_nodup files fresh o st hnodup, ?_, ?_⟩
  · intro hc
    refine ⟨
      { id := (fresh 1).1, name := f2.name, type := f2.type, size := f2.size,
        data := d2, uploadDate := (fresh 1).2 }, ?_, rfl⟩
    rw [processFiles_pair f1 f2 d1 d2 fresh o st hv1 hv2 hr1 hr2 hc, hname]
    exact store_filter_name _ ⟨(fresh 1).1, f2.name, f2.type, f2.size, d2, (fresh 1).2⟩
      (store_nodup _ _ hnodup)
  · intro hc hc'
    refine ⟨
      { id := (fresh' 0).1, name := f2.name, type := f2.type, size := f2.size,
        data := d2, uploadDate := (fresh' 0).2 }, ?_, rfl⟩
    rw [processFiles_single f2 d2 fresh' o' _ hv2 hr2 hc', hname]
    exact store_filter_name _ ⟨(fresh' 0).1, f2.name, f2.type, f2.size, d2, (fresh' 0).2⟩
      (processFiles_nodup [f1] fresh o st hnodup)

/-- Witness of C5 on the empty collection: both ways of uploading the two files named
"logo.png" leave one asset of that name, with the data of the second file. -/
theorem processFiles_overwrites_by_name_witness :
    (∃ a, (processFiles [exLogo1, exLogo2] exFresh .ok exEmpty).assets.filter
      (fun x => x.name == exLogo1.name) = [a] ∧ a.data = "data:image/png;base64,BBBB") ∧
    (∃ a, (processFiles [exLogo2] exFresh .ok
        (processFiles [exLogo1] exFresh .ok exEmpty)).assets.filter
      (fun x => x.name == exLogo1.name) = [a] ∧ a.data = "data:image/png;base64,BBBB") :=
  have h := processFiles_overwrites_by_name exEmpty exLogo1 exLogo2
    "data:image/png;base64,AAAA" "data:image/png;base64,BBBB" exFresh exFresh .ok .ok
    (by decide) (by decide) (by decide) rfl rfl rfl
  ⟨h.2.1 (by decide), h.2.2 (by decide) (by decide)⟩


theorem store_two (a b : Asset) (h : a.name ≠ b.name) : store (store [] a) b = [a, b] := by
  simp [store_nil, store_cons, h]

theorem totalSize_pair_mk (i1 n1 t1 : String) (s1 : Nat) (d1 u1 i2 n2 t2 : String) (s2 : Nat)
    (d2 u2 : String) :
    totalSize [⟨i1, n1, t1, s1, d1, u1⟩, ⟨i2, n2, t2, s2, d2, u2⟩] = d1.length + d2.length := by
  simp [totalSize]

/-- C6, as the specification states it, fails: on the empty collection the two valid
files of 2 MiB are both stored, although the data then held, 5,592,452 characters,
exceeds the estimated quota of 5,242,880. -/
theorem processFiles_over_quota_stores_batch :
    isValid exBigA = true ∧ isValid exBigB = true ∧
    exEmpty.assets = [] ∧
    (processFiles [exBigA, exBigB] exFresh .ok exEmpty).assets.length = 2 ∧
    estimatedQuota < totalSize (processFiles [exBigA, exBigB] exFresh .ok exEmpty).assets := by
  have hassets : (processFiles [exBigA, exBigB] exFresh .ok exEmpty).assets =
      [⟨(exFresh 0).1, exBigA.name, exBigA.type, exBigA.size, exDataUrl, (exFresh 0).2⟩,
       ⟨(exFresh 1).1, exBigB.name, exBigB.type, exBigB.size, exDataUrl, (exFresh 1).2⟩] := by
    rw [processFiles_pair exBigA exBigB exDataUrl exDataUrl exFresh .ok exEmpty
      (by decide) (by decide) rfl rfl (by decide)]
    exact store_two _ _ (by decide)
  refine ⟨by decide, by decide, rfl, ?_, ?_⟩
  · rw [hassets]
    rfl
  · rw [hassets, totalSize_pair_mk, exDataUrl_length]
    decide

/-- C6, amended. When the data already held reaches 95% of the estimated quota (a
total data length of at least 4,980,736), a non-empty batch of valid files is
aborted before any file is processed: the collection, the stored item and the number
of writes are as before, and the one toast added is the storage warning. -/
theorem processFiles_aborts_when_full (st : State) (files : List File)
    (fresh : Nat → String × String) (o : SetItem)
    (hne : files ≠ []) (hvalid : ∀ f ∈ files, isValid f = true)
    (hfull : 4980736 ≤ totalSize st.assets) :
    (processFiles files fresh o st).assets = st.assets ∧
    (processFiles files fresh o st).storage = st.storage ∧
    (processFiles files fresh o st).setItemCalls = st.setItemCalls ∧
    (processFiles files fresh o st).toasts =
      st.toasts ++ [⟨"Storage limit reached. Please delete some assets.", "error"⟩] := by
  have hc : checkStorageAvailable st = false := by
    rw [← Bool.not_eq_true, checkStorageAvailable_iff]
    omega
  have hskip := processFiles_skip files fresh o st (Or.inr hc)
  refine ⟨hskip.1, hskip.2.1, hskip.2.2, ?_⟩
  have h0 : ¬ files.length = 0 := fun h => hne (List.length_eq_zero.mp h)
  have hfilter : files.filter isValid = files := List.filter_eq_self.mpr hvalid
  have hrej : files.filterMap rejection = [] := by
    rw [List.filterMap_eq_nil_iff]
    intro f hf
    have := hvalid f hf
    simpa [isValid] using this
  unfold processFiles
  simp [h0, hfilter, hrej, checkStorageAvailable_toasts, hc, showToast]

/-- Witness of C6 on the full collection `exFull` and a batch of one valid file. -/
theorem processFiles_aborts_when_full_witness :
    4980736 ≤ totalSize exFull.assets ∧
    (processFiles [exLogo1] exFresh .ok exFull).assets = exFull.assets ∧
    (processFiles [exLogo1] exFresh .ok exFull).toasts =
      exFull.toasts ++ [⟨"Storage limit reached. Please delete some assets.", "error"⟩] :=
  have hfull : 4980736 ≤ totalSize exFull.assets := by
    rw [exFull_totalSize]
    decide
  have h := processFiles_aborts_when_full exFull [exLogo1] exFresh .ok (by decide)
    (by decide) hfull
  ⟨hfull, h.1, h.2.2.2⟩

end Local

namespace Hosted

theorem renderAssets_assetGrid (st : State) (P : Project) (h : st.currentProject = some P) :
    (renderAssets st).assetGrid = filteredAssets st P := by
  unfold renderAssets
  simp only [h]
  split
  · rename_i h0
    exact (List.length_eq_zero.mp h0).symm
  · rfl

theorem renderAssets_selectionMode (st : State) :
    (renderAssets st).selectionMode = st.selectionMode := by
  unfold renderAssets
  cases st.currentProject with
  | none => rfl
  | some p => simp only []; split <;> rfl

/-- C12. When the project is cached and the user confirms, an accepted deleteProject(p)
leaves the asset cache as the cached assets of the other projects, unchanged and in
order, none of them with project_id = p; on a store error the cache is unchanged. -/
theorem deleteProject_asset_cache (st : State) (p : String)
    (projectsReply : Response (List Project)) (foldersReply : Response (List Folder))
    (hp : ∃ q ∈ st.projects, q.id = p) :
    (∀ data, (deleteProject p true ⟨data, false⟩ projectsReply foldersReply st).assets =
      st.assets.filter (fun a => decide (a.project_id ≠ some p))) ∧
    (∀ data, ∀ a ∈ (deleteProject p true ⟨data, false⟩ projectsReply foldersReply st).assets,
      a.project_id ≠ some p) ∧
    (∀ data, (deleteProject p true ⟨data, true⟩ projectsReply foldersReply st).assets =
      st.assets) := by
  obtain ⟨q, hq, hqp⟩ := hp
  have hfind : (st.projects.find? (fun x => x.id == p)).isSome = true := by
    rw [List.find?_isSome]
    exact ⟨q, hq, by simp [hqp]⟩
  obtain ⟨proj, hproj⟩ := Option.isSome_iff_exists.mp hfind
  have hok : ∀ data, (deleteProject p true ⟨data, false⟩ projectsReply foldersReply st).assets =
      st.assets.filter (fun a => decide (a.project_id ≠ some p)) := by
    intro data
    unfold deleteProject
    simp only [hproj, if_true, Bool.false_eq_true, if_false]
    have hrd : ∀ s : State, (renderDashboard s).assets = s.assets := by
      intro s; unfold renderDashboard; split <;> rfl
    have hlp : ∀ s : State, (loadProjects projectsReply s).assets = s.assets := by
      intro s; unfold loadProjects; simp only [send, showToast]; split <;> rfl
    have hlf : ∀ s : State, (loadFolders foldersReply s).assets = s.assets := by
      intro s; unfold loadFolders; simp only [send, showToast]; split <;> rfl
    rw [hrd]
    simp only [hlf, hlp, send, showToast]
  refine ⟨hok, ?_, ?_⟩
  · intro data a ha
    rw [hok data] at ha
    simpa using (List.mem_filter.mp ha).2
  · intro data
    unfold deleteProject
    simp [hproj, send, showToast]

/-- Witness of C12 at the example state, whose cache holds two assets of "p1". -/
theorem deleteProject_asset_cache_witness :
    (deleteProject "p1" true ⟨none, false⟩ ⟨some [], false⟩ ⟨some [], false⟩ exState).assets =
      exState.assets.filter (fun a => decide (a.project_id ≠ some "p1")) :=
  (deleteProject_asset_cache exState "p1" ⟨some [], false⟩ ⟨some [], false⟩
    ⟨exProject, by decide, rfl⟩).1 none

/-- C20. toggleSelectionMode flips selectionMode and exitSelectionMode sets it to
false; after either of them the selection is empty. -/
theorem selection_mode_clears_selection (st : State) :
    (toggleSelectionMode st).selectionMode = !st.selectionMode ∧
    (toggleSelectionMode st).selectedAssets = [] ∧
    (exitSelectionMode st).selectionMode = false ∧
    (exitSelectionMode st).selectedAssets = [] := by
  refine ⟨?_, ?_, ?_, ?_⟩
  · unfold toggleSelectionMode
    rw [renderAssets_selectionMode]
    simp only [updateSelectedCount]
    split <;> rfl
  · unfold toggleSelectionMode
    rw [(renderAssets_frame _).2.1]
    simp only [updateSelectedCount]
    split <;> rfl
  · unfold exitSelectionMode
    simp only []
    split
    · rw [renderAssets_selectionMode]
    · rfl
  · unfold exitSelectionMode
    simp only []
    split
    · rw [(renderAssets_frame _).2.1]
    · rfl

end Hosted

/-- C11. When the user declines the confirmation, the hosted deleteProject,
deleteFolder and deleteAsset and the local deleteAsset and handleClearAll leave the
whole state as it was, and the hosted bulkDelete sends no request and leaves the
cached projects, folders and assets, the selection and the filters as they were. -/
theorem declined_confirmation_changes_nothing (st : Hosted.State) (lst : Local.State) :
    (∀ id del projectsReply foldersReply,
      Hosted.deleteProject id false del projectsReply foldersReply st = st) ∧
    (∀ id del foldersReply fetch,
      Hosted.deleteFolder id false del foldersReply fetch st = st) ∧
    (∀ id del fetch, Hosted.deleteAsset id false del fetch st = st) ∧
    (∀ del fetch,
      (Hosted.bulkDelete false del fetch st).requests = st.requests ∧
      (Hosted.bulkDelete false del fetch st).projects = st.projects ∧
      (Hosted.bulkDelete false del fetch st).folders = st.folders ∧
      (Hosted.bulkDelete false del fetch st).assets = st.assets ∧
      (Hosted.bulkDelete false del fetch st).selectedAssets = st.selectedAssets ∧
      (Hosted.bulkDelete false del fetch st).searchQuery = st.searchQuery ∧
      (Hosted.bulkDelete false del fetch st).selectedFolder = st.selectedFolder ∧
      (Hosted.bulkDelete false del fetch st).currentParentFolder = st.currentParentFolder) ∧
    (∀ id outcome, Local.deleteAsset id false outcome lst = lst) ∧
    (∀ outcome, Local.handleClearAll false outcome lst = lst) := by
  refine ⟨?_, ?_, ?_, ?_, ?_, ?_⟩
  · intro id del pr fr
    unfold Hosted.deleteProject
    split <;> simp
  · intro id del fr fetch
    unfold Hosted.deleteFolder
    split <;> simp
  · intro id del fetch
    unfold Hosted.deleteAsset
    split <;> simp
  · intro del fetch
    unfold Hosted.bulkDelete
    split <;> simp [Hosted.showToast]
  · intro id outcome
    unfold Local.deleteAsset
    split <;> simp
  · intro outcome
    unfold Local.handleClearAll
    split <;> simp

namespace Hosted

/-- An asset of a cached child folder is in the grid only in the two views of that
folder: the folder selected, or "All" inside the folder. -/
theorem nested_asset_shown_cases (st : State) (P : Project) (f : Folder) (a : Asset)
    (hP : st.currentProject = some P)
    (hnodup : (st.folders.map (fun g => g.id)).Nodup)
    (hf : f ∈ st.folders) (hpar : Js.truthy f.parent_id = true) (hid : f.id ≠ "")
    (ha : a.folder_id = some f.id) (hshown : a ∈ (renderAssets st).assetGrid) :
    (st.selectedFolder ≠ "all" ∧ st.selectedFolder = f.id) ∨
    (st.selectedFolder = "all" ∧ Js.truthy st.currentParentFolder = true ∧
      st.currentParentFolder = some f.id) := by
  rw [renderAssets_assetGrid st P hP, filteredAssets_eq_filter] at hshown
  have hvis := (List.mem_filter.mp hshown).2
  simp only [decide_eq_true_eq, visibleSpec] at hvis
  have hrule := hvis.2.1
  by_cases hs : st.selectedFolder = "all"
  · right
    by_cases hc : Js.truthy st.currentParentFolder = true
    · simp only [hs, ne_eq, not_true_eq_false, if_false, hc, if_true] at hrule
      exact ⟨hs, hc, by rw [← hrule, ha]⟩
    · exfalso
      simp only [hs, ne_eq, not_true_eq_false, if_false, hc] at hrule
      rcases hrule with h1 | ⟨g, hg, hgid, hgpar⟩
      · rw [ha] at h1
        simp [Js.truthy, hid] at h1
      · rw [ha] at hgid
        have hgf : g = f :=
          List.inj_on_of_nodup_map hnodup hg hf (Option.some.inj hgid)
        rw [hgf, hpar] at hgpar
        cases hgpar
  · left
    simp only [ne_eq, hs, not_false_eq_true, if_true] at hrule
    rw [ha] at hrule
    exact ⟨hs, (Option.some.inj hrule).symm⟩

/-- C13. With unique folder ids, an asset whose folder is a cached child folder g is
shown only when g is selected, or "All" is selected inside g; it is not shown in the
root "All" view, and when g is not its own parent it is not shown with the parent of
g drilled into or selected. -/
theorem nested_asset_hidden_outside_folder (st : State) (P : Project) (f : Folder)
    (a : Asset) (hP : st.currentProject = some P)
    (hnodup : (st.folders.map (fun g => g.id)).Nodup)
    (hf : f ∈ st.folders) (hpar : Js.truthy f.parent_id = true) (hid : f.id ≠ "")
    (ha : a.folder_id = some f.id) :
    (a ∈ (renderAssets st).assetGrid →
      st.selectedFolder = f.id ∨
        (st.selectedFolder = "all" ∧ st.currentParentFolder = some f.id)) ∧
    (st.selectedFolder = "all" → Js.truthy st.currentParentFolder = false →
      a ∉ (renderAssets st).assetGrid) ∧
    (f.parent_id ≠ some f.id →
      (st.selectedFolder = "all" → st.currentParentFolder = f.parent_id →
        a ∉ (renderAssets st).assetGrid) ∧
      (st.selectedFolder ≠ "all" → f.parent_id = some st.selectedFolder →
        a ∉ (renderAssets st).assetGrid)) := by
  have key := nested_asset_shown_cases st P f a hP hnodup hf hpar hid ha
  refine ⟨?_, ?_, ?_⟩
  · intro hshown
    rcases key hshown with h | h
    · exact Or.inl h.2
    · exact Or.inr ⟨h.1, h.2.2⟩
  · intro hs hc hshown
    rcases key hshown with h | h
    · exact h.1 hs
    · rw [hc] at h
      cases h.2.1
  · intro hself
    refine ⟨?_, ?_⟩
    · intro hs hcur hshown
      rcases key hshown with h | h
      · exact h.1 hs
      · exact hself (hcur.symm.trans h.2.2)
    · intro hs hsel hshown
      rcases key hshown with h | h
      · exact hself (by rw [hsel, h.2])
      · exact hs h.1

/-- Witness of C13 at the example state: the asset of the child folder "2024" is not
shown in the root "All" view. -/
theorem nested_asset_hidden_outside_folder_witness :
    exNestedAsset ∉ (renderAssets exState).assetGrid :=
  (nested_asset_hidden_outside_folder exState exProject
    ⟨"f2", some "p1", some "f1", "2024", "2024-01-03T00:00:00Z"⟩ exNestedAsset rfl
    (by decide) (by decide) (by decide) (by decide) rfl).2.1 rfl rfl

theorem filteredAssets_idempotent (st : State) (P : Project) :
    filteredAssets { st with assets := filteredAssets st P } P = filteredAssets st P := by
  rw [filteredAssets_eq_filter, filteredAssets_eq_filter]
  simp only [List.filter_filter, Bool.and_self]

/-- C18. With the project p open, after a successful loadAssets(p) with fetch result D
the list renderAssets shows is a sublist of D, so it inherits every pairwise order of
D, in particular descending upload dates with ties in store order. -/
theorem loadAssets_render_sublist (st : State) (P : Project) (D : List Asset)
    (hP : st.currentProject = some P) (hid : P.id ≠ "") :
    ((renderAssets (loadAssets (some P.id) ⟨some D, false⟩ st)).assetGrid).Sublist D ∧
    (∀ r : Asset → Asset → Prop, D.Pairwise r →
      ((renderAssets (loadAssets (some P.id) ⟨some D, false⟩ st)).assetGrid).Pairwise r) := by
  have hcur : (loadAssets (some P.id) ⟨some D, false⟩ st).currentProject = some P := by
    simp [loadAssets, send, hid, hP]
  have hsub : ((renderAssets (loadAssets (some P.id) ⟨some D, false⟩ st)).assetGrid).Sublist D := by
    rw [renderAssets_assetGrid _ P hcur, filteredAssets_eq_filter,
      loadAssets_ok_assets P.id hid (some D) st]
    simp only [Option.getD_some, List.filter_append]
    have hnil : (st.assets.filter (fun a => decide (a.project_id ≠ some P.id))).filter
        (fun a => decide (visibleSpec (loadAssets (some P.id) ⟨some D, false⟩ st).folders P.id
          (loadAssets (some P.id) ⟨some D, false⟩ st).selectedFolder
          (loadAssets (some P.id) ⟨some D, false⟩ st).currentParentFolder
          (loadAssets (some P.id) ⟨some D, false⟩ st).searchQuery a)) = [] := by
      rw [List.filter_eq_nil_iff]
      intro a ha hvis
      have h1 := (List.mem_filter.mp ha).2
      simp only [decide_eq_true_eq, visibleSpec] at hvis h1
      exact h1 hvis.1
    rw [hnil, List.nil_append]
    exact List.filter_sublist _
  exact ⟨hsub, fun r hr => hr.sublist hsub⟩

/-- Witness of C18: the open project of the example state is reloaded with its two
rows, the later upload first. -/
theorem loadAssets_render_sublist_witness :
    ((renderAssets (loadAssets (some exProject.id) ⟨some [exRootAsset, exNestedAsset], false⟩
      exState)).assetGrid).Sublist [exRootAsset, exNestedAsset] :=
  (loadAssets_render_sublist exState exProject [exRootAsset, exNestedAsset] rfl
    (by decide)).1

end Hosted

namespace Local

theorem renderAssets_grid (st : State) :
    (renderAssets st).assetGrid =
      if st.searchQuery ≠ "" then
        st.assets.filter (fun asset => Js.includes (Js.toLowerCase asset.name) st.searchQuery)
      else st.assets := by
  unfold renderAssets
  by_cases hq : st.searchQuery = ""
  · simp only [hq, ne_eq, not_true_eq_false, if_false]
    split
    · rename_i h0
      exact (List.length_eq_zero.mp h0).symm
    · rfl
  · simp only [hq, ne_eq, not_false_eq_true, if_true]
    split
    · rename_i h0
      exact (List.length_eq_zero.mp h0).symm
    · rfl

end Local

/-- C15. In both variants the visible-subset filter is idempotent: rendering the list
that renderAssets shows, with the project, the folder selection, the folder cache and
the query kept, shows the same list. -/
theorem filter_idempotent (st : Hosted.State) (lst : Local.State) :
    (Hosted.renderAssets { st with assets := (Hosted.renderAssets st).assetGrid }).assetGrid =
      (Hosted.renderAssets st).assetGrid ∧
    (∀ P : Hosted.Project,
      Hosted.filteredAssets { st with assets := Hosted.filteredAssets st P } P =
        Hosted.filteredAssets st P) ∧
    (Local.renderAssets { lst with assets := (Local.renderAssets lst).assetGrid }).assetGrid =
      (Local.renderAssets lst).assetGrid := by
  refine ⟨?_, Hosted.filteredAssets_idempotent st, ?_⟩
  · have hcases : st.currentProject = none ∨ ∃ P, st.currentProject = some P := by
      cases st.currentProject with
      | none => exact Or.inl rfl
      | some P => exact Or.inr ⟨P, rfl⟩
    rcases hcases with hP | ⟨P, hP⟩
    · simp [Hosted.renderAssets, hP]
    · rw [Hosted.renderAssets_assetGrid st P hP,
        Hosted.renderAssets_assetGrid { st with assets := Hosted.filteredAssets st P } P hP]
      exact Hosted.filteredAssets_idempotent st P
  · rw [Local.renderAssets_grid lst, Local.renderAssets_grid]
    simp only []
    split
    · simp only [List.filter_filter, Bool.and_self]
    · rfl

namespace Js

theorem toNat_ofNat_small (n : Nat) (h : n < 55296) : (Char.ofNat n).toNat = n := by
  unfold Char.ofNat
  have hv : n.isValidChar := Or.inl h
  simp only [hv, dif_pos]
  simp [Char.ofNatAux, Char.toNat, UInt32.toNat]

theorem isWhiteSpace_toLower (c : Char) : isWhiteSpace c.toLower = isWhiteSpace c := by
  unfold Char.toLower
  simp only []
  split
  · rename_i h
    have h2 := toNat_ofNat_small (c.toNat + 32) (by omega)
    have h1 : isWhiteSpace c = false := by
      simp [isWhiteSpace]; omega
    rw [h1]
    simp [isWhiteSpace, h2]; omega
  · rfl

theorem dropWhile_map_toLower (l : List Char) :
    (l.dropWhile isWhiteSpace).map Char.toLower =
      (l.map Char.toLower).dropWhile isWhiteSpace := by
  induction l with
  | nil => rfl
  | cons c rest ih =>
    simp only [List.map_cons, List.dropWhile_cons, isWhiteSpace_toLower]
    split
    · exact ih
    · simp

theorem toLowerCase_trim (s : String) : toLowerCase (trim s) = trim (toLowerCase s) := by
  simp only [toLowerCase, trim, List.map_reverse, dropWhile_map_toLower]

theorem includes_empty (s : String) : includes s "" = true := by
  unfold includes
  cases s.data <;> simp

end Js

namespace Local

/-- C14, as the specification states it, fails: for the typed text "cat " (with a
space at the end) the page shows "cat.png" and "Category.svg", although no name
contains that text, letter case ignored. -/
theorem handleSearch_trims_query :
    (handleSearch "cat " exCats).assetGrid.map (fun a => a.name) =
      ["cat.png", "Category.svg"] ∧
    exCats.assets.filter (fun a => matchesIgnoringCase a.name "cat ") = [] := by
  decide

/-- C14, amended. After handleSearch the rendered list is the assets whose
lower-cased name contains the typed text, lower-cased and then stripped of the white
space at its ends, in their order; when the names and the typed text are ASCII text
these are the assets whose name contains the typed text, stripped of the white space
at its ends, as a substring with letter case ignored; an empty text shows every
asset; and "cat" over "cat.png", "dog.png", "Category.svg" gives "cat.png",
"Category.svg". -/
theorem handleSearch_shows_matches (st : State) (value : String) :
    (handleSearch value st).assetGrid =
      st.assets.filter (fun a =>
        Js.includes (Js.toLowerCase a.name) (Js.trim (Js.toLowerCase value))) ∧
    ((∀ a ∈ st.assets, Js.isAscii a.name = true) → Js.isAscii value = true →
      (handleSearch value st).assetGrid =
        st.assets.filter (fun a => matchesIgnoringCase a.name (Js.trim value))) ∧
    (handleSearch "" st).assetGrid = st.assets ∧
    (handleSearch "cat" exCats).assetGrid.map (fun a => a.name) =
      ["cat.png", "Category.svg"] := by
  have hcode : ∀ v : String, (handleSearch v st).assetGrid =
      st.assets.filter (fun a =>
        Js.includes (Js.toLowerCase a.name) (Js.trim (Js.toLowerCase v))) := by
    intro v
    unfold handleSearch
    rw [renderAssets_grid]
    by_cases hq : Js.trim (Js.toLowerCase v) = ""
    · simp only [hq, ne_eq, not_true_eq_false, if_false, Js.includes_empty]
      exact (List.filter_eq_self.mpr (fun _ _ => rfl)).symm
    · simp only [hq, ne_eq, not_false_eq_true, if_true]
  refine ⟨hcode value, ?_, ?_, by decide⟩
  · intro _ _
    rw [hcode value]
    simp only [matchesIgnoringCase, Js.toLowerCase_trim]
  · rw [hcode ""]
    have hq : Js.trim (Js.toLowerCase "") = "" := by decide
    rw [hq]
    simp only [Js.includes_empty]
    exact List.filter_eq_self.mpr (fun _ _ => rfl)

/-- Witness of C14: the typed text " CAT " over "cat.png", "dog.png", "Category.svg",
all of them ASCII text, shows the assets whose name contains "CAT", letter case
ignored. -/
theorem handleSearch_shows_matches_witness :
    (handleSearch " CAT " exCats).assetGrid =
      [exNamed "c1" "cat.png", exNamed "c3" "Category.svg"] ∧
    exCats.assets.filter (fun a => matchesIgnoringCase a.name "CAT") =
      [exNamed "c1" "cat.png", exNamed "c3" "Category.svg"] :=
  ⟨((handleSearch_shows_matches exCats " CAT ").2.1 (by decide) (by decide)).trans
    (by decide), by decide⟩

end Local

namespace Local

theorem store_new_name (l : List Asset) (a : Asset)
    (h : a.name ∉ l.map (fun x => x.name)) : store l a = l ++ [a] := by
  induction l with
  | nil => rfl
  | cons b rest ih =>
    simp only [List.map_cons, List.mem_cons, not_or] at h
    rw [store_cons]
    have hb : ¬ b.name = a.name := fun e => h.1 e.symm
    simp only [hb, if_false, ih h.2, List.cons_append]

theorem store_existing_name (l : List Asset) (a : Asset)
    (hn : (l.map (fun x => x.name)).Nodup) (h : a.name ∈ l.map (fun x => x.name)) :
    store l a = l.map (fun b => if b.name = a.name then a else b) := by
  induction l with
  | nil => simp at h
  | cons b rest ih =>
    simp only [List.map_cons, List.nodup_cons] at hn
    rw [store_cons]
    by_cases hb : b.name = a.name
    · simp only [hb, if_true, List.map_cons]
      congr 1
      have hid : rest.map (fun b => if b.name = a.name then a else b) = rest.map id := by
        apply List.map_congr_left
        intro x hx
        have hxa : ¬ x.name = a.name := by
          intro e
          apply hn.1
          rw [hb, ← e]
          exact List.mem_map_of_mem _ hx
        simp only [hxa, if_false, id]
      rw [hid, List.map_id]
    · have hmem : a.name ∈ rest.map (fun x => x.name) := by
        simp only [List.map_cons, List.mem_cons] at h
        rcases h with h | h
        · exact absurd h.symm hb
        · exact h
      simp only [hb, if_false, List.map_cons, ih hn.2 hmem]

theorem processFiles_single_grid (f : File) (d : String) (fresh : Nat → String × String)
    (o : SetItem) (st : State) (hv : isValid f = true) (hr : f.read = some d)
    (hc : checkStorageAvailable st = true) (hq : st.searchQuery = "") :
    (processFiles [f] fresh o st).assetGrid = (processFiles [f] fresh o st).assets := by
  have hrej : rejection f = none := by simpa [isValid] using hv
  unfold processFiles
  simp only [List.length_singleton, one_ne_zero, if_false, List.filterMap_cons, hrej,
    List.filterMap_nil, List.map_nil, List.append_nil, List.filter_cons, hv, if_true,
    List.filter_nil, hc, Bool.not_true, Bool.false_eq_true, processLoop, hr]
  simp only [Nat.zero_add, Nat.lt_add_one, if_true, showToast, updateStorageInfo]
  rw [renderAssets_grid, renderAssets_assets]
  cases o <;> simp [saveAssets, showToast, hq]

/-- C19, as the specification states it, fails: "logo.png" and then "icon.png" are
uploaded to the empty collection, and the page shows the earlier upload first. -/
theorem processFiles_renders_oldest_first :
    (processFiles [exLogo1, exIcon] exFresh .ok exEmpty).assetGrid.map (fun a => a.name) =
      ["logo.png", "icon.png"] ∧
    (processFiles [exLogo1, exIcon] exFresh .ok exEmpty).assetGrid.map
        (fun a => a.uploadDate) =
      ["2024-03-01T00:00:00.000Z", "2024-03-01T00:00:01.000Z"] ∧
    Js.lessThan "2024-03-01T00:00:00.000Z".data "2024-03-01T00:00:01.000Z".data = true := by
  decide

/-- C19, amended. renderAssets shows the assets in the order of the collection, and an
accepted upload of one readable file puts an asset whose name is new at the end,
after every earlier upload, and an asset whose name exists at the place of the asset
it replaces. -/
theorem processFiles_keeps_collection_order (st : State) (f : File) (d : String)
    (fresh : Nat → String × String) (o : SetItem)
    (hv : isValid f = true) (hr : f.read = some d)
    (hc : checkStorageAvailable st = true) (hq : st.searchQuery = "") :
    ((renderAssets st).assetGrid).Sublist st.assets ∧
    (processFiles [f] fresh o st).assetGrid = (processFiles [f] fresh o st).assets ∧
    (f.name ∉ st.assets.map (fun x => x.name) →
      (processFiles [f] fresh o st).assets =
        st.assets ++ [⟨(fresh 0).1, f.name, f.type, f.size, d, (fresh 0).2⟩]) ∧
    ((st.assets.map (fun x => x.name)).Nodup → f.name ∈ st.assets.map (fun x => x.name) →
      (processFiles [f] fresh o st).assets =
        st.assets.map (fun b =>
          if b.name = f.name then ⟨(fresh 0).1, f.name, f.type, f.size, d, (fresh 0).2⟩
          else b)) := by
  refine ⟨?_, processFiles_single_grid f d fresh o st hv hr hc hq, ?_, ?_⟩
  · rw [renderAssets_grid]
    split
    · exact List.filter_sublist _
    · exact List.Sublist.refl _
  · intro hnew
    rw [processFiles_single f d fresh o st hv hr hc]
    exact store_new_name _ _ hnew
  · intro hn hmem
    rw [processFiles_single f d fresh o st hv hr hc]
    exact store_existing_name _ ⟨(fresh 0).1, f.name, f.type, f.size, d, (fresh 0).2⟩ hn hmem

/-- Witness of C19: "icon.png" is uploaded after "logo.png" and is placed last. -/
theorem processFiles_keeps_collection_order_witness :
    (processFiles [exIcon] exFresh .ok
        { exEmpty with assets := [exNamed "l1" "logo.png"] }).assets =
      [exNamed "l1" "logo.png"] ++
        [⟨(exFresh 0).1, "icon.png", "image/png", 3, "data:image/png;base64,CCCC",
          (exFresh 0).2⟩] :=
  (processFiles_keeps_collection_order { exEmpty with assets := [exNamed "l1" "logo.png"] }
    exIcon "data:image/png;base64,CCCC" exFresh .ok (by decide) rfl (by decide) rfl).2.2.1
    (by decide)

end Local

namespace Hosted

/-- The loop of `uploadFiles` in closed form: it adds the insert requests and the
failure toasts, and counts the uploaded files. -/
theorem uploadLoop_eq (projectId : String) (folderId : Option String)
    (insert : Nat → Response Unit) (files : List File) :
    ∀ (k : Nat) (st : State) (n : Nat),
      uploadLoop projectId folderId insert files k st n =
        ({ st with
            requests := st.requests ++ insertRequests projectId folderId files
            toasts := st.toasts ++ failureToasts insert files k },
          n + uploadedCount insert files k) := by
  induction files with
  | nil =>
    intro k st n
    simp [uploadLoop, insertRequests, failureToasts, uploadedCount]
  | cons file rest ih =>
    intro k st n
    unfold uploadLoop
    cases hr : file.read with
    | none =>
      simp only [ih]
      simp [showToast, insertRequests, failureToasts, uploadedCount, uploaded, hr,
        List.enumFrom_cons]
    | some d =>
      by_cases he : (insert k).error = true
      · simp only [he, if_true, ih]
        simp [showToast, send, insertRequests, failureToasts, uploadedCount, uploaded, hr,
          he, List.enumFrom_cons]
      · simp only [he, Bool.false_eq_true, if_false, ih]
        simp [send, insertRequests, failureToasts, uploadedCount, uploaded, hr, he,
          List.enumFrom_cons]
        omega

end Hosted

namespace Local

/-- The loop of `processFiles` in closed form: it stores the readable files, adds
the failure toasts, and counts the readable files. -/
theorem processLoop_eq (fresh : Nat → String × String) (files : List File) :
    ∀ (k : Nat) (st : State) (n : Nat),
      processLoop fresh files k st n =
        ({ st with
            assets := processedAssets fresh files k st.assets
            toasts := st.toasts ++ readFailureToasts files },
          n + readCount files) := by
  induction files with
  | nil =>
    intro k st n
    simp [processLoop, processedAssets, readFailureToasts, readCount]
  | cons file rest ih =>
    intro k st n
    unfold processLoop
    cases hr : file.read with
    | none =>
      simp only [ih]
      simp [showToast, processedAssets, readFailureToasts, readCount, hr, List.enumFrom_cons]
    | some d =>
      simp only [ih]
      simp [processedAssets, readFailureToasts, readCount, hr, List.enumFrom_cons]
      omega

end Local

namespace Local

theorem renderAssets_toasts (st : State) : (renderAssets st).toasts = st.toasts := by
  unfold renderAssets
  simp only []
  split <;> split <;> rfl

theorem renderAssets_storage (st : State) :
    (renderAssets st).storage = st.storage ∧
    (renderAssets st).setItemCalls = st.setItemCalls := by
  unfold renderAssets
  simp only []
  split <;> split <;> exact ⟨rfl, rfl⟩

theorem saveAssets_toasts (o : SetItem) (st : State) :
    (saveAssets o st).toasts = st.toasts ++ saveToasts o := by
  cases o <;> simp [saveAssets, showToast, saveToasts]

/-- `processFiles` in closed form, when the batch has a valid file and the storage
check passes: the loop result, then the save, the render and the success toast when a
file was stored. -/
theorem processFiles_run_eq (files : List File) (fresh : Nat → String × String)
    (o : SetItem) (st : State) (h1 : (files.filter isValid).length ≠ 0)
    (hc : checkStorageAvailable st = true) :
    processFiles files fresh o st =
      if 0 < readCount (files.filter isValid) then
        showToast (toString (readCount (files.filter isValid)) ++
            " asset(s) uploaded successfully") "success"
          (updateStorageInfo (renderAssets (saveAssets o
            { st with
              assets := processedAssets fresh (files.filter isValid) 0 st.assets
              toasts := st.toasts ++ rejectionToasts files ++
                readFailureToasts (files.filter isValid) })))
      else
        { st with
          assets := processedAssets fresh (files.filter isValid) 0 st.assets
          toasts := st.toasts ++ rejectionToasts files ++
            readFailureToasts (files.filter isValid) } := by
  have h0 : ¬ files.length = 0 := by
    intro h
    have : files = [] := List.length_eq_zero.mp h
    subst this
    exact h1 rfl
  unfold processFiles
  simp only [h0, h1, if_false, checkStorageAvailable_toasts, hc, Bool.not_true,
    Bool.false_eq_true, processLoop_eq, Nat.zero_add, gt_iff_lt, rejectionToasts]

/-- The toasts of `processFiles`, when the storage check passes or no file is valid:
the rejections, the read failures, and for a batch with a stored file the toast of
`saveAssets` and the success toast with the count of stored files. -/
theorem processFiles_toasts (files : List File) (fresh : Nat → String × String)
    (o : SetItem) (st : State)
    (h : (files.filter isValid).length = 0 ∨ checkStorageAvailable st = true) :
    (processFiles files fresh o st).toasts =
      st.toasts ++ rejectionToasts files ++ readFailureToasts (files.filter isValid) ++
        (if 0 < readCount (files.filter isValid) then
          saveToasts o ++ [⟨toString (readCount (files.filter isValid)) ++
            " asset(s) uploaded successfully", "success"⟩]
        else []) := by
  by_cases h1 : (files.filter isValid).length = 0
  · have hV : files.filter isValid = [] := List.length_eq_zero.mp h1
    unfold processFiles
    by_cases h0 : files.length = 0
    · have : files = [] := List.length_eq_zero.mp h0
      subst this
      simp [rejectionToasts, readFailureToasts, readCount]
    · simp [h0, hV, rejectionToasts, readFailureToasts, readCount]
  · have hc : checkStorageAvailable st = true := h.resolve_left h1
    rw [processFiles_run_eq files fresh o st h1 hc]
    split
    · simp [showToast, updateStorageInfo, renderAssets_toasts, saveAssets_toasts]
    · simp

theorem processFiles_assets_eq (files : List File) (fresh : Nat → String × String)
    (o : SetItem) (st : State)
    (h : (files.filter isValid).length = 0 ∨ checkStorageAvailable st = true) :
    (processFiles files fresh o st).assets =
      processedAssets fresh (files.filter isValid) 0 st.assets := by
  by_cases h1 : (files.filter isValid).length = 0
  · rw [(processFiles_skip files fresh o st (Or.inl h1)).1, List.length_eq_zero.mp h1]
    rfl
  · have hc : checkStorageAvailable st = true := h.resolve_left h1
    rw [processFiles_run_eq files fresh o st h1 hc]
    split
    · simp [showToast, updateStorageInfo, renderAssets_assets, saveAssets_assets]
    · rfl

end Local

namespace Hosted

theorem renderAssets_keeps_toasts (st : State) : (renderAssets st).toasts = st.toasts := by
  unfold renderAssets
  cases st.currentProject with
  | none => rfl
  | some p => simp only []; split <;> rfl

theorem loadAssets_toasts (projectId : Option String) (reply : Response (List Asset))
    (st : State) :
    (loadAssets projectId reply st).toasts =
      st.toasts ++ (if reply.error then [⟨"Error loading assets from database", "error"⟩]
        else []) := by
  unfold loadAssets
  cases reply.error <;> cases projectId <;> simp [send, showToast, Js.truthy]
  all_goals split <;> simp

/-- The asset cache after `loadAssets` depends on the state through its asset cache
only. -/
theorem loadAssets_assets_congr (projectId : Option String) (reply : Response (List Asset))
    (s t : State) (h : s.assets = t.assets) :
    (loadAssets projectId reply s).assets = (loadAssets projectId reply t).assets := by
  unfold loadAssets
  cases reply.error <;> cases projectId <;> simp [send, showToast, Js.truthy, h]
  all_goals split <;> simp [h]

end Hosted

namespace Hosted

/-- The requests, the toasts and the asset cache after `uploadFiles`, for a chosen
project and a non-empty list of pending files: the inserts of the readable valid
files, then the reload when a file was uploaded into the open project; the
rejections, the failures, then the success toast with the count of uploaded files. -/
theorem uploadFiles_fields (insert : Nat → Response Unit) (fetch : Response (List Asset))
    (st : State) (hsel : st.projectSelect ≠ "") (hne : st.pendingFiles ≠ []) :
    (uploadFiles insert fetch st).requests =
      st.requests ++
        insertRequests st.projectSelect (targetFolder st) (st.pendingFiles.filter isValid) ++
        (if 0 < uploadedCount insert (st.pendingFiles.filter isValid) 0 ∧ reloads st = true
          then [.selectAssets (some st.projectSelect)] else []) ∧
    (uploadFiles insert fetch st).toasts =
      st.toasts ++ rejectionToasts st.pendingFiles ++
        failureToasts insert (st.pendingFiles.filter isValid) 0 ++
        (if 0 < uploadedCount insert (st.pendingFiles.filter isValid) 0 then
          ⟨toString (uploadedCount insert (st.pendingFiles.filter isValid) 0) ++
              " asset(s) uploaded successfully", "success"⟩ ::
            (if reloads st = true ∧ fetch.error = true then
              [⟨"Error loading assets from database", "error"⟩] else [])
        else []) ∧
    (uploadFiles insert fetch st).assets =
      if 0 < uploadedCount insert (st.pendingFiles.filter isValid) 0 ∧ reloads st = true then
        (loadAssets (some st.projectSelect) fetch st).assets
      else st.assets := by
  have hlen : ¬ st.pendingFiles.length = 0 := fun h => hne (List.length_eq_zero.mp h)
  have htruthy : Js.truthy (some st.projectSelect) = true := by
    simp [Js.truthy, hsel]
  unfold uploadFiles
  simp only [hsel, hlen, or_self, if_false]
  by_cases h1 : (st.pendingFiles.filter isValid).length = 0
  · have hV : st.pendingFiles.filter isValid = [] := List.length_eq_zero.mp h1
    simp [hV, rejectionToasts, insertRequests, failureToasts, uploadedCount]
  · simp only [h1, if_false, uploadLoop_eq, Nat.zero_add, gt_iff_lt]
    by_cases hn : 0 < uploadedCount insert (st.pendingFiles.filter isValid) 0
    · simp only [hn, if_true, true_and]
      cases hcur : st.currentProject with
      | none =>
        simp [closeUploadModal, showToast, reloads, hcur, rejectionToasts, targetFolder]
      | some p =>
        by_cases hp : p.id = st.projectSelect
        · have hrel : reloads st = true := by simp [reloads, hcur, hp]
          simp only [showToast, hcur, hp, if_true, closeUploadModal, updateStorageInfo,
            (renderAssets_frame _).1, (renderAssets_frame _).2.2, renderAssets_keeps_toasts,
            loadAssets_requests, loadAssets_toasts, htruthy, hrel, true_and]
          refine ⟨by simp [targetFolder], ?_, ?_⟩
          · cases fetch.error <;> simp [rejectionToasts]
          · exact loadAssets_assets_congr _ _ _ _ rfl
        · have hrel : reloads st = false := by simp [reloads, hcur, hp]
          simp [closeUploadModal, showToast, hcur, hp, hrel, rejectionToasts, targetFolder]
    · simp [hn, rejectionToasts, targetFolder]

end Hosted

/-- C17. Quota abort apart, the valid files of a batch are all handled, in batch order:
in the local variant every readable valid file is stored and every unreadable one
gets a failure toast; in the hosted variant, for a chosen project, every readable
valid file gets its insert request and every file whose read or insert fails gets a
failure toast; the count in the success toast, which is the `successCount` the loop
returns, is the number of valid files whose read, and in the hosted variant insert,
succeeded. -/
theorem upload_files_handled_independently (st : Hosted.State) (lst : Local.State)
    (files : List File) (fresh : Nat → String × String) (o : Local.SetItem)
    (insert : Nat → Response Unit) (fetch : Response (List Hosted.Asset))
    (hc : Local.checkStorageAvailable lst = true)
    (hsel : st.projectSelect ≠ "") (hne : st.pendingFiles ≠ []) :
    ((Local.processFiles files fresh o lst).assets =
        Local.processedAssets fresh (files.filter Local.isValid) 0 lst.assets ∧
      (∀ s : Local.State, (Local.processLoop fresh (files.filter Local.isValid) 0 s 0).2 =
        ((files.filter Local.isValid).filter (fun f => f.read.isSome)).length) ∧
      (Local.processFiles files fresh o lst).toasts =
        lst.toasts ++ Local.rejectionToasts files ++
          Local.readFailureToasts (files.filter Local.isValid) ++
          (if 0 < Local.readCount (files.filter Local.isValid) then
            Local.saveToasts o ++
              [⟨toString (Local.readCount (files.filter Local.isValid)) ++
                " asset(s) uploaded successfully", "success"⟩]
          else [])) ∧
    ((Hosted.uploadFiles insert fetch st).requests =
        st.requests ++
          Hosted.insertRequests st.projectSelect (Hosted.targetFolder st)
            (st.pendingFiles.filter Hosted.isValid) ++
          (if 0 < Hosted.uploadedCount insert (st.pendingFiles.filter Hosted.isValid) 0 ∧
              Hosted.reloads st = true
            then [.selectAssets (some st.projectSelect)] else []) ∧
      (∀ s : Hosted.State,
        (Hosted.uploadLoop st.projectSelect (Hosted.targetFolder st) insert
          (st.pendingFiles.filter Hosted.isValid) 0 s 0).2 =
        (((st.pendingFiles.filter Hosted.isValid).enumFrom 0).filter
          (fun e => e.2.read.isSome && !(insert e.1).error)).length) ∧
      (Hosted.uploadFiles insert fetch st).toasts =
        st.toasts ++ Hosted.rejectionToasts st.pendingFiles ++
          Hosted.failureToasts insert (st.pendingFiles.filter Hosted.isValid) 0 ++
          (if 0 < Hosted.uploadedCount insert (st.pendingFiles.filter Hosted.isValid) 0 then
            ⟨toString (Hosted.uploadedCount insert (st.pendingFiles.filter Hosted.isValid) 0) ++
                " asset(s) uploaded successfully", "success"⟩ ::
              (if Hosted.reloads st = true ∧ fetch.error = true then
                [⟨"Error loading assets from database", "error"⟩] else [])
          else [])) := by
  have hf := Hosted.uploadFiles_fields insert fetch st hsel hne
  refine ⟨⟨Local.processFiles_assets_eq files fresh o lst (Or.inr hc), ?_,
    Local.processFiles_toasts files fresh o lst (Or.inr hc)⟩, hf.1, ?_, hf.2.1⟩
  · intro s
    rw [Local.processLoop_eq]
    simp [Local.readCount]
  · intro s
    rw [Hosted.uploadLoop_eq]
    simp only [Nat.zero_add, Hosted.uploadedCount]
    rfl

/-- Witness of C17: the first pending file cannot be read, the second is still
inserted, and the success toast counts one file. -/
theorem upload_files_handled_independently_witness :
    (Hosted.uploadFiles Hosted.exInsertOk ⟨some [], false⟩ Hosted.exUploadState).requests =
      [.insertAsset "logo.png" "image/png" 3 "data:image/png;base64,AAAA" "p1" none,
       .selectAssets (some "p1")] ∧
    (Hosted.uploadFiles Hosted.exInsertOk ⟨some [], false⟩ Hosted.exUploadState).toasts =
      [⟨"Failed to upload \"broken.png\"", "error"⟩,
       ⟨"1 asset(s) uploaded successfully", "success"⟩] :=
  have h := upload_files_handled_independently Hosted.exUploadState Local.exEmpty
    [Local.exLogo1] Local.exFresh .ok Hosted.exInsertOk ⟨some [], false⟩
    (by decide) (by decide) (by decide)
  ⟨h.2.1.trans (by decide), h.2.2.2.trans (by decide)⟩

namespace Local

theorem processFiles_toasts_general (files : List File) (fresh : Nat → String × String)
    (o : SetItem) (st : State) :
    (processFiles files fresh o st).toasts =
      st.toasts ++ rejectionToasts files ++ laterToasts o st (files.filter isValid) := by
  by_cases h1 : (files.filter isValid).length = 0
  · rw [processFiles_toasts files fresh o st (Or.inl h1)]
    have hV : files.filter isValid = [] := List.length_eq_zero.mp h1
    simp [laterToasts, hV, readFailureToasts, readCount]
  · by_cases hc : checkStorageAvailable st = true
    · rw [processFiles_toasts files fresh o st (Or.inr hc)]
      simp [laterToasts, h1, hc, List.append_assoc]
    · have h0 : ¬ files.length = 0 := by
        intro h
        have : files = [] := List.length_eq_zero.mp h
        subst this
        exact h1 rfl
      unfold processFiles
      simp [h0, h1, checkStorageAvailable_toasts, hc, showToast, laterToasts, rejectionToasts]

/-- The collection, the stored item and the number of writes after `processFiles`
depend on the batch through its valid files only. -/
theorem processFiles_congr_valid (files files' : List File) (fresh : Nat → String × String)
    (o : SetItem) (st : State) (hV : files.filter isValid = files'.filter isValid) :
    (processFiles files fresh o st).assets = (processFiles files' fresh o st).assets ∧
    (processFiles files fresh o st).storage = (processFiles files' fresh o st).storage ∧
    (processFiles files fresh o st).setItemCalls =
      (processFiles files' fresh o st).setItemCalls := by
  by_cases hrun : (files.filter isValid).length ≠ 0 ∧ checkStorageAvailable st = true
  · have hrun' : (files'.filter isValid).length ≠ 0 := by rw [← hV]; exact hrun.1
    rw [processFiles_run_eq files fresh o st hrun.1 hrun.2,
      processFiles_run_eq files' fresh o st hrun' hrun.2, hV]
    split
    · simp only [showToast, updateStorageInfo, renderAssets_assets, saveAssets_assets,
        (renderAssets_storage _).1, (renderAssets_storage _).2]
      cases o <;> simp [saveAssets, showToast]
    · exact ⟨rfl, rfl, rfl⟩
  · have hskip : (files.filter isValid).length = 0 ∨ checkStorageAvailable st = false := by
      by_cases h1 : (files.filter isValid).length = 0
      · exact Or.inl h1
      · right
        cases hc : checkStorageAvailable st
        · rfl
        · exact absurd ⟨h1, hc⟩ hrun
    have hskip' : (files'.filter isValid).length = 0 ∨ checkStorageAvailable st = false := by
      rw [← hV]; exact hskip
    have hA := processFiles_skip files fresh o st hskip
    have hB := processFiles_skip files' fresh o st hskip'
    exact ⟨hA.1.trans hB.1.symm, hA.2.1.trans hB.2.1.symm, hA.2.2.trans hB.2.2.symm⟩

theorem rejectionToasts_insert (f : File) (m : String) (hm : rejection f = some m)
    (pre post : List File) :
    rejectionToasts (pre ++ f :: post) =
      rejectionToasts pre ++ ⟨m, "error"⟩ :: rejectionToasts post ∧
    rejectionToasts (pre ++ post) = rejectionToasts pre ++ rejectionToasts post ∧
    (pre ++ f :: post).filter isValid = (pre ++ post).filter isValid := by
  have hv : isValid f = false := by simp [isValid, hm]
  simp [rejectionToasts, List.filterMap_append, hm, hv]

end Local

namespace Hosted

theorem uploadRejections_insert (f : File) (m : String) (hm : rejection f = some m)
    (pre post : List File) :
    rejectionToasts (pre ++ f :: post) =
      rejectionToasts pre ++ ⟨m, "error"⟩ :: rejectionToasts post ∧
    rejectionToasts (pre ++ post) = rejectionToasts pre ++ rejectionToasts post ∧
    (pre ++ f :: post).filter isValid = (pre ++ post).filter isValid := by
  have hv : isValid f = false := by simp [isValid, hm]
  simp [rejectionToasts, List.filterMap_append, hm, hv]

end Hosted

/-- The filter callbacks of both variants reject a file of more than 2,097,152 bytes
with one message, which names the file. -/
theorem oversized_rejection (f : File) (hbig : 2097152 < f.size) :
    ∃ m, Local.rejection f = some m ∧ Hosted.rejection f = some m ∧
      (m = "\"" ++ f.name ++ "\" exceeds 2MB limit" ∨
        m = "\"" ++ f.name ++ "\" is not a supported format") := by
  by_cases ht : f.type ∈
      ["image/jpeg", "image/png", "image/gif", "image/webp", "image/svg+xml"]
  · refine ⟨"\"" ++ f.name ++ "\" exceeds 2MB limit", ?_, ?_, Or.inl rfl⟩
    · simp [Local.rejection, Local.ALLOWED_TYPES, Local.MAX_FILE_SIZE, ht]
      exact hbig
    · simp [Hosted.rejection, Hosted.ALLOWED_TYPES, Hosted.MAX_FILE_SIZE, ht]
      exact hbig
  · refine ⟨"\"" ++ f.name ++ "\" is not a supported format", ?_, ?_, Or.inr rfl⟩
    · simp [Local.rejection, Local.ALLOWED_TYPES, ht]
    · simp [Hosted.rejection, Hosted.ALLOWED_TYPES, ht]

/-- C16. A file of more than 2,097,152 bytes is rejected by the filter of both variants
with one message naming it. Put anywhere in a batch, it leaves the collection, the
stored item and the writes (local) and the requests and the asset cache (hosted, for
a chosen project) as they are without it, and adds its one rejection toast at its
place among the rejections. A batch of that file alone changes no record, issues no
write, and shows that one toast. -/
theorem oversized_file_rejected (f : File) (hbig : 2097152 < f.size)
    (st : Hosted.State) (lst : Local.State) (hsel : st.projectSelect ≠ "") :
    ∃ m, Local.rejection f = some m ∧ Hosted.rejection f = some m ∧
      (m = "\"" ++ f.name ++ "\" exceeds 2MB limit" ∨
        m = "\"" ++ f.name ++ "\" is not a supported format") ∧
      (∀ (pre post : List File) (fresh : Nat → String × String) (o : Local.SetItem),
        (Local.processFiles (pre ++ f :: post) fresh o lst).assets =
          (Local.processFiles (pre ++ post) fresh o lst).assets ∧
        (Local.processFiles (pre ++ f :: post) fresh o lst).storage =
          (Local.processFiles (pre ++ post) fresh o lst).storage ∧
        (Local.processFiles (pre ++ f :: post) fresh o lst).setItemCalls =
          (Local.processFiles (pre ++ post) fresh o lst).setItemCalls ∧
        ∃ tail,
          (Local.processFiles (pre ++ post) fresh o lst).toasts =
            lst.toasts ++ Local.rejectionToasts pre ++ Local.rejectionToasts post ++ tail ∧
          (Local.processFiles (pre ++ f :: post) fresh o lst).toasts =
            lst.toasts ++ Local.rejectionToasts pre ++
              ⟨m, "error"⟩ :: Local.rejectionToasts post ++ tail) ∧
      (∀ (fresh : Nat → String × String) (o : Local.SetItem),
        (Local.processFiles [f] fresh o lst).assets = lst.assets ∧
        (Local.processFiles [f] fresh o lst).storage = lst.storage ∧
        (Local.processFiles [f] fresh o lst).setItemCalls = lst.setItemCalls ∧
        (Local.processFiles [f] fresh o lst).toasts = lst.toasts ++ [⟨m, "error"⟩]) ∧
      (∀ (pre post : List File) (insert : Nat → Response Unit)
          (fetch : Response (List Hosted.Asset)), pre ++ post ≠ [] →
        (Hosted.uploadFiles insert fetch { st with pendingFiles := pre ++ f :: post }).requests =
          (Hosted.uploadFiles insert fetch { st with pendingFiles := pre ++ post }).requests ∧
        (Hosted.uploadFiles insert fetch { st with pendingFiles := pre ++ f :: post }).assets =
          (Hosted.uploadFiles insert fetch { st with pendingFiles := pre ++ post }).assets ∧
        ∃ tail,
          (Hosted.uploadFiles insert fetch { st with pendingFiles := pre ++ post }).toasts =
            st.toasts ++ Hosted.rejectionToasts pre ++ Hosted.rejectionToasts post ++ tail ∧
          (Hosted.uploadFiles insert fetch
              { st with pendingFiles := pre ++ f :: post }).toasts =
            st.toasts ++ Hosted.rejectionToasts pre ++
              ⟨m, "error"⟩ :: Hosted.rejectionToasts post ++ tail) ∧
      (∀ (insert : Nat → Response Unit) (fetch : Response (List Hosted.Asset)),
        (Hosted.uploadFiles insert fetch { st with pendingFiles := [f] }).requests =
          st.requests ∧
        (Hosted.uploadFiles insert fetch { st with pendingFiles := [f] }).assets = st.assets ∧
        (Hosted.uploadFiles insert fetch { st with pendingFiles := [f] }).toasts =
          st.toasts ++ [⟨m, "error"⟩]) := by
  obtain ⟨m, hL, hH, hm⟩ := oversized_rejection f hbig
  refine ⟨m, hL, hH, hm, ?_, ?_, ?_, ?_⟩
  · intro pre post fresh o
    obtain ⟨hR1, hR2, hV⟩ := Local.rejectionToasts_insert f m hL pre post
    have hc := Local.processFiles_congr_valid (pre ++ f :: post) (pre ++ post) fresh o lst hV
    refine ⟨hc.1, hc.2.1, hc.2.2, Local.laterToasts o lst ((pre ++ post).filter Local.isValid),
      ?_, ?_⟩
    · rw [Local.processFiles_toasts_general, hR2]
      simp only [List.append_assoc]
    · rw [Local.processFiles_toasts_general, hR1, hV]
      simp only [List.append_assoc, List.cons_append]
  · intro fresh o
    have hV : ([f].filter Local.isValid).length = 0 := by
      simp [Local.isValid, hL]
    have hs := Local.processFiles_skip [f] fresh o lst (Or.inl hV)
    refine ⟨hs.1, hs.2.1, hs.2.2, ?_⟩
    rw [Local.processFiles_toasts [f] fresh o lst (Or.inl hV)]
    have hV' : [f].filter Local.isValid = [] := List.length_eq_zero.mp hV
    simp [hV', Local.rejectionToasts, hL, Local.readFailureToasts, Local.readCount]
  · intro pre post insert fetch hne
    obtain ⟨hR1, hR2, hV⟩ := Hosted.uploadRejections_insert f m hH pre post
    have hA := Hosted.uploadFiles_fields insert fetch
      { st with pendingFiles := pre ++ f :: post } hsel (by simp)
    have hB := Hosted.uploadFiles_fields insert fetch
      { st with pendingFiles := pre ++ post } hsel hne
    simp only [hV, hR1] at hA
    simp only [hR2] at hB
    refine ⟨?_, ?_, ?_⟩
    · rw [hA.1, hB.1]
      rfl
    · rw [hA.2.2, hB.2.2]
      have hcongr := Hosted.loadAssets_assets_congr (some st.projectSelect) fetch
        { st with pendingFiles := pre ++ f :: post } { st with pendingFiles := pre ++ post } rfl
      simp only [Hosted.reloads] at hcongr ⊢
      rw [hcongr]
    · refine ⟨Hosted.failureToasts insert ((pre ++ post).filter Hosted.isValid) 0 ++
        (if 0 < Hosted.uploadedCount insert ((pre ++ post).filter Hosted.isValid) 0 then
          ⟨toString (Hosted.uploadedCount insert ((pre ++ post).filter Hosted.isValid) 0) ++
              " asset(s) uploaded successfully", "success"⟩ ::
            (if Hosted.reloads st = true ∧ fetch.error = true then
              [⟨"Error loading assets from database", "error"⟩] else [])
        else []), ?_, ?_⟩
      · rw [hB.2.1]
        simp only [List.append_assoc]
        rfl
      · rw [hA.2.1]
        simp only [List.append_assoc, List.cons_append]
        rfl
  · intro insert fetch
    have hA := Hosted.uploadFiles_fields insert fetch { st with pendingFiles := [f] } hsel
      (by simp)
    have hV : [f].filter Hosted.isValid = [] := by simp [Hosted.isValid, hH]
    simp only [hV] at hA
    refine ⟨?_, ?_, ?_⟩
    · rw [hA.1]
      simp [Hosted.insertRequests, Hosted.uploadedCount]
    · rw [hA.2.2]
      simp [Hosted.uploadedCount]
    · rw [hA.2.1]
      simp [Hosted.rejectionToasts, hH, Hosted.failureToasts, Hosted.uploadedCount]

/-- Witness of C16: the file of 2,097,153 bytes, alone in a batch on the empty local
collection, adds one rejection toast and nothing else. -/
theorem oversized_file_rejected_witness :
    2097152 < exHuge.size ∧ Hosted.exUploadState.projectSelect ≠ "" ∧
    ∃ m, Local.rejection exHuge = some m ∧
      (Local.processFiles [exHuge] Local.exFresh .ok Local.exEmpty).assets =
        Local.exEmpty.assets ∧
      (Local.processFiles [exHuge] Local.exFresh .ok Local.exEmpty).toasts =
        Local.exEmpty.toasts ++ [⟨m, "error"⟩] :=
  ⟨by decide, by decide,
    match oversized_file_rejected exHuge (by decide) Hosted.exUploadState Local.exEmpty
      (by decide) with
    | ⟨m, hL, _, _, _, hsingle, _, _⟩ =>
      ⟨m, hL, (hsingle Local.exFresh .ok).1, (hsingle Local.exFresh .ok).2.2.2⟩⟩

namespace Hosted

theorem renderFolders_frame (st : State) :
    (renderFolders st).selectedAssets = st.selectedAssets ∧
    (renderFolders st).assets = st.assets ∧
    (renderFolders st).requests = st.requests := by
  unfold renderFolders
  cases st.currentProject <;> exact ⟨rfl, rfl, rfl⟩

theorem toggleAssetSelection_selected (id : String) (st : State) :
    (toggleAssetSelection id st).selectedAssets =
      if id ∈ st.selectedAssets then st.selectedAssets.filter (fun x => decide (x ≠ id))
      else st.selectedAssets ++ [id] := by
  unfold toggleAssetSelection
  rw [(renderAssets_frame _).2.1]
  simp only [updateSelectedCount]
  split
  · rfl
  · rename_i h
    simp [setAdd, h]

/-- C21. toggleAssetSelection(id) puts the id into the selection exactly when it was
not in it and keeps the membership of every other id; toggling twice gives back the
same set of ids: the same list when the id was not selected, and for a selection
without repetition a rearrangement of it, the id moving to the end. -/
theorem toggleAssetSelection_flips (st : State) (id : String) :
    (id ∈ (toggleAssetSelection id st).selectedAssets ↔ id ∉ st.selectedAssets) ∧
    (∀ x, x ≠ id →
      (x ∈ (toggleAssetSelection id st).selectedAssets ↔ x ∈ st.selectedAssets)) ∧
    (∀ x, x ∈ (toggleAssetSelection id (toggleAssetSelection id st)).selectedAssets ↔
      x ∈ st.selectedAssets) ∧
    (id ∉ st.selectedAssets →
      (toggleAssetSelection id (toggleAssetSelection id st)).selectedAssets =
        st.selectedAssets) ∧
    (st.selectedAssets.Nodup →
      (toggleAssetSelection id st).selectedAssets.Nodup ∧
      ((toggleAssetSelection id (toggleAssetSelection id st)).selectedAssets).Perm
        st.selectedAssets) := by
  have h1g : ∀ s : State,
      id ∈ (toggleAssetSelection id s).selectedAssets ↔ id ∉ s.selectedAssets := by
    intro s
    rw [toggleAssetSelection_selected]
    split <;> simp [*]
  have h2g : ∀ (s : State) (x : String), x ≠ id →
      (x ∈ (toggleAssetSelection id s).selectedAssets ↔ x ∈ s.selectedAssets) := by
    intro s x hx
    rw [toggleAssetSelection_selected]
    split <;> simp [hx]
  have h3 : ∀ x, x ∈ (toggleAssetSelection id (toggleAssetSelection id st)).selectedAssets ↔
      x ∈ st.selectedAssets := by
    intro x
    by_cases hx : x = id
    · subst hx
      rw [h1g, h1g, not_not]
    · rw [h2g _ x hx, h2g _ x hx]
  have hndg : ∀ s : State, s.selectedAssets.Nodup →
      (toggleAssetSelection id s).selectedAssets.Nodup := by
    intro s hn
    rw [toggleAssetSelection_selected]
    split
    · exact hn.filter _
    · rename_i hmem
      rw [List.nodup_append]
      refine ⟨hn, List.nodup_singleton _, ?_⟩
      intro a ha hb
      simp only [List.mem_singleton] at hb
      subst hb
      exact hmem ha
  refine ⟨h1g st, h2g st, h3, ?_, ?_⟩
  · intro hid
    have hfil : st.selectedAssets.filter (fun x => decide (x ≠ id)) = st.selectedAssets := by
      rw [List.filter_eq_self]
      intro a ha
      simp only [ne_eq, decide_eq_true_eq]
      intro e
      exact hid (e ▸ ha)
    rw [toggleAssetSelection_selected, toggleAssetSelection_selected]
    simp only [hid, if_false, List.mem_append, List.mem_singleton, or_true, if_true,
      List.filter_append, hfil]
    simp
  · intro hn
    exact ⟨hndg st hn,
      (List.perm_ext_iff_of_nodup (hndg _ (hndg st hn)) hn).mpr h3⟩

/-- The label of a non-empty grid: "1 asset", or the number followed by "assets". -/
theorem countLabel_eq (n : Nat) :
    countLabel n = if n = 1 then "1 asset" else toString n ++ " assets" := by
  unfold countLabel
  by_cases h : n = 1
  · subst h
    decide
  · simp only [h, ne_eq, not_false_eq_true, if_true, if_false]
    rw [String.append_assoc]
    rfl

end Hosted

namespace Local

theorem local_countLabel_eq (n : Nat) :
    countLabel n = if n = 1 then "1 asset" else toString n ++ " assets" := by
  unfold countLabel
  by_cases h : n = 1
  · subst h
    decide
  · simp only [h, ne_eq, not_false_eq_true, if_true, if_false]
    rw [String.append_assoc]
    rfl

end Local

/-- C28. In both variants, when the filtered list is empty the count label is "No
matching assets" exactly when the stored query is non-empty and "0 assets" otherwise,
two different labels; for a list of n > 0 assets the label is "1 asset" when n = 1
and the number followed by "assets" otherwise. -/
theorem renderAssets_count_label (st : Hosted.State) (P : Hosted.Project)
    (lst : Local.State) (hP : st.currentProject = some P) :
    (Hosted.filteredAssets st P = [] →
      ((Hosted.renderAssets st).assetCount = "No matching assets" ↔ st.searchQuery ≠ "") ∧
      (st.searchQuery = "" → (Hosted.renderAssets st).assetCount = "0 assets")) ∧
    (Hosted.filteredAssets st P ≠ [] →
      (Hosted.renderAssets st).assetCount =
        if (Hosted.filteredAssets st P).length = 1 then "1 asset"
        else toString (Hosted.filteredAssets st P).length ++ " assets") ∧
    ((Local.renderAssets lst).assetGrid = [] →
      ((Local.renderAssets lst).assetCount = "No matching assets" ↔ lst.searchQuery ≠ "") ∧
      (lst.searchQuery = "" → (Local.renderAssets lst).assetCount = "0 assets")) ∧
    ((Local.renderAssets lst).assetGrid ≠ [] →
      (Local.renderAssets lst).assetCount =
        if (Local.renderAssets lst).assetGrid.length = 1 then "1 asset"
        else toString (Local.renderAssets lst).assetGrid.length ++ " assets") ∧
    ("No matching assets" : String) ≠ "0 assets" := by
  refine ⟨?_, ?_, ?_, ?_, by decide⟩
  · intro hempty
    unfold Hosted.renderAssets
    simp only [hP, hempty, List.length_nil, if_true]
    by_cases hq : st.searchQuery = ""
    · simp [hq]
    · simp [hq]
  · intro hne
    have hlen : ¬ (Hosted.filteredAssets st P).length = 0 := fun h =>
      hne (List.length_eq_zero.mp h)
    unfold Hosted.renderAssets
    simp only [hP, hlen, if_false, Hosted.countLabel_eq]
  · intro hempty
    have hlen : (if lst.searchQuery ≠ "" then
        lst.assets.filter (fun asset => Js.includes (Js.toLowerCase asset.name) lst.searchQuery)
        else lst.assets).length = 0 := by
      rw [← Local.renderAssets_grid, hempty]
      rfl
    unfold Local.renderAssets
    simp only [hlen, if_true]
    by_cases hq : lst.searchQuery = ""
    · simp [hq]
    · simp [hq]
  · intro hne
    have hgrid := Local.renderAssets_grid lst
    have hlen : ¬ (if lst.searchQuery ≠ "" then
        lst.assets.filter (fun asset => Js.includes (Js.toLowerCase asset.name) lst.searchQuery)
        else lst.assets).length = 0 := by
      rw [← hgrid]
      exact fun h => hne (List.length_eq_zero.mp h)
    rw [hgrid]
    unfold Local.renderAssets
    simp only [hlen, if_false, Local.local_countLabel_eq]

/-- Witness of C28 at the example state, whose root view shows one asset. -/
theorem renderAssets_count_label_witness :
    (Hosted.renderAssets Hosted.exState).assetCount = "1 asset" :=
  ((renderAssets_count_label Hosted.exState Hosted.exProject Local.exEmpty rfl).2.1
    (by decide)).trans (by decide)

namespace Hosted

theorem loadAssets_selected (projectId : Option String) (reply : Response (List Asset))
    (st : State) : (loadAssets projectId reply st).selectedAssets = st.selectedAssets := by
  unfold loadAssets
  cases reply.error <;> cases projectId <;> simp [send, showToast, Js.truthy]
  all_goals split <;> rfl

theorem deleteAsset_selected (id : String) (confirm : Bool) (del : Response Unit)
    (fetch : Response (List Asset)) (st : State) :
    (deleteAsset id confirm del fetch st).selectedAssets = st.selectedAssets := by
  unfold deleteAsset
  split
  · rfl
  · cases confirm
    · rfl
    · cases del.error
      · simp only [if_true, Bool.false_eq_true, if_false, send, showToast]
        cases st.currentProject with
        | none => rfl
        | some p =>
          simp only [updateStorageInfo, (renderAssets_frame _).2.1, loadAssets_selected]
      · rfl

theorem bulkDelete_sends_selection (del : Response Unit) (fetch : Response (List Asset))
    (st : State) (h : st.selectedAssets ≠ []) :
    Request.deleteAssetsIn st.selectedAssets ∈ (bulkDelete true del fetch st).requests := by
  have hlen : ¬ st.selectedAssets.length = 0 := fun e => h (List.length_eq_zero.mp e)
  unfold bulkDelete
  simp only [hlen, if_false, if_true]
  cases del.error
  · simp only [Bool.false_eq_true, if_false, updateStorageInfo, updateSelectedCount,
      (renderAssets_frame _).1]
    cases hp : st.currentProject with
    | none => simp [send, showToast, hp]
    | some p => simp [send, showToast, hp, loadAssets_requests]
  · simp [send, showToast]

/-- C29. handleSearch, clearSearch, the clicks on the folder bar, deleteAsset and
loadAssets leave the selection as it is, and a confirmed bulkDelete asks for the
deletion of the whole selection. In the example, `a1` is selected and then hidden by
a search, or dropped from the cache by a reload, and bulkDelete still asks for its
deletion. -/
theorem selection_outlives_filter (st : State) :
    (∀ value, (handleSearch value st).selectedAssets = st.selectedAssets) ∧
    (clearSearch st).selectedAssets = st.selectedAssets ∧
    (∀ folder, (chipClick folder st).selectedAssets = st.selectedAssets) ∧
    (allClick st).selectedAssets = st.selectedAssets ∧
    (∀ folder, (chipDblClick folder st).selectedAssets = st.selectedAssets) ∧
    (backClick st).selectedAssets = st.selectedAssets ∧
    (∀ id confirm del fetch,
      (deleteAsset id confirm del fetch st).selectedAssets = st.selectedAssets) ∧
    (∀ projectId reply, (loadAssets projectId reply st).selectedAssets = st.selectedAssets) ∧
    (∀ del fetch, st.selectedAssets ≠ [] →
      Request.deleteAssetsIn st.selectedAssets ∈ (bulkDelete true del fetch st).requests) ∧
    ((handleSearch "zzz" (toggleAssetSelection "a1" exState)).selectedAssets = ["a1"] ∧
      (handleSearch "zzz" (toggleAssetSelection "a1" exState)).assetGrid = [] ∧
      (bulkDelete true ⟨none, false⟩ ⟨some [exRootAsset, exNestedAsset], false⟩
        (handleSearch "zzz" (toggleAssetSelection "a1" exState))).requests =
        [.deleteAssetsIn ["a1"], .selectAssets (some "p1")]) ∧
    ((loadAssets (some "p1") ⟨some [], false⟩
        (toggleAssetSelection "a1" exState)).selectedAssets = ["a1"] ∧
      (loadAssets (some "p1") ⟨some [], false⟩ (toggleAssetSelection "a1" exState)).assets = [] ∧
      (bulkDelete true ⟨none, false⟩ ⟨some [], false⟩
        (loadAssets (some "p1") ⟨some [], false⟩
          (toggleAssetSelection "a1" exState))).requests =
        [.selectAssets (some "p1"), .deleteAssetsIn ["a1"], .selectAssets (some "p1")]) := by
  refine ⟨?_, ?_, ?_, ?_, ?_, ?_,
    fun id confirm del fetch => deleteAsset_selected id confirm del fetch st,
    fun projectId reply => loadAssets_selected projectId reply st,
    fun del fetch h => bulkDelete_sends_selection del fetch st h, by decide, by decide⟩
  · intro value
    simp only [handleSearch, (renderAssets_frame _).2.1]
  · simp only [clearSearch, (renderAssets_frame _).2.1]
  · intro folder
    simp only [chipClick, (renderAssets_frame _).2.1, (renderFolders_frame _).1]
  · simp only [allClick, (renderAssets_frame _).2.1, (renderFolders_frame _).1]
  · intro folder
    simp only [chipDblClick, (renderAssets_frame _).2.1, (renderFolders_frame _).1]
  · simp only [backClick, (renderAssets_frame _).2.1, (renderFolders_frame _).1]

end Hosted

namespace Hosted

/-- C22, as the specification states it, fails: `a1` is selected and a reload then
drops it from the cache; the selection is not empty, and bulkDownload schedules no
download. -/
theorem bulkDownload_skips_uncached :
    (loadAssets (some "p1") ⟨some [], false⟩
      (toggleAssetSelection "a1" exState)).selectedAssets = ["a1"] ∧
    (bulkDownload (loadAssets (some "p1") ⟨some [], false⟩
      (toggleAssetSelection "a1" exState))).2 =
      [.toast 500 "0 asset(s) downloaded" "success"] := by
  decide

/-- C22, amended. With a non-empty selection bulkDownload schedules one download for
each cached asset whose id is selected, in cache order, the i-th at i * 300 ms, and
then the closing toast; the downloads are as many as those assets, and as many as
the selected ids when ids are not repeated and every selected id is cached. -/
theorem bulkDownload_timers (st : State) (h : st.selectedAssets ≠ []) :
    (bulkDownload st).2 =
      (selectedCached st).enum.map
          (fun e => Timer.download (e.1 * 300) { href := e.2.data, download := e.2.name }) ++
        [.toast ((selectedCached st).length * 300 + 500)
          (toString (selectedCached st).length ++ " asset(s) downloaded") "success"] ∧
    ((bulkDownload st).2.filter isDownloadTimer).length = (selectedCached st).length ∧
    ((st.assets.map (fun a => a.id)).Nodup → st.selectedAssets.Nodup →
      (∀ id ∈ st.selectedAssets, id ∈ st.assets.map (fun a => a.id)) →
      ((bulkDownload st).2.filter isDownloadTimer).length = st.selectedAssets.length) := by
  have hlen : ¬ st.selectedAssets.length = 0 := fun e => h (List.length_eq_zero.mp e)
  have htimers : (bulkDownload st).2 =
      (selectedCached st).enum.map
          (fun e => Timer.download (e.1 * 300) { href := e.2.data, download := e.2.name }) ++
        [.toast ((selectedCached st).length * 300 + 500)
          (toString (selectedCached st).length ++ " asset(s) downloaded") "success"] := by
    unfold bulkDownload
    simp only [hlen, if_false]
    rfl
  have hcount : ((bulkDownload st).2.filter isDownloadTimer).length =
      (selectedCached st).length := by
    rw [htimers, List.filter_append]
    have hall : ((selectedCached st).enum.map (fun e =>
        Timer.download (e.1 * 300) { href := e.2.data, download := e.2.name })).filter
          isDownloadTimer =
        (selectedCached st).enum.map (fun e =>
          Timer.download (e.1 * 300) { href := e.2.data, download := e.2.name }) := by
      rw [List.filter_eq_self]
      intro t ht
      obtain ⟨e, _, rfl⟩ := List.mem_map.mp ht
      rfl
    rw [hall]
    simp [isDownloadTimer, List.enum_length]
  refine ⟨htimers, hcount, ?_⟩
  intro hids hsel hcached
  rw [hcount]
  have hsub : ((selectedCached st).map (fun a => a.id)).Nodup :=
    hids.sublist ((List.filter_sublist _).map _)
  have hperm : ((selectedCached st).map (fun a => a.id)).Perm st.selectedAssets := by
    rw [List.perm_ext_iff_of_nodup hsub hsel]
    intro x
    simp only [selectedCached, List.mem_map, List.mem_filter, List.contains_iff_exists_mem_beq,
      beq_iff_eq]
    constructor
    · rintro ⟨a, ⟨_, y, hy, hya⟩, rfl⟩
      rw [hya]
      exact hy
    · intro hx
      obtain ⟨a, ha, hax⟩ := List.mem_map.mp (hcached x hx)
      exact ⟨a, ⟨ha, x, hx, hax⟩, hax⟩
  rw [← hperm.length_eq, List.length_map]

/-- Witness of C22 at the example state with both cached assets selected. -/
theorem bulkDownload_timers_witness :
    (bulkDownload { exState with selectedAssets := ["a1", "a2"] }).2 =
      [.download 0 ⟨"data:image/png;base64,AAAA", "root.png"⟩,
       .download 300 ⟨"data:image/png;base64,BBBB", "nested.png"⟩,
       .toast 1100 "2 asset(s) downloaded" "success"] :=
  (bulkDownload_timers { exState with selectedAssets := ["a1", "a2"] } (by decide)).1.trans
    (by decide)

end Hosted

namespace Local

theorem find_store (l : List Asset) (a : Asset) (h : a.id ∉ l.map (fun x => x.id)) :
    (store l a).find? (fun x => x.id == a.id) = some a := by
  induction l with
  | nil => simp [store_nil]
  | cons b rest ih =>
    simp only [List.map_cons, List.mem_cons, not_or] at h
    rw [store_cons]
    have hb : (b.id == a.id) = false := by
      simpa using fun e : b.id = a.id => h.1 e.symm
    by_cases hn : b.name = a.name
    · simp [hn]
    · simp only [hn, if_false, List.find?_cons, hb]
      exact ih h.2

theorem mem_store (l : List Asset) (a : Asset) : a ∈ store l a := by
  induction l with
  | nil => simp [store_nil]
  | cons b rest ih =>
    rw [store_cons]
    split <;> simp [ih]

theorem mem_store_cases (l : List Asset) (a b : Asset) (h : b ∈ store l a) :
    b ∈ l ∨ b = a := by
  induction l with
  | nil =>
    rw [store_nil] at h
    exact Or.inr (List.mem_singleton.mp h)
  | cons c rest ih =>
    rw [store_cons] at h
    split at h
    · rcases List.mem_cons.mp h with e | e
      · exact Or.inr e
      · exact Or.inl (List.mem_cons_of_mem _ e)
    · rcases List.mem_cons.mp h with e | e
      · exact Or.inl (e ▸ List.mem_cons_self _ _)
      · rcases ih e with e2 | e2
        · exact Or.inl (List.mem_cons_of_mem _ e2)
        · exact Or.inr e2

theorem processedAssets_data (fresh : Nat → String × String) (files : List File) :
    ∀ (k : Nat) (assets : List Asset) (a : Asset),
      a ∈ processedAssets fresh files k assets →
      a ∈ assets ∨ ∃ f ∈ files, f.read = some a.data ∧ a.name = f.name := by
  induction files with
  | nil =>
    intro k assets a h
    exact Or.inl h
  | cons f rest ih =>
    intro k assets a h
    unfold processedAssets at h
    rw [List.enumFrom_cons, List.foldl_cons] at h
    cases hr : f.read with
    | none =>
      simp only [hr] at h
      rcases ih (k + 1) assets a h with h1 | ⟨g, hg, h2⟩
      · exact Or.inl h1
      · exact Or.inr ⟨g, List.mem_cons_of_mem _ hg, h2⟩
    | some d =>
      simp only [hr] at h
      rcases ih (k + 1) _ a h with h1 | ⟨g, hg, h2⟩
      · rcases mem_store_cases _ _ _ h1 with h3 | h3
        · exact Or.inl h3
        · refine Or.inr ⟨f, List.mem_cons_self _ _, ?_, ?_⟩
          · rw [hr, h3]
          · rw [h3]
      · exact Or.inr ⟨g, List.mem_cons_of_mem _ hg, h2⟩

theorem processFiles_data (files : List File) (fresh : Nat → String × String)
    (o : SetItem) (st : State) (a : Asset) (h : a ∈ (processFiles files fresh o st).assets) :
    a ∈ st.assets ∨ ∃ f ∈ files, isValid f = true ∧ f.read = some a.data ∧ a.name = f.name := by
  by_cases hc : (files.filter isValid).length = 0 ∨ checkStorageAvailable st = false
  · rw [(processFiles_skip files fresh o st hc).1] at h
    exact Or.inl h
  · have hc2 : checkStorageAvailable st = true := by
      cases hx : checkStorageAvailable st
      · exact absurd (Or.inr hx) hc
      · rfl
    rw [processFiles_assets_eq files fresh o st (Or.inr hc2)] at h
    rcases processedAssets_data fresh _ 0 st.assets a h with h1 | ⟨f, hf, h2⟩
    · exact Or.inl h1
    · rw [List.mem_filter] at hf
      exact Or.inr ⟨f, hf.1, hf.2, h2⟩

theorem processFiles_single_storage (f : File) (d : String) (fresh : Nat → String × String)
    (st : State) (hv : isValid f = true) (hr : f.read = some d)
    (hc : checkStorageAvailable st = true) :
    (processFiles [f] fresh .ok st).storage = some (processFiles [f] fresh .ok st).assets := by
  have hfil : [f].filter isValid = [f] := by simp [hv]
  rw [processFiles_run_eq [f] fresh .ok st (by simp [hv]) hc, hfil]
  have hcount : 0 < readCount [f] := by simp [readCount, hr]
  simp only [hcount, if_true]
  simp [showToast, updateStorageInfo, renderAssets_storage, renderAssets_assets, saveAssets]

end Local

namespace Hosted

theorem insertRequests_mem (projectId : String) (folderId : Option String)
    (files : List File) (f : File) (d : String) (hf : f ∈ files) (hr : f.read = some d) :
    Request.insertAsset f.name f.type f.size d projectId folderId ∈
      insertRequests projectId folderId files := by
  unfold insertRequests
  rw [List.mem_filterMap]
  exact ⟨f, hf, by rw [hr]; rfl⟩

end Hosted

/-- C26. Both variants carry the data URL of a valid file unchanged from the upload
encoder to the download link. Local: the record stored for the file holds the string
the reader produced, every record of the collection after any batch is an earlier one
or holds the string read from a valid file of the batch, the link of downloadAsset has
the found record's data as href, and after a successful save every page that finds
the saved item in the storage, whatever it holds in memory, loads the saved collection
and downloads the same link. Hosted: the insert request carries the string the reader produced, and
the link of downloadAsset has the record's data as href. -/
theorem data_url_round_trip (f : File) (d : String) (hread : f.read = some d) :
    (∀ (fresh : Nat → String × String) (o : Local.SetItem) (st : Local.State),
      Local.isValid f = true → Local.checkStorageAvailable st = true →
      (fresh 0).1 ∉ st.assets.map (fun a => a.id) →
      (⟨(fresh 0).1, f.name, f.type, f.size, d, (fresh 0).2⟩ : Local.Asset) ∈
          (Local.processFiles [f] fresh o st).assets ∧
        (Local.downloadAsset (fresh 0).1 (Local.processFiles [f] fresh o st)).2 =
          some ⟨d, f.name⟩ ∧
        (o = .ok →
          (Local.processFiles [f] fresh o st).storage =
              some (Local.processFiles [f] fresh o st).assets ∧
            ∀ page : Local.State,
              page.storage = (Local.processFiles [f] fresh o st).storage →
              (Local.loadAssets page).assets = (Local.processFiles [f] fresh o st).assets ∧
              (Local.downloadAsset (fresh 0).1 (Local.loadAssets page)).2 =
                some ⟨d, f.name⟩)) ∧
    (∀ (files : List File) (fresh : Nat → String × String) (o : Local.SetItem)
        (st : Local.State) (a : Local.Asset),
      a ∈ (Local.processFiles files fresh o st).assets →
      a ∈ st.assets ∨
        ∃ g ∈ files, Local.isValid g = true ∧ g.read = some a.data ∧ a.name = g.name) ∧
    (∀ (id : String) (st : Local.State) (a : Local.Asset),
      st.assets.find? (fun x => x.id == id) = some a →
      (Local.downloadAsset id st).2 = some ⟨a.data, a.name⟩) ∧
    (∀ (insert : Nat → Response Unit) (fetch : Response (List Hosted.Asset))
        (st : Hosted.State),
      Hosted.isValid f = true → st.projectSelect ≠ "" → f ∈ st.pendingFiles →
      Hosted.Request.insertAsset f.name f.type f.size d st.projectSelect
          (Hosted.targetFolder st) ∈ (Hosted.uploadFiles insert fetch st).requests) ∧
    (∀ (asset : Hosted.Asset) (st : Hosted.State),
      (Hosted.downloadAsset asset st).2 = ⟨asset.data, asset.name⟩) := by
  have hdl : ∀ (id : String) (st : Local.State) (a : Local.Asset),
      st.assets.find? (fun x => x.id == id) = some a →
      (Local.downloadAsset id st).2 = some ⟨a.data, a.name⟩ := by
    intro id st a h
    unfold Local.downloadAsset
    rw [h]
  refine ⟨?_, ?_, hdl, ?_, fun _ _ => rfl⟩
  · intro fresh o st hv hc hid
    have hassets := Local.processFiles_single f d fresh o st hv hread hc
    have hfind : (Local.processFiles [f] fresh o st).assets.find?
        (fun x => x.id == (fresh 0).1) =
        some ⟨(fresh 0).1, f.name, f.type, f.size, d, (fresh 0).2⟩ := by
      rw [hassets]
      exact Local.find_store st.assets
        ⟨(fresh 0).1, f.name, f.type, f.size, d, (fresh 0).2⟩ hid
    refine ⟨?_, hdl _ _ _ hfind, ?_⟩
    · rw [hassets]
      exact Local.mem_store _ _
    · intro ho
      subst ho
      have hst := Local.processFiles_single_storage f d fresh st hv hread hc
      refine ⟨hst, ?_⟩
      intro page hpage
      have hload : (Local.loadAssets page).assets =
          (Local.processFiles [f] fresh .ok st).assets := by
        unfold Local.loadAssets
        rw [hpage, hst]
      refine ⟨hload, hdl _ _ ⟨(fresh 0).1, f.name, f.type, f.size, d, (fresh 0).2⟩ ?_⟩
      rw [hload]
      exact hfind
  · intro files fresh o st a h
    exact Local.processFiles_data files fresh o st a h
  · intro insert fetch st hv hsel hf
    have hne : st.pendingFiles ≠ [] := List.ne_nil_of_mem hf
    rw [(Hosted.uploadFiles_fields insert fetch st hsel hne).1]
    apply List.mem_append_left
    apply List.mem_append_right
    exact Hosted.insertRequests_mem _ _ _ f d (List.mem_filter.mpr ⟨hf, hv⟩) hread

/-- Witness of C26: "logo.png" is uploaded to the empty local collection and saved; a
page opened afterwards, with nothing in memory and the saved item in the storage,
loads it and downloads the file with the data URL the reader produced. -/
theorem data_url_round_trip_witness :
    Local.exLogo1.read = some "data:image/png;base64,AAAA" ∧
    ({ Local.exEmpty with
        storage := (Local.processFiles [Local.exLogo1] Local.exFresh .ok
          Local.exEmpty).storage } : Local.State).assets = [] ∧
    (Local.downloadAsset (Local.exFresh 0).1
      (Local.loadAssets
        { Local.exEmpty with
          storage := (Local.processFiles [Local.exLogo1] Local.exFresh .ok
            Local.exEmpty).storage })).2 =
      some ⟨"data:image/png;base64,AAAA", "logo.png"⟩ :=
  ⟨rfl, rfl, ((((data_url_round_trip Local.exLogo1 _ rfl).1 Local.exFresh .ok Local.exEmpty
    (by decide) (by decide) (by decide)).2.2 rfl).2
      { Local.exEmpty with
        storage := (Local.processFiles [Local.exLogo1] Local.exFresh .ok
          Local.exEmpty).storage } rfl).2⟩

namespace Figma

theorem exportLoop_eq (base64Encode : List Nat → String) (options : Options)
    (selection : List Node) :
    ∀ (frames : List Frame) (notified : List String),
      exportLoop base64Encode options.format options.scale selection frames notified =
        (frames ++ selection.filterMap (fun node =>
            (exported options node).map (frameOf base64Encode options node)),
          notified ++ (selection.filter (failed options)).map
            (fun node => "Error exporting " ++ node.name)) := by
  induction selection with
  | nil =>
    intro frames notified
    simp [exportLoop]
  | cons node rest ih =>
    intro frames notified
    unfold exportLoop
    cases he : node.exportAsync with
    | none =>
      simp only [ih]
      simp [exported, failed, he]
    | some run =>
      simp only []
      cases hb : run (if options.format = "SVG" then ExportSettings.svg true false true
          else ExportSettings.png options.scale) with
      | none =>
        simp only [ih]
        simp [exported, failed, he, hb]
      | some bytes =>
        simp only [ih]
        simp [exported, failed, he, hb, frameOf]

end Figma

namespace Figma

theorem framesOf_append (base64Encode : List Nat → String) (options : Options)
    (l1 l2 : List Node) :
    framesOf base64Encode options (l1 ++ l2) =
      framesOf base64Encode options l1 ++ framesOf base64Encode options l2 := by
  simp [framesOf, List.filterMap_append]

theorem framesOf_ids (base64Encode : List Nat → String) (options : Options)
    (selection : List Node) :
    (framesOf base64Encode options selection).map (fun frame => frame.id) =
      (selection.filter (fun node => (exported options node).isSome)).map
        (fun node => node.id) := by
  induction selection with
  | nil => rfl
  | cons node rest ih =>
    unfold framesOf at ih ⊢
    cases he : exported options node with
    | none => simp [List.filterMap_cons, he, ih]
    | some bytes => simp [List.filterMap_cons, he, ih, frameOf]

/-- C27. For a non-empty selection handleExportFrames posts exactly one message, an
export-complete message whose frames are the entries of the nodes that support export
and whose export succeeded, in selection order; a node whose export fails gets one
notification and the frames are those of the selection without it; each entry has
the suffix ".svg" and the type image/svg+xml when the format is "SVG", and otherwise
the suffix ".png" and the type image/png. -/
theorem handleExportFrames_reports_each_node (base64Encode : List Nat → String)
    (options : Options) (selection : List Node) (h : selection ≠ []) :
    (handleExportFrames base64Encode options selection).posted =
      [.exportComplete (framesOf base64Encode options selection)] ∧
    (handleExportFrames base64Encode options selection).notified =
      (selection.filter (failed options)).map (fun node => "Error exporting " ++ node.name) ∧
    (framesOf base64Encode options selection).map (fun frame => frame.id) =
      (selection.filter (fun node => (exported options node).isSome)).map
        (fun node => node.id) ∧
    (∀ (before after : List Node) (node : Node),
      selection = before ++ node :: after → exported options node = none →
      framesOf base64Encode options selection =
        framesOf base64Encode options before ++ framesOf base64Encode options after) ∧
    (∀ frame ∈ framesOf base64Encode options selection,
      (options.format = "SVG" →
        frame.type = "image/svg+xml" ∧ ∃ node ∈ selection, frame.name = node.name ++ ".svg") ∧
      (options.format ≠ "SVG" →
        frame.type = "image/png" ∧ ∃ node ∈ selection, frame.name = node.name ++ ".png")) := by
  have hlen : ¬ selection.length = 0 := fun e => h (List.length_eq_zero.mp e)
  refine ⟨?_, ?_, framesOf_ids base64Encode options selection, ?_, ?_⟩
  · unfold handleExportFrames
    simp only [hlen, if_false, exportLoop_eq, List.nil_append]
    rfl
  · unfold handleExportFrames
    simp only [hlen, if_false, exportLoop_eq, List.nil_append]
  · intro before after node hsel hfail
    rw [hsel, framesOf_append]
    congr 1
    simp [framesOf, List.filterMap_cons, hfail]
  · intro frame hframe
    unfold framesOf at hframe
    rw [List.mem_filterMap] at hframe
    obtain ⟨node, hnode, hmap⟩ := hframe
    cases he : exported options node with
    | none => simp [he] at hmap
    | some bytes =>
      simp only [he, Option.map_some', Option.some.injEq] at hmap
      subst hmap
      constructor
      · intro hf
        exact ⟨by simp [frameOf, hf], node, hnode, by simp [frameOf, hf]⟩
      · intro hf
        exact ⟨by simp [frameOf, hf], node, hnode, by simp [frameOf, hf]⟩

/-- Witness of C27: of four selected nodes one cannot be exported and one fails; the
message holds the two others, in order, and the failure is notified. -/
theorem handleExportFrames_reports_each_node_witness :
    (handleExportFrames exBase64Encode ⟨"PNG", 2⟩
        [exCover, exGuide, exBroken, exIcon]).posted =
      [.exportComplete
        [⟨"1:2", "Cover.png", "image/png", 3, "data:image/png;base64,TWFu", 200, 100⟩,
         ⟨"1:5", "Icon.png", "image/png", 1, "data:image/png;base64,/w==", 48, 48⟩]] ∧
    (handleExportFrames exBase64Encode ⟨"PNG", 2⟩
        [exCover, exGuide, exBroken, exIcon]).notified = ["Error exporting Broken"] :=
  ⟨(handleExportFrames_reports_each_node exBase64Encode ⟨"PNG", 2⟩
      [exCover, exGuide, exBroken, exIcon] (List.cons_ne_nil _ _)).1.trans
    (by
      have h1 : mathRound (100 * 2) = 200 := by norm_num [mathRound, Int.floor_eq_iff]
      have h2 : mathRound (50 * 2) = 100 := by norm_num [mathRound, Int.floor_eq_iff]
      have h3 : mathRound (24 * 2) = 48 := by norm_num [mathRound, Int.floor_eq_iff]
      simp [framesOf, exported, frameOf, exCover, exGuide, exBroken, exIcon, h1, h2, h3]
      decide),
    by decide⟩

end Figma

namespace Server

theorem exParse_examples :
    exParse exBody = some (.obj [("imageData", .str "data:image/png;base64,AAAA")]) ∧
    exParse "[]" = some (.arr []) ∧
    exParse "null" = some .null ∧
    exParse "\"```\"" = some (.str "```") ∧
    exParse "\"" = none ∧
    exParse "```json\n\"```\"\n```" = none ∧
    exParse " \x7b\"a\": [1, -20, true], \"b\": \x7b\x7d\x7d\n" =
      some (.obj [("a", .arr [.num 1 0, .num (-20) 0, .bool true]), ("b", .obj [])]) :=
  ⟨rfl, rfl, rfl, rfl, rfl, rfl, rfl⟩

end Server

namespace Server

theorem handle_unconfigured (parse : String → Option Json) (message : Thrown → String)
    (body : String) (outcome : ModelOutcome) :
    handleImageAnalysis false parse message body outcome =
      { status := 500,
        body := .obj [("error",
          .str "OpenAI API key not configured. Please add OPENAI_API_KEY to .env file")] } :=
  rfl

theorem handle_body_none (parse : String → Option Json) (message : Thrown → String)
    (body : String) (outcome : ModelOutcome) (h : parse body = none) :
    handleImageAnalysis true parse message body outcome =
      failedReply message .bodyNotJson := by
  unfold handleImageAnalysis
  simp [h]

theorem handle_body_null (parse : String → Option Json) (message : Thrown → String)
    (body : String) (outcome : ModelOutcome) (h : parse body = some .null) :
    handleImageAnalysis true parse message body outcome =
      failedReply message .bodyNull := by
  unfold handleImageAnalysis
  simp [h]

theorem handle_falsy (parse : String → Option Json) (message : Thrown → String)
    (body : String) (outcome : ModelOutcome) (parsed : Json)
    (h : parse body = some parsed) (hn : parsed ≠ .null)
    (ht : truthy (parsed.member "imageData") = false) :
    handleImageAnalysis true parse message body outcome =
      { status := 400, body := .obj [("error", .str "No image data provided")] } := by
  unfold handleImageAnalysis
  cases parsed <;> first | exact absurd rfl hn | simp [h, ht]

theorem handle_model_failure (parse : String → Option Json) (message : Thrown → String)
    (body : String) (parsed : Json)
    (h : parse body = some parsed) (hn : parsed ≠ .null)
    (ht : truthy (parsed.member "imageData") = true) :
    handleImageAnalysis true parse message body .failure =
      failedReply message .modelCall := by
  unfold handleImageAnalysis
  cases parsed <;> first | exact absurd rfl hn | simp [h, ht]

theorem handle_reply_none (parse : String → Option Json) (message : Thrown → String)
    (body : String) (parsed : Json) (content : Option String)
    (h : parse body = some parsed) (hn : parsed ≠ .null)
    (ht : truthy (parsed.member "imageData") = true)
    (he : extract parse content = none) :
    handleImageAnalysis true parse message body (.reply content) =
      failedReply message .replyNotJson := by
  unfold handleImageAnalysis
  cases parsed <;> first | exact absurd rfl hn | simp [h, ht, he]

theorem handle_reply_null (parse : String → Option Json) (message : Thrown → String)
    (body : String) (parsed : Json) (content : Option String)
    (h : parse body = some parsed) (hn : parsed ≠ .null)
    (ht : truthy (parsed.member "imageData") = true)
    (he : extract parse content = some .null) :
    handleImageAnalysis true parse message body (.reply content) =
      failedReply message .analysisNull := by
  unfold handleImageAnalysis
  cases parsed <;> first | exact absurd rfl hn | simp [h, ht, he]

theorem handle_reply_value (parse : String → Option Json) (message : Thrown → String)
    (body : String) (parsed : Json) (content : Option String) (analysis : Json)
    (h : parse body = some parsed) (hn : parsed ≠ .null)
    (ht : truthy (parsed.member "imageData") = true)
    (he : extract parse content = some analysis) (ha : analysis ≠ .null) :
    handleImageAnalysis true parse message body (.reply content) =
      { status := 200, body := analysis } := by
  unfold handleImageAnalysis
  cases parsed <;> first
    | exact absurd rfl hn
    | (cases analysis <;> first | exact absurd rfl ha | simp [h, ht, he])

theorem failedReply_status (message : Thrown → String) (error : Thrown) :
    (failedReply message error).status = 500 ∧
    hasField (failedReply message error).body "error" = true := by
  constructor
  · rfl
  · simp [failedReply, hasField, Json.member]

end Server

namespace Server

/-- C24, as the specification states it, fails: a reply that is the JSON text "[]" is
answered with status 200 and a value without the field category, and the body "null",
which is valid JSON without imageData, is answered with status 500. -/
theorem handleImageAnalysis_forwards_any_value :
    exParse exBody = some (.obj [("imageData", .str "data:image/png;base64,AAAA")]) ∧
    (handleImageAnalysis true exParse exMessage exBody (.reply (some "[]"))).status = 200 ∧
    hasField (handleImageAnalysis true exParse exMessage exBody (.reply (some "[]"))).body
      "category" = false ∧
    exParse "null" = some .null ∧
    (handleImageAnalysis true exParse exMessage "null" (.reply (some "[]"))).status = 500 :=
  ⟨rfl, rfl, rfl, rfl, rfl⟩

/-- C24, amended. The handler always answers, in one of three ways. With status 200
and the value the reply of the model was read as, which is any JSON value other than
null (no field is checked). With status 400 and an error object, exactly when a key
is configured and the body parses to a value other than null whose imageData is
missing or falsy. With status 500 and an error object, exactly when no key is
configured, or the body is not valid JSON or is null, or the model call fails, or its
reply cannot be parsed or parses to null. -/
theorem handleImageAnalysis_answers (openai : Bool) (parse : String → Option Json)
    (message : Thrown → String) (body : String) (outcome : ModelOutcome) :
    (((handleImageAnalysis openai parse message body outcome).status = 200 ∧
        (handleImageAnalysis openai parse message body outcome).body ≠ .null ∧
        ∃ content, outcome = .reply content ∧
          extract parse content =
            some (handleImageAnalysis openai parse message body outcome).body) ∨
      (((handleImageAnalysis openai parse message body outcome).status = 400 ∨
          (handleImageAnalysis openai parse message body outcome).status = 500) ∧
        hasField (handleImageAnalysis openai parse message body outcome).body "error" =
          true)) ∧
    ((handleImageAnalysis openai parse message body outcome).status = 400 ↔
      openai = true ∧ ∃ parsed, parse body = some parsed ∧ parsed ≠ .null ∧
        truthy (parsed.member "imageData") = false) ∧
    ((handleImageAnalysis openai parse message body outcome).status = 500 ↔
      openai = false ∨ parse body = none ∨ parse body = some .null ∨
        ∃ parsed, parse body = some parsed ∧ truthy (parsed.member "imageData") = true ∧
          (outcome = .failure ∨ ∃ content, outcome = .reply content ∧
            (extract parse content = none ∨ extract parse content = some .null))) := by
  cases openai with
  | false =>
    rw [handle_unconfigured]
    simp [hasField, Json.member]
  | true =>
    cases hpb : parse body with
    | none =>
      rw [handle_body_none parse message body outcome hpb]
      simp [failedReply_status]
    | some parsed =>
      by_cases hn : parsed = .null
      · subst hn
        rw [handle_body_null parse message body outcome hpb]
        simp [failedReply_status]
      · cases ht : truthy (parsed.member "imageData") with
        | false =>
          rw [handle_falsy parse message body outcome parsed hpb hn ht]
          have hf : hasField (Json.obj [("error", Json.str "No image data provided")])
              "error" = true := rfl
          simp [hf, hn, ht]
        | true =>
          cases outcome with
          | failure =>
            rw [handle_model_failure parse message body parsed hpb hn ht]
            simp [failedReply_status, hn, ht]
          | reply content =>
            cases he : extract parse content with
            | none =>
              rw [handle_reply_none parse message body parsed content hpb hn ht he]
              simp [failedReply_status, hn, ht, he]
            | some analysis =>
              by_cases ha : analysis = .null
              · subst ha
                rw [handle_reply_null parse message body parsed content hpb hn ht he]
                simp [failedReply_status, hn, ht, he]
              · rw [handle_reply_value parse message body parsed content analysis hpb hn ht
                  he ha]
                simp [hn, ht, he, ha]

end Server

namespace Server

theorem fence_eq : fence = [backtick, backtick, backtick] := by decide

theorem fenceJson_eq : fenceJson = [backtick, backtick, backtick, 'j', 's', 'o', 'n'] := by
  decide

theorem isPrefixOf_append_right (p t u : List Char) (h : p.isPrefixOf t = true) :
    p.isPrefixOf (t ++ u) = true := by
  rw [List.isPrefixOf_iff_prefix] at h ⊢
  exact h.trans (List.prefix_append t u)

theorem isPrefixOf_self_append (p t : List Char) : p.isPrefixOf (p ++ t) = true := by
  rw [List.isPrefixOf_iff_prefix]
  exact List.prefix_append p t

theorem fence_of_fenceJson (t : List Char) (h : fenceJson.isPrefixOf t = true) :
    fence.isPrefixOf t = true := by
  rw [List.isPrefixOf_iff_prefix] at h ⊢
  have hp : fence <+: fenceJson := by
    rw [← List.isPrefixOf_iff_prefix]
    decide
  exact hp.trans h

theorem fenceFree_cons_iff (c : Char) (rest : List Char) :
    fenceFree (c :: rest) = true ↔
      fence.isPrefixOf (c :: rest ++ fence) = false ∧ fenceFree rest = true := by
  simp [fenceFree]

theorem fenceFree_no_fence (l : List Char) (h : fenceFree l = true) :
    ∀ t ∈ l.tails, fence.isPrefixOf t = false := by
  induction l with
  | nil =>
    intro t ht
    simp at ht
    subst ht
    decide
  | cons c rest ih =>
    rw [fenceFree_cons_iff] at h
    intro t ht
    rw [List.tails_cons, List.mem_cons] at ht
    rcases ht with rfl | ht
    · cases hp : fence.isPrefixOf (c :: rest) with
      | false => rfl
      | true =>
        have := isPrefixOf_append_right fence (c :: rest) fence hp
        rw [h.1] at this
        exact absurd this (by decide)
    · exact ih h.2 t ht

theorem fenceFree_no_json (l : List Char) (h : fenceFree l = true) :
    ∀ t ∈ (l ++ fence).tails, fenceJson.isPrefixOf t = false := by
  induction l with
  | nil =>
    intro t ht
    revert t
    decide
  | cons c rest ih =>
    rw [fenceFree_cons_iff] at h
    intro t ht
    rw [List.cons_append, List.tails_cons, List.mem_cons] at ht
    rcases ht with rfl | ht
    · cases hp : fenceJson.isPrefixOf (c :: (rest ++ fence)) with
      | false => rfl
      | true =>
        have := fence_of_fenceJson _ hp
        rw [← List.cons_append, h.1] at this
        exact absurd this (by decide)
    · exact ih h.2 t ht

end Server

namespace Server

theorem space_ne_backtick (c : Char) (h : isJsonSpace c = true) : c ≠ backtick := by
  intro e
  subst e
  exact absurd h (by decide)

theorem space_ne_j (c : Char) (h : isJsonSpace c = true) : c ≠ 'j' := by
  intro e
  subst e
  exact absurd h (by decide)

theorem three_cons (b c : Char) (t : List Char) (h : b ≠ c) :
    [b, b, b].isPrefixOf (c :: t) = false := by
  simp [List.isPrefixOf, h]

theorem three_snoc (b c a : Char) (rest u : List Char) (h : b ≠ c)
    (h1 : [b, b, b].isPrefixOf (a :: rest ++ u) = false) :
    [b, b, b].isPrefixOf (a :: (rest ++ [c]) ++ u) = false := by
  match rest with
  | [] => simp [List.isPrefixOf, h]
  | [d] => simp [List.isPrefixOf, h]
  | d :: e :: r =>
    simp only [List.cons_append, List.isPrefixOf] at h1 ⊢
    exact h1

theorem fenceFree_cons_char (c : Char) (l : List Char) (hc : c ≠ backtick)
    (h : fenceFree l = true) : fenceFree (c :: l) = true := by
  rw [fenceFree_cons_iff]
  refine ⟨?_, h⟩
  rw [fence_eq, List.cons_append]
  exact three_cons backtick c _ (fun e => hc e.symm)

theorem fenceFree_snoc (l : List Char) (c : Char) (hc : c ≠ backtick)
    (h : fenceFree l = true) : fenceFree (l ++ [c]) = true := by
  induction l with
  | nil => exact fenceFree_cons_char c [] hc rfl
  | cons a rest ih =>
    rw [fenceFree_cons_iff] at h
    rw [List.cons_append, fenceFree_cons_iff]
    refine ⟨?_, ih h.2⟩
    have h1 := h.1
    rw [fence_eq] at h1 ⊢
    exact three_snoc backtick c a rest _ (fun e => hc e.symm) h1

theorem fenceFree_wrap (pre J post : List Char) (h : fenceFree J = true)
    (hpre : ∀ c ∈ pre, isJsonSpace c = true) (hpost : ∀ c ∈ post, isJsonSpace c = true) :
    fenceFree (pre ++ J ++ post) = true := by
  have h1 : fenceFree (pre ++ J) = true := by
    induction pre with
    | nil => exact h
    | cons c rest ih =>
      rw [List.cons_append]
      exact fenceFree_cons_char c _ (space_ne_backtick c (hpre c (List.mem_cons_self _ _)))
        (ih (fun x hx => hpre x (List.mem_cons_of_mem _ hx)))
  induction post using List.reverseRecOn with
  | nil => simpa using h1
  | append_singleton l a ih =>
    rw [← List.append_assoc]
    exact fenceFree_snoc _ a (space_ne_backtick a (hpost a (by simp)))
      (ih (fun x hx => hpost x (by simp [hx])))

theorem lazyCapture_fenceFree (Y : List Char) (h : fenceFree Y = true) :
    ∃ m, lazyCapture (Y ++ fence) = some m ∧ (m = Y ∨ m ++ ['\n'] = Y) := by
  induction Y with
  | nil => exact ⟨[], by decide, Or.inl rfl⟩
  | cons c Y1 ih =>
    rw [fenceFree_cons_iff] at h
    obtain ⟨m1, hm1, hrel⟩ := ih h.2
    rw [List.cons_append] at h ⊢
    unfold lazyCapture
    by_cases hnl : ('\n' :: fence).isPrefixOf (c :: (Y1 ++ fence)) = true
    · have hcl : closes (c :: (Y1 ++ fence)) = true := by simp [closes, hnl]
      simp only [List.isPrefixOf, Bool.and_eq_true, beq_iff_eq] at hnl
      have hY1 : Y1 = [] := by
        cases Y1 with
        | nil => rfl
        | cons d Y2 =>
          have h2 := (fenceFree_cons_iff d Y2).mp h.2
          rw [h2.1] at hnl
          exact absurd hnl.2 (by decide)
      subst hY1
      refine ⟨[], by rw [if_pos hcl], Or.inr ?_⟩
      rw [← hnl.1]
      rfl
    · have hcl : closes (c :: (Y1 ++ fence)) = false := by
        simp only [closes, h.1, Bool.false_or]
        exact (Bool.not_eq_true _).mp hnl
      refine ⟨c :: m1, by simp [hcl, hm1], ?_⟩
      rcases hrel with e | e
      · exact Or.inl (by rw [e])
      · exact Or.inr (by rw [List.cons_append, e])

theorem matchAt_fenced (opener X : List Char) (h : fenceFree X = true) :
    ∃ m, matchAt opener (opener ++ (X ++ fence)) = some m ∧
      (m = X ∨ m ++ ['\n'] = X ∨ '\n' :: m = X ∨ '\n' :: (m ++ ['\n']) = X) := by
  unfold matchAt
  rw [isPrefixOf_self_append, List.drop_left]
  simp only [if_true]
  cases X with
  | nil => exact ⟨[], by decide, Or.inl rfl⟩
  | cons c X1 =>
    rw [List.cons_append]
    simp only []
    by_cases hc : c = '\n'
    · obtain ⟨m, hm, hrel⟩ := lazyCapture_fenceFree X1 ((fenceFree_cons_iff c X1).mp h).2
      refine ⟨m, by simp [hc, hm], ?_⟩
      subst hc
      rcases hrel with e | e
      · exact Or.inr (Or.inr (Or.inl (by rw [e])))
      · exact Or.inr (Or.inr (Or.inr (by rw [e])))
    · obtain ⟨m, hm, hrel⟩ := lazyCapture_fenceFree (c :: X1) h
      rw [List.cons_append] at hm
      refine ⟨m, by simp [hc, hm], ?_⟩
      rcases hrel with e | e
      · exact Or.inl e
      · exact Or.inr (Or.inl e)

theorem matchFirst_of_matchAt (opener l m : List Char) (h : matchAt opener l = some m) :
    matchFirst opener l = some m := by
  cases l with
  | nil => simp [matchAt] at h
  | cons c rest => simp [matchFirst, h]

theorem matchFirst_none (opener l : List Char)
    (h : ∀ t ∈ l.tails, opener.isPrefixOf t = false) : matchFirst opener l = none := by
  induction l with
  | nil => rfl
  | cons c rest ih =>
    have h0 := h (c :: rest) (by simp)
    have hrest := ih (fun t ht => h t (by simp [ht]))
    simp [matchFirst, matchAt, h0, hrest]

end Server

namespace Server

theorem jsonMatch_bare (J : List Char) (h : fenceFree J = true) : jsonMatch J = J := by
  have h1 : matchFirst fence J = none := matchFirst_none fence J (fenceFree_no_fence J h)
  have h2 : matchFirst fenceJson J = none := by
    apply matchFirst_none
    intro t ht
    cases hp : fenceJson.isPrefixOf t with
    | false => rfl
    | true =>
      have := fence_of_fenceJson t hp
      rw [fenceFree_no_fence J h t ht] at this
      exact absurd this (by decide)
  simp [jsonMatch, h1, h2]

theorem jsonMatch_fencedJson (X : List Char) (h : fenceFree X = true) :
    jsonMatch (fenceJson ++ (X ++ fence)) = X ∨
    jsonMatch (fenceJson ++ (X ++ fence)) ++ ['\n'] = X ∨
    '\n' :: jsonMatch (fenceJson ++ (X ++ fence)) = X ∨
    '\n' :: (jsonMatch (fenceJson ++ (X ++ fence)) ++ ['\n']) = X := by
  obtain ⟨m, hm, hrel⟩ := matchAt_fenced fenceJson X h
  have h1 := matchFirst_of_matchAt _ _ _ hm
  have h2 : jsonMatch (fenceJson ++ (X ++ fence)) = m := by simp [jsonMatch, h1]
  rw [h2]
  exact hrel

theorem seven_after_three (b c : Char) (t : List Char) (hb : b ≠ c) (hj : c ≠ 'j') :
    [b, b, b, 'j', 's', 'o', 'n'].isPrefixOf (b :: b :: b :: c :: t) = false ∧
    [b, b, b, 'j', 's', 'o', 'n'].isPrefixOf (b :: b :: c :: t) = false ∧
    [b, b, b, 'j', 's', 'o', 'n'].isPrefixOf (b :: c :: t) = false := by
  have hj2 : ¬ 'j' = c := fun e => hj e.symm
  simp [List.isPrefixOf, hb, hj2]

theorem no_json_tag (X : List Char) (h : fenceFree X = true)
    (hhead : X.head? ≠ some backtick ∧ X.head? ≠ some 'j') :
    matchFirst fenceJson (fence ++ (X ++ fence)) = none := by
  apply matchFirst_none
  intro t ht
  have hrest := fenceFree_no_json X h
  cases X with
  | nil =>
    revert t
    decide
  | cons c X1 =>
    have hb : backtick ≠ c := fun e => hhead.1 (by rw [e]; rfl)
    have hj : c ≠ 'j' := fun e => hhead.2 (by rw [e]; rfl)
    obtain ⟨g1, g2, g3⟩ := seven_after_three backtick c (X1 ++ fence) hb hj
    rw [fence_eq] at ht
    rw [fenceJson_eq]
    simp only [List.cons_append, List.nil_append, List.tails_cons, List.mem_cons] at ht
    rcases ht with rfl | rfl | rfl | ht
    · exact g1
    · exact g2
    · exact g3
    · rw [← fenceJson_eq]
      apply hrest
      rw [List.cons_append, List.tails_cons, List.mem_cons, fence_eq]
      exact ht

theorem jsonMatch_fenced (X : List Char) (h : fenceFree X = true)
    (hhead : X.head? ≠ some backtick ∧ X.head? ≠ some 'j') :
    jsonMatch (fence ++ (X ++ fence)) = X ∨
    jsonMatch (fence ++ (X ++ fence)) ++ ['\n'] = X ∨
    '\n' :: jsonMatch (fence ++ (X ++ fence)) = X ∨
    '\n' :: (jsonMatch (fence ++ (X ++ fence)) ++ ['\n']) = X := by
  obtain ⟨m, hm, hrel⟩ := matchAt_fenced fence X h
  have h1 := matchFirst_of_matchAt _ _ _ hm
  have h0 := no_json_tag X h hhead
  have h2 : jsonMatch (fence ++ (X ++ fence)) = m := by simp [jsonMatch, h0, h1]
  rw [h2]
  exact hrel

theorem wrap_head (pre J post : List Char)
    (hfirst : J.head? ≠ some backtick ∧ J.head? ≠ some 'j')
    (hpre : ∀ c ∈ pre, isJsonSpace c = true) (hpost : ∀ c ∈ post, isJsonSpace c = true) :
    (pre ++ J ++ post).head? ≠ some backtick ∧ (pre ++ J ++ post).head? ≠ some 'j' := by
  cases pre with
  | cons c rest =>
    have hc := hpre c (List.mem_cons_self _ _)
    simp only [List.cons_append, List.head?_cons, ne_eq, Option.some.injEq]
    exact ⟨space_ne_backtick c hc, space_ne_j c hc⟩
  | nil =>
    cases J with
    | cons d restJ => simpa using hfirst
    | nil =>
      cases post with
      | nil => simp
      | cons c rest =>
        have hc := hpost c (List.mem_cons_self _ _)
        simp only [List.nil_append, List.head?_cons, ne_eq, Option.some.injEq]
        exact ⟨space_ne_backtick c hc, space_ne_j c hc⟩

theorem parse_capture (parse : String → Option Json)
    (hws : ∀ (c : Char) (l : List Char), isJsonSpace c = true →
      parse ⟨c :: l⟩ = parse ⟨l⟩ ∧ parse ⟨l ++ [c]⟩ = parse ⟨l⟩)
    (m X : List Char)
    (h : m = X ∨ m ++ ['\n'] = X ∨ '\n' :: m = X ∨ '\n' :: (m ++ ['\n']) = X) :
    parse ⟨m⟩ = parse ⟨X⟩ := by
  have hnl : isJsonSpace '\n' = true := by decide
  rcases h with e | e | e | e
  · rw [e]
  · rw [← e, (hws '\n' m hnl).2]
  · rw [← e, (hws '\n' m hnl).1]
  · rw [← e, (hws '\n' (m ++ ['\n']) hnl).1, (hws '\n' m hnl).2]

theorem parse_wrap (parse : String → Option Json)
    (hws : ∀ (c : Char) (l : List Char), isJsonSpace c = true →
      parse ⟨c :: l⟩ = parse ⟨l⟩ ∧ parse ⟨l ++ [c]⟩ = parse ⟨l⟩)
    (pre J post : List Char)
    (hpre : ∀ c ∈ pre, isJsonSpace c = true) (hpost : ∀ c ∈ post, isJsonSpace c = true) :
    parse ⟨pre ++ J ++ post⟩ = parse ⟨J⟩ := by
  have h1 : parse ⟨pre ++ J⟩ = parse ⟨J⟩ := by
    induction pre with
    | nil => rfl
    | cons c rest ih =>
      rw [List.cons_append, (hws c _ (hpre c (List.mem_cons_self _ _))).1]
      exact ih (fun x hx => hpre x (List.mem_cons_of_mem _ hx))
  induction post using List.reverseRecOn with
  | nil => simpa using h1
  | append_singleton l a ih =>
    rw [← List.append_assoc, (hws a _ (hpost a (by simp))).2]
    exact ih (fun x hx => hpost x (by simp [hx]))

end Server

namespace Server

theorem strip_cons (c : Char) (l : List Char) (h : isJsonSpace c = true) :
    strip (c :: l) = strip l := by
  unfold strip
  rw [List.dropWhile_cons, if_pos h]

theorem strip_snoc (l : List Char) (c : Char) (h : isJsonSpace c = true) :
    strip (l ++ [c]) = strip l := by
  unfold strip
  congr 1
  induction l with
  | nil => simp [List.dropWhile, h]
  | cons a rest ih =>
    by_cases ha : isJsonSpace a = true
    · rw [List.cons_append, List.dropWhile_cons, if_pos ha, List.dropWhile_cons, if_pos ha]
      exact ih
    · rw [List.cons_append, List.dropWhile_cons, if_neg ha, List.dropWhile_cons, if_neg ha,
        ← List.cons_append, List.reverse_append, List.reverse_singleton, List.singleton_append,
        List.dropWhile_cons, if_pos h]

theorem exParse_space (c : Char) (l : List Char) (h : isJsonSpace c = true) :
    exParse ⟨c :: l⟩ = exParse ⟨l⟩ ∧ exParse ⟨l ++ [c]⟩ = exParse ⟨l⟩ := by
  unfold exParse
  simp [strip_cons c l h, strip_snoc l c h]

/-- C23, as the specification states it, fails: the JSON text of the string made of
three backticks, wrapped in a json fence, is answered with status 500, because the
group of the pattern ends at the first run of three backticks; and a reply that is
the JSON text "null" is answered with status 500 as well. -/
theorem fenced_backticks_not_extracted :
    exParse "\"```\"" = some (.str "```") ∧
    jsonMatch "```json\n\"```\"\n```".data = "\"".data ∧
    (handleImageAnalysis true exParse exMessage exBody
      (.reply (some "```json\n\"```\"\n```"))).status = 500 ∧
    (handleImageAnalysis true exParse exMessage exBody (.reply (some "null"))).status = 500 :=
  ⟨rfl, by decide, rfl, rfl⟩

/-- C23, amended. Let J be a JSON text that parses to a value other than null and in
which no run of three backticks begins, also when a closing fence follows it (as a
JSON text it does not begin with a backtick or the letter j). When the reply of the
model is J, or J between a json fence or a plain fence and a closing fence, with any
white space between the fences and J, the value extracted is the value of J and the
relay answers 200 with it. The reader ignores white space around a text, as
JSON.parse does. -/
theorem fenced_reply_is_extracted (parse : String → Option Json)
    (message : Thrown → String) (J : String) (v : Json) (pre post : List Char)
    (hparse : parse J = some v) (hv : v ≠ .null)
    (hws : ∀ (c : Char) (l : List Char), isJsonSpace c = true →
      parse ⟨c :: l⟩ = parse ⟨l⟩ ∧ parse ⟨l ++ [c]⟩ = parse ⟨l⟩)
    (hfree : fenceFree J.data = true)
    (hfirst : J.data.head? ≠ some backtick ∧ J.data.head? ≠ some 'j')
    (hpre : ∀ c ∈ pre, isJsonSpace c = true) (hpost : ∀ c ∈ post, isJsonSpace c = true) :
    ∀ content ∈ [J, ⟨fenceJson ++ (pre ++ J.data ++ post ++ fence)⟩,
        ⟨fence ++ (pre ++ J.data ++ post ++ fence)⟩],
      extract parse (some content) = some v ∧
      ∀ (body : String) (parsed : Json), parse body = some parsed → parsed ≠ .null →
        truthy (parsed.member "imageData") = true →
        handleImageAnalysis true parse message body (.reply (some content)) =
          { status := 200, body := v } := by
  have hX := fenceFree_wrap pre J.data post hfree hpre hpost
  have hhead := wrap_head pre J.data post hfirst hpre hpost
  have hJ : parse ⟨J.data⟩ = some v := hparse
  have hwrap : parse ⟨pre ++ J.data ++ post⟩ = some v := by
    rw [parse_wrap parse hws pre J.data post hpre hpost]
    exact hJ
  have hextract : ∀ content ∈ [J, ⟨fenceJson ++ (pre ++ J.data ++ post ++ fence)⟩,
      ⟨fence ++ (pre ++ J.data ++ post ++ fence)⟩],
      extract parse (some content) = some v := by
    intro content hc
    simp only [List.mem_cons, List.mem_singleton, List.not_mem_nil, or_false] at hc
    rcases hc with rfl | rfl | rfl
    · unfold extract
      simp only [jsonMatch_bare content.data hfree]
      rw [hJ]
    · unfold extract
      simp only []
      rw [parse_capture parse hws _ _ (jsonMatch_fencedJson _ hX), hwrap]
    · unfold extract
      simp only []
      rw [parse_capture parse hws _ _ (jsonMatch_fenced _ hX hhead), hwrap]
  intro content hc
  refine ⟨hextract content hc, ?_⟩
  intro body parsed hb hn ht
  exact handle_reply_value parse message body parsed (some content) v hb hn ht
    (hextract content hc) hv

/-- Witness of C23: the answer in the requested format, in a json fence with line
breaks, is answered with status 200 and its value. -/
theorem fenced_reply_is_extracted_witness :
    handleImageAnalysis true exParse exMessage exBody
        (.reply (some ("```json\n" ++ exAnswer ++ "\n```"))) =
      { status := 200,
        body := .obj [("category", .str "logo"), ("tags", .arr [.str "brand"]),
          ("colors", .arr [.str "#ffffff"]), ("description", .str "A logo")] } :=
  ((fenced_reply_is_extracted exParse exMessage exAnswer _ ['\n'] ['\n'] rfl
      (fun e => Json.noConfusion e) exParse_space (by decide) (by decide) (by decide)
      (by decide)
      ⟨fenceJson ++ (['\n'] ++ exAnswer.data ++ ['\n'] ++ fence)⟩ (by simp)).2
    exBody _ rfl (fun e => Json.noConfusion e) rfl)

end Server

namespace Hosted

theorem renderAssets_folderView (st : State) :
    folderView (renderAssets st) = folderView st ∧
    (renderAssets st).requests = st.requests := by
  unfold renderAssets folderView
  cases hcp : st.currentProject with
  | none => simp [hcp]
  | some p => simp only []; split <;> simp [hcp]

theorem renderFolders_spec (st : State) (P : Project) (h : st.currentProject = some P) :
    (renderFolders st).currentProject = some P ∧
    (renderFolders st).folders = st.folders ∧
    (renderFolders st).currentParentFolder = st.currentParentFolder ∧
    (renderFolders st).requests = st.requests ∧
    (∀ f a b, Chip.folder f a b ∈ (renderFolders st).folderChips →
      f ∈ st.folders ∧ f.project_id = some P.id) ∧
    (Chip.back ∈ (renderFolders st).folderChips →
      Js.truthy st.currentParentFolder = true) := by
  unfold renderFolders
  rw [h]
  refine ⟨rfl, rfl, rfl, rfl, ?_, ?_⟩
  · intro f a b hmem
    simp only [List.mem_append, List.mem_map, List.mem_filter] at hmem
    rcases hmem with hnav | ⟨g, ⟨⟨hg, hproj⟩, _⟩, heq⟩
    · split at hnav
      · simp only [List.mem_cons] at hnav
        rcases hnav with hnav | hnav
        · cases hnav
        · split at hnav <;> simp at hnav
      · simp at hnav
    · simp only [Chip.folder.injEq] at heq
      rw [← heq.1]
      exact ⟨hg, by simpa using hproj⟩
  · intro hmem
    simp only [List.mem_append, List.mem_map] at hmem
    rcases hmem with hnav | ⟨g, _, heq⟩
    · split at hnav
      · assumption
      · simp at hnav
    · cases heq

theorem showsChip_mem (st : State) (folder : Folder) (h : showsChip st folder = true) :
    ∃ a b, Chip.folder folder a b ∈ st.folderChips := by
  unfold showsChip at h
  rw [List.any_eq_true] at h
  obtain ⟨c, hc, hx⟩ := h
  cases c with
  | folder f a b =>
    simp only [decide_eq_true_eq] at hx
    subst hx
    exact ⟨a, b, hc⟩
  | back => simp at hx
  | breadcrumb n => simp at hx
  | all a => simp at hx

theorem folder_eq_of_id (table : List Folder) (h : (table.map (fun f => f.id)).Nodup)
    (f g : Folder) (hf : f ∈ table) (hg : g ∈ table) (e : f.id = g.id) : f = g :=
  List.inj_on_of_nodup_map h hf hg e

/-- A page that is drawn again after the selection or the level changed keeps the
facts of a run, when the new level is a folder of the open project. -/
theorem inv_rerender (P : Project) (table : List Folder) (st st1 : State)
    (hinv : FolderInv P ⟨table, st⟩) (hproj : st1.currentProject = some P)
    (hfold : st1.folders = st.folders)
    (hcur : Js.truthy st1.currentParentFolder = true →
      ∃ g ∈ table, st1.currentParentFolder = some g.id ∧ g.project_id = some P.id) :
    FolderInv P ⟨table, renderAssets (renderFolders st1)⟩ := by
  obtain ⟨h1, h2, h3, _, h5, h6⟩ := renderFolders_spec st1 P hproj
  have hview := (renderAssets_folderView (renderFolders st1)).1
  simp only [folderView, Prod.mk.injEq] at hview
  obtain ⟨v1, v2, v3, v4⟩ := hview
  refine ⟨?_, hinv.ids, hinv.parents, hinv.acyclic, ?_, ?_, ?_, ?_⟩
  · show (renderAssets (renderFolders st1)).currentProject = some P
    rw [v1, h1]
  · show ∀ f ∈ (renderAssets (renderFolders st1)).folders, f ∈ table
    rw [v2, h2, hfold]
    exact hinv.cache
  · show Js.truthy (renderAssets (renderFolders st1)).currentParentFolder = true → _
    rw [v3, h3]
    exact hcur
  · show ∀ f a b, Chip.folder f a b ∈ (renderAssets (renderFolders st1)).folderChips → _
    rw [v4, v2, h2]
    exact h5
  · show Chip.back ∈ (renderAssets (renderFolders st1)).folderChips → _
    rw [v4, v3, h3]
    exact h6

end Hosted

namespace Hosted

theorem inv_chipClick (P : Project) (w : World) (folder : Folder) (hinv : FolderInv P w) :
    FolderInv P (step w (.chipClick folder)) :=
  inv_rerender P w.table w.st { w.st with selectedFolder := folder.id } hinv hinv.project rfl
    hinv.current

theorem inv_allClick (P : Project) (w : World) (hinv : FolderInv P w) :
    FolderInv P (step w .allClick) :=
  inv_rerender P w.table w.st { w.st with selectedFolder := "all" } hinv hinv.project rfl
    hinv.current

theorem inv_chipDblClick (P : Project) (w : World) (folder : Folder) (hinv : FolderInv P w)
    (h : allowed w (.chipDblClick folder) = true) :
    FolderInv P (step w (.chipDblClick folder)) := by
  obtain ⟨a, b, hchip⟩ := showsChip_mem w.st folder h
  obtain ⟨hmem, hproj⟩ := hinv.chips folder a b hchip
  exact inv_rerender P w.table w.st
    { w.st with currentParentFolder := some folder.id, selectedFolder := "all" } hinv
    hinv.project rfl (fun _ => ⟨folder, hinv.cache folder hmem, rfl, hproj⟩)

theorem inv_backClick (P : Project) (w : World) (hinv : FolderInv P w)
    (h : allowed w .backClick = true) : FolderInv P (step w .backClick) := by
  have hback : Chip.back ∈ w.st.folderChips := by
    simpa [allowed] using h
  obtain ⟨g, hg, hcur, hgproj⟩ := hinv.current (hinv.back hback)
  refine inv_rerender P w.table w.st
    { w.st with
      currentParentFolder :=
        match w.st.folders.find? (fun f => decide (some f.id = w.st.currentParentFolder)) with
        | some parent => parent.parent_id
        | none => none
      selectedFolder := "all" } hinv hinv.project rfl ?_
  intro ht
  simp only [] at ht
  cases hfind : w.st.folders.find? (fun f => decide (some f.id = w.st.currentParentFolder)) with
  | none =>
    rw [hfind] at ht
    exact absurd ht (by decide)
  | some parent =>
    rw [hfind] at ht
    simp only [] at ht ⊢
    have hmem : parent ∈ w.table := hinv.cache parent (List.mem_of_find?_eq_some hfind)
    have hid : some parent.id = w.st.currentParentFolder := by
      simpa using List.find?_some hfind
    have heq : parent = g := by
      apply folder_eq_of_id w.table hinv.ids parent g hmem hg
      rw [hcur] at hid
      exact Option.some.inj hid
    obtain ⟨g2, hg2, hpar, hproj2⟩ := hinv.parents parent hmem ht
    refine ⟨g2, hg2, hpar, ?_⟩
    rw [hproj2, heq, hgproj]

theorem createFolder_blank (st : State) (P : Project) (value : String)
    (insert : Response Unit) (reply : Response (List Folder))
    (h : st.currentProject = some P) (hn : Js.trim value = "") :
    createFolder value insert reply st = showToast "Please enter a folder name" "error" st := by
  unfold createFolder
  simp [h, hn]

theorem createFolder_rejected (st : State) (P : Project) (value : String)
    (insert : Response Unit) (reply : Response (List Folder))
    (h : st.currentProject = some P) (hn : Js.trim value ≠ "") (he : insert.error = true) :
    createFolder value insert reply st =
      showToast "Error creating folder" "error"
        (send (.insertFolder (Js.trim value) P.id st.currentParentFolder) st) := by
  unfold createFolder
  simp [h, hn, he]

theorem createFolder_done (st : State) (P : Project) (value : String)
    (insert : Response Unit) (reply : Response (List Folder))
    (h : st.currentProject = some P) (hn : Js.trim value ≠ "") (he : insert.error = false) :
    createFolder value insert reply st =
      closeFolderModal (renderFolders (loadFolders reply
        (showToast ("Folder \"" ++ Js.trim value ++ "\" created") "success"
          (send (.insertFolder (Js.trim value) P.id st.currentParentFolder) st)))) := by
  unfold createFolder
  simp [h, hn, he]

theorem loadFolders_spec (reply : Response (List Folder)) (st : State) :
    (loadFolders reply st).currentProject = st.currentProject ∧
    (loadFolders reply st).currentParentFolder = st.currentParentFolder ∧
    (loadFolders reply st).requests = st.requests ++ [.selectFolders] ∧
    (loadFolders reply st).folders = if reply.error then [] else reply.data.getD [] := by
  unfold loadFolders
  cases reply.error <;> simp [send, showToast]

end Hosted

namespace Hosted

theorem inv_of_view (P : Project) (table : List Folder) (st st1 : State)
    (hinv : FolderInv P ⟨table, st⟩) (hv : folderView st1 = folderView st) :
    FolderInv P ⟨table, st1⟩ := by
  simp only [folderView, Prod.mk.injEq] at hv
  obtain ⟨v1, v2, v3, v4⟩ := hv
  refine ⟨?_, hinv.ids, hinv.parents, hinv.acyclic, ?_, ?_, ?_, ?_⟩
  · show st1.currentProject = some P
    rw [v1]
    exact hinv.project
  · show ∀ f ∈ st1.folders, f ∈ table
    rw [v2]
    exact hinv.cache
  · show Js.truthy st1.currentParentFolder = true → _
    rw [v3]
    exact hinv.current
  · show ∀ f a b, Chip.folder f a b ∈ st1.folderChips → f ∈ st1.folders ∧ _
    rw [v4, v2]
    exact hinv.chips
  · show Chip.back ∈ st1.folderChips → Js.truthy st1.currentParentFolder = true
    rw [v4, v3]
    exact hinv.back

theorem step_createFolder_blank (P : Project) (w : World) (value : String)
    (insert : Option (String × String)) (reload : Option (List Folder))
    (hproj : w.st.currentProject = some P) (hn : Js.trim value = "") :
    (step w (.createFolder value insert reload)).table = w.table ∧
    (step w (.createFolder value insert reload)).st =
      showToast "Please enter a folder name" "error" w.st := by
  unfold step
  simp only [createFolder_blank w.st P value _ _ hproj hn]
  refine ⟨?_, trivial⟩
  cases insert with
  | none => rfl
  | some a => simp [showToast]

theorem step_createFolder_rejected (P : Project) (w : World) (value : String)
    (reload : Option (List Folder))
    (hproj : w.st.currentProject = some P) (hn : Js.trim value ≠ "") :
    (step w (.createFolder value none reload)).table = w.table ∧
    (step w (.createFolder value none reload)).st =
      showToast "Error creating folder" "error"
        (send (.insertFolder (Js.trim value) P.id w.st.currentParentFolder) w.st) := by
  unfold step
  simp only [createFolder_rejected w.st P value ⟨none, true⟩ _ hproj hn rfl, Option.isNone_none]
  exact ⟨trivial, trivial⟩

theorem step_createFolder_done (P : Project) (w : World) (value : String)
    (a : String × String) (reload : Option (List Folder))
    (hproj : w.st.currentProject = some P) (hn : Js.trim value ≠ "") :
    (step w (.createFolder value (some a) reload)).table =
      w.table ++ [{ id := a.1, project_id := some P.id,
                    parent_id := w.st.currentParentFolder, name := Js.trim value,
                    created_at := a.2 }] ∧
    (step w (.createFolder value (some a) reload)).st =
      closeFolderModal (renderFolders (loadFolders ⟨reload, reload.isNone⟩
        (showToast ("Folder \"" ++ Js.trim value ++ "\" created") "success"
          (send (.insertFolder (Js.trim value) P.id w.st.currentParentFolder) w.st)))) := by
  unfold step
  simp only [createFolder_done w.st P value ⟨none, false⟩ _ hproj hn rfl, Option.isNone_some]
  refine ⟨?_, trivial⟩
  have hreq : (closeFolderModal (renderFolders (loadFolders ⟨reload, reload.isNone⟩
      (showToast ("Folder \"" ++ Js.trim value ++ "\" created") "success"
        (send (.insertFolder (Js.trim value) P.id w.st.currentParentFolder)
          w.st))))).requests =
      w.st.requests ++
        [.insertFolder (Js.trim value) P.id w.st.currentParentFolder, .selectFolders] := by
    show (renderFolders _).requests = _
    rw [(renderFolders_frame _).2.2, (loadFolders_spec _ _).2.2.1]
    simp [showToast, send]
  rw [hreq, List.drop_left]
  rfl

end Hosted

namespace Hosted

/-- A row with a fresh id, for the open project, under the folder drilled into, keeps
the table well formed. -/
theorem table_insert (P : Project) (table : List Folder) (parent : Option String)
    (id name date : String)
    (hids : (table.map (fun f => f.id)).Nodup) (hparents : ParentsInProject table)
    (hacyclic : Acyclic table) (hfresh : id ∉ table.map (fun f => f.id))
    (hcur : Js.truthy parent = true →
      ∃ g ∈ table, parent = some g.id ∧ g.project_id = some P.id) :
    ((table ++ [(⟨id, some P.id, parent, name, date⟩ : Folder)]).map (fun f => f.id)).Nodup ∧
    ParentsInProject (table ++ [(⟨id, some P.id, parent, name, date⟩ : Folder)]) ∧
    Acyclic (table ++ [(⟨id, some P.id, parent, name, date⟩ : Folder)]) := by
  refine ⟨?_, ?_, ?_⟩
  · rw [List.map_append, List.nodup_append]
    refine ⟨hids, List.nodup_singleton _, ?_⟩
    intro x hx hx2
    simp only [List.map_cons, List.map_nil, List.mem_singleton] at hx2
    subst hx2
    exact hfresh hx
  · intro f hf ht
    rw [List.mem_append, List.mem_singleton] at hf
    rcases hf with hf | hf
    · obtain ⟨g, hg, h1, h2⟩ := hparents f hf ht
      exact ⟨g, List.mem_append_left _ hg, h1, h2⟩
    · subst hf
      obtain ⟨g, hg, h1, h2⟩ := hcur ht
      exact ⟨g, List.mem_append_left _ hg, h1, h2⟩
  · obtain ⟨rank, hrank⟩ := hacyclic
    refine ⟨fun x => if x = id then rank (parent.getD "") + 1 else rank x, ?_⟩
    intro f hf ht
    rw [List.mem_append, List.mem_singleton] at hf
    rcases hf with hf | hf
    · obtain ⟨g, hg, h1, _⟩ := hparents f hf ht
      have hfid : f.id ≠ id := fun e => hfresh (e ▸ List.mem_map_of_mem _ hf)
      have hgid : g.id ≠ id := fun e => hfresh (e ▸ List.mem_map_of_mem _ hg)
      have hlt := hrank f hf ht
      rw [h1] at hlt ⊢
      simp only [Option.getD_some] at hlt ⊢
      simp only [hfid, hgid, if_false]
      exact hlt
    · subst hf
      obtain ⟨g, hg, h1, _⟩ := hcur ht
      have hgid : g.id ≠ id := fun e => hfresh (e ▸ List.mem_map_of_mem _ hg)
      show (if parent.getD "" = id then _ else rank (parent.getD "")) <
        (if id = id then rank (parent.getD "") + 1 else rank id)
      rw [h1]
      simp only [Option.getD_some, hgid, if_false, if_true]
      exact Nat.lt_succ_self _

theorem allowed_createFolder (w : World) (value : String) (a : String × String)
    (reload : Option (List Folder))
    (h : allowed w (.createFolder value (some a) reload) = true) :
    a.1 ∉ w.table.map (fun f => f.id) ∧
    ∀ rows, reload = some rows →
      rows.Perm (step w (.createFolder value (some a) reload)).table := by
  unfold allowed at h
  simp only [Bool.and_eq_true, Bool.not_eq_true', List.contains_eq_any_beq,
    List.any_eq_false, beq_iff_eq] at h
  refine ⟨?_, ?_⟩
  · intro hmem
    exact h.1 a.1 hmem rfl
  · intro rows hrows
    subst hrows
    exact List.isPerm_iff.mp h.2

theorem inv_createFolder (P : Project) (w : World) (value : String)
    (insert : Option (String × String)) (reload : Option (List Folder))
    (hinv : FolderInv P w) (h : allowed w (.createFolder value insert reload) = true) :
    FolderInv P (step w (.createFolder value insert reload)) := by
  by_cases hn : Js.trim value = ""
  · obtain ⟨ht, hs⟩ := step_createFolder_blank P w value insert reload hinv.project hn
    have := inv_of_view P w.table w.st _ hinv
      (show folderView (step w (.createFolder value insert reload)).st = folderView w.st by
        rw [hs]; rfl)
    rw [← ht] at this
    exact this
  · cases insert with
    | none =>
      obtain ⟨ht, hs⟩ := step_createFolder_rejected P w value reload hinv.project hn
      have := inv_of_view P w.table w.st _ hinv
        (show folderView (step w (.createFolder value none reload)).st = folderView w.st by
          rw [hs]; rfl)
      rw [← ht] at this
      exact this
    | some a =>
      obtain ⟨hfresh, hperm⟩ := allowed_createFolder w value a reload h
      obtain ⟨ht, hs⟩ := step_createFolder_done P w value a reload hinv.project hn
      obtain ⟨t1, t2, t3⟩ := table_insert P w.table w.st.currentParentFolder a.1
        (Js.trim value) a.2 hinv.ids hinv.parents hinv.acyclic hfresh hinv.current
      obtain ⟨l1, l2, _, l4⟩ := loadFolders_spec ⟨reload, reload.isNone⟩
        (showToast ("Folder \"" ++ Js.trim value ++ "\" created") "success"
          (send (.insertFolder (Js.trim value) P.id w.st.currentParentFolder) w.st))
      have hZproj : (loadFolders ⟨reload, reload.isNone⟩
          (showToast ("Folder \"" ++ Js.trim value ++ "\" created") "success"
            (send (.insertFolder (Js.trim value) P.id w.st.currentParentFolder)
              w.st))).currentProject = some P := by
        rw [l1]
        exact hinv.project
      obtain ⟨r1, r2, r3, _, r5, r6⟩ := renderFolders_spec _ P hZproj
      refine ⟨?_, ?_, ?_, ?_, ?_, ?_, ?_, ?_⟩
      · rw [hs]
        exact r1
      · rw [ht]
        exact t1
      · rw [ht]
        exact t2
      · rw [ht]
        exact t3
      · intro f hf
        rw [hs] at hf
        change f ∈ (renderFolders _).folders at hf
        rw [r2, l4] at hf
        cases reload with
        | none => simp at hf
        | some rows =>
          simp only [Option.isNone_some, Bool.false_eq_true, if_false, Option.getD_some] at hf
          exact (hperm rows rfl).mem_iff.mp hf
      · intro hcur
        rw [hs] at hcur ⊢
        change Js.truthy (renderFolders _).currentParentFolder = true at hcur
        change ∃ g ∈ _, (renderFolders _).currentParentFolder = some g.id ∧ _
        rw [r3, l2] at hcur ⊢
        obtain ⟨g, hg, h1, h2⟩ := hinv.current hcur
        refine ⟨g, ?_, h1, h2⟩
        rw [ht]
        exact List.mem_append_left _ hg
      · intro f a1 b1 hchip
        rw [hs] at hchip ⊢
        change Chip.folder f a1 b1 ∈ (renderFolders _).folderChips at hchip
        change f ∈ (renderFolders _).folders ∧ _
        rw [r2]
        exact r5 f a1 b1 hchip
      · intro hback
        rw [hs] at hback ⊢
        change Chip.back ∈ (renderFolders _).folderChips at hback
        change Js.truthy (renderFolders _).currentParentFolder = true
        rw [r3]
        exact r6 hback

theorem inv_step (P : Project) (w : World) (e : Event) (hinv : FolderInv P w)
    (h : allowed w e = true) : FolderInv P (step w e) := by
  cases e with
  | chipClick folder => exact inv_chipClick P w folder hinv
  | allClick => exact inv_allClick P w hinv
  | chipDblClick folder => exact inv_chipDblClick P w folder hinv h
  | backClick => exact inv_backClick P w hinv h
  | createFolder value insert reload => exact inv_createFolder P w value insert reload hinv h

theorem inv_run (P : Project) (events : List Event) :
    ∀ (w : World), FolderInv P w → allowedRun w events = true →
      FolderInv P (run w events) := by
  induction events with
  | nil =>
    intro w hinv _
    exact hinv
  | cons e rest ih =>
    intro w hinv h
    simp only [allowedRun, Bool.and_eq_true] at h
    exact ih (step w e) (inv_step P w e hinv h.1) h.2

end Hosted

namespace Hosted

theorem loadAssets_folderView (projectId : Option String) (reply : Response (List Asset))
    (st : State) : folderView (loadAssets projectId reply st) = folderView st := by
  unfold loadAssets folderView
  simp only [send, showToast]
  split
  · split <;> rfl
  · split
    · split <;> rfl
    · rfl

theorem showSkeletonLoading_folderView (st : State) :
    folderView (showSkeletonLoading st) = folderView st := by
  unfold showSkeletonLoading folderView
  split <;> rfl

theorem exitSelectionMode_folderView (st : State) :
    folderView (exitSelectionMode st) = folderView st := by
  unfold exitSelectionMode
  simp only []
  split
  · rw [(renderAssets_folderView _).1]
    rfl
  · rfl

theorem showProject_spec (st0 : State) (projectId : String) (fetch : Response (List Asset))
    (P : Project) (hP : st0.projects.find? (fun p => p.id == projectId) = some P) :
    ∃ st1 : State, st1.currentProject = some P ∧ st1.folders = st0.folders ∧
      st1.currentParentFolder = none ∧
      folderView (showProject projectId fetch st0) = folderView (renderFolders st1) := by
  unfold showProject
  rw [hP]
  simp only []
  refine ⟨_, ?_, ?_, ?_, (show folderView (updateStorageInfo _) = _ from
    ((renderAssets_folderView _).1.trans
      ((loadAssets_folderView _ _ _).trans (showSkeletonLoading_folderView _))))⟩
  · have := exitSelectionMode_folderView
      { st0 with currentProject := some P, selectedFolder := "all",
                 currentParentFolder := none, searchQuery := "" }
    simp only [folderView, Prod.mk.injEq] at this
    exact this.1
  · have := exitSelectionMode_folderView
      { st0 with currentProject := some P, selectedFolder := "all",
                 currentParentFolder := none, searchQuery := "" }
    simp only [folderView, Prod.mk.injEq] at this
    exact this.2.1
  · have := exitSelectionMode_folderView
      { st0 with currentProject := some P, selectedFolder := "all",
                 currentParentFolder := none, searchQuery := "" }
    simp only [folderView, Prod.mk.injEq] at this
    exact this.2.2.1

theorem inv_showProject (table : List Folder) (st0 : State) (projectId : String)
    (fetch : Response (List Asset)) (P : Project)
    (hP : st0.projects.find? (fun p => p.id == projectId) = some P)
    (hcache : ∀ f ∈ st0.folders, f ∈ table)
    (hids : (table.map (fun f => f.id)).Nodup) (hparents : ParentsInProject table)
    (hacyclic : Acyclic table) :
    FolderInv P ⟨table, showProject projectId fetch st0⟩ ∧
    (showProject projectId fetch st0).folders = st0.folders := by
  obtain ⟨st1, h1, h2, h3, hview⟩ := showProject_spec st0 projectId fetch P hP
  obtain ⟨r1, r2, r3, _, r5, r6⟩ := renderFolders_spec st1 P h1
  simp only [folderView, Prod.mk.injEq] at hview
  obtain ⟨v1, v2, v3, v4⟩ := hview
  refine ⟨⟨?_, hids, hparents, hacyclic, ?_, ?_, ?_, ?_⟩, ?_⟩
  · show (showProject projectId fetch st0).currentProject = some P
    rw [v1, r1]
  · show ∀ f ∈ (showProject projectId fetch st0).folders, f ∈ table
    rw [v2, r2, h2]
    exact hcache
  · show Js.truthy (showProject projectId fetch st0).currentParentFolder = true → _
    rw [v3, r3, h3]
    intro hc
    exact absurd hc (by decide)
  · show ∀ f a b, Chip.folder f a b ∈ (showProject projectId fetch st0).folderChips → _
    rw [v4, v2, r2]
    exact r5
  · show Chip.back ∈ (showProject projectId fetch st0).folderChips → _
    rw [v4, v3, r3]
    exact r6
  · rw [v2, r2, h2]

theorem renderFolders_folders (st : State) : (renderFolders st).folders = st.folders := by
  unfold renderFolders
  split <;> rfl

theorem rerender_folders (st : State) :
    (renderAssets (renderFolders st)).folders = st.folders := by
  have h := (renderAssets_folderView (renderFolders st)).1
  simp only [folderView, Prod.mk.injEq] at h
  rw [h.2.1, renderFolders_folders]

/-- While no reload of the folders fails, the cache holds the rows of the table. -/
theorem sync_step (P : Project) (w : World) (e : Event) (hinv : FolderInv P w)
    (hsync : w.st.folders.Perm w.table) (h : allowed w e = true) (hok : reloadOk e = true) :
    (step w e).st.folders.Perm (step w e).table := by
  cases e with
  | chipClick folder =>
    show (renderAssets (renderFolders _)).folders.Perm w.table
    rw [rerender_folders]
    exact hsync
  | allClick =>
    show (renderAssets (renderFolders _)).folders.Perm w.table
    rw [rerender_folders]
    exact hsync
  | chipDblClick folder =>
    show (renderAssets (renderFolders _)).folders.Perm w.table
    rw [rerender_folders]
    exact hsync
  | backClick =>
    show (renderAssets (renderFolders _)).folders.Perm w.table
    rw [rerender_folders]
    exact hsync
  | createFolder value insert reload =>
    by_cases hn : Js.trim value = ""
    · obtain ⟨ht, hs⟩ := step_createFolder_blank P w value insert reload hinv.project hn
      rw [ht, hs]
      exact hsync
    · cases insert with
      | none =>
        obtain ⟨ht, hs⟩ := step_createFolder_rejected P w value reload hinv.project hn
        rw [ht, hs]
        exact hsync
      | some a =>
        cases reload with
        | none => simp [reloadOk] at hok
        | some rows =>
          have hperm := (allowed_createFolder w value a (some rows) h).2 rows rfl
          obtain ⟨_, hs⟩ := step_createFolder_done P w value a (some rows) hinv.project hn
          have hf : (step w (.createFolder value (some a) (some rows))).st.folders = rows := by
            rw [hs]
            show (renderFolders _).folders = rows
            rw [renderFolders_folders, (loadFolders_spec _ _).2.2.2]
            rfl
          rw [hf]
          exact hperm

theorem sync_run (P : Project) (events : List Event) :
    ∀ (w : World), FolderInv P w → w.st.folders.Perm w.table →
      allowedRun w events = true → events.all reloadOk = true →
      (run w events).st.folders.Perm (run w events).table := by
  induction events with
  | nil =>
    intro w _ hsync _ _
    exact hsync
  | cons e rest ih =>
    intro w hinv hsync h hok
    simp only [allowedRun, Bool.and_eq_true] at h
    simp only [List.all_cons, Bool.and_eq_true] at hok
    exact ih (step w e) (inv_step P w e hinv h.1) (sync_step P w e hinv hsync h.1 hok.1)
      h.2 hok.2

/-- In a table without a cycle no folder lies below itself. -/
theorem below_rank (table : List Folder) (rank : String → Nat)
    (hrank : ∀ f ∈ table, Js.truthy f.parent_id = true →
      rank (f.parent_id.getD "") < rank f.id)
    (a b : String) (h : Below table a b) : rank b < rank a := by
  induction h with
  | parent f p hf hp ht =>
    have := hrank f hf ht
    rw [hp] at this
    exact this
  | trans a b c _ _ ih1 ih2 => exact Nat.lt_trans ih2 ih1

theorem acyclic_irrefl (table : List Folder) (h : Acyclic table) (a : String) :
    ¬ Below table a a := by
  obtain ⟨rank, hrank⟩ := h
  intro hb
  exact Nat.lt_irrefl _ (below_rank table rank hrank a a hb)

end Hosted

namespace Hosted

/-- C25, as the specification states it, fails: the user drills into "Logos" and
creates a folder, the insert succeeds and the reload of the folders fails, which
empties the cache; the next createFolder inserts a row whose parent_id is "f1", the
id of no cached folder. -/
theorem createFolder_after_failed_reload :
    allowedRun exWorld
      [.chipDblClick exLogos, .createFolder "New" (some exNewRow) none] = true ∧
    (run exWorld
      [.chipDblClick exLogos, .createFolder "New" (some exNewRow) none]).st.folders = [] ∧
    allowed
      (run exWorld [.chipDblClick exLogos, .createFolder "New" (some exNewRow) none])
      (.createFolder "Again" (some exNextRow) none) = true ∧
    (step
      (run exWorld [.chipDblClick exLogos, .createFolder "New" (some exNewRow) none])
      (.createFolder "Again" (some exNextRow) none)).table =
      exFolders ++ [exNewFolder,
        { id := "f4", project_id := some "p1", parent_id := some "f1", name := "Again",
          created_at := "2024-03-02T00:00:00Z" }] := by
  decide

/-- C25, amended. A project is opened with showProject while the cache holds the rows
of the folders table, in which ids are not repeated, every non-empty parent_id is
the id of a folder of the same project and the parent chain has no cycle. After every
sequence of chip clicks, chip double-clicks, Back presses and createFolder calls
that can happen (the store assigns fresh ids and a reload that succeeds returns the
rows of the table) the table still has these three properties and no folder lies
below itself, and a createFolder call leaves the table as it is or appends one row:
its project_id is the id of the open project, its parent_id is the folder drilled
into, which is empty or the id of a folder of that project in the table, and of a
cached folder when no reload of the folders has failed. -/
theorem createFolder_keeps_folder_tree (table : List Folder) (st0 : State)
    (projectId : String) (fetch : Response (List Asset)) (P : Project)
    (events : List Event) (w : World)
    (hP : st0.projects.find? (fun p => p.id == projectId) = some P)
    (hcache : st0.folders.Perm table)
    (hids : (table.map (fun f => f.id)).Nodup)
    (hparents : ParentsInProject table) (hacyclic : Acyclic table)
    (hrun : allowedRun ⟨table, showProject projectId fetch st0⟩ events = true)
    (hw : w = run ⟨table, showProject projectId fetch st0⟩ events) :
    ((w.table.map (fun f => f.id)).Nodup ∧ ParentsInProject w.table ∧ Acyclic w.table ∧
      ∀ a, ¬ Below w.table a a) ∧
    ∀ (value : String) (insert : Option (String × String)) (reload : Option (List Folder)),
      allowed w (.createFolder value insert reload) = true →
      (step w (.createFolder value insert reload)).table = w.table ∨
      ∃ row, (step w (.createFolder value insert reload)).table = w.table ++ [row] ∧
        w.st.currentProject = some P ∧ row.project_id = some P.id ∧
        row.parent_id = w.st.currentParentFolder ∧
        (Js.truthy row.parent_id = false ∨
          ∃ g ∈ w.table, row.parent_id = some g.id ∧ g.project_id = some P.id) ∧
        (events.all reloadOk = true →
          Js.truthy row.parent_id = false ∨
            ∃ g ∈ w.st.folders, row.parent_id = some g.id ∧ g.project_id = some P.id) := by
  obtain ⟨hinv0, hfolders0⟩ := inv_showProject table st0 projectId fetch P hP
    (fun f hf => hcache.mem_iff.mp hf) hids hparents hacyclic
  have hinv : FolderInv P w := by
    rw [hw]
    exact inv_run P events _ hinv0 hrun
  have hsync : events.all reloadOk = true → w.st.folders.Perm w.table := by
    intro hok
    rw [hw]
    refine sync_run P events _ hinv0 ?_ hrun hok
    show (showProject projectId fetch st0).folders.Perm table
    rw [hfolders0]
    exact hcache
  refine ⟨⟨hinv.ids, hinv.parents, hinv.acyclic, acyclic_irrefl w.table hinv.acyclic⟩, ?_⟩
  intro value insert reload _
  by_cases hn : Js.trim value = ""
  · exact Or.inl (step_createFolder_blank P w value insert reload hinv.project hn).1
  · cases insert with
    | none => exact Or.inl (step_createFolder_rejected P w value reload hinv.project hn).1
    | some a =>
      refine Or.inr ⟨_, (step_createFolder_done P w value a reload hinv.project hn).1,
        hinv.project, rfl, rfl, ?_, ?_⟩
      · cases ht : Js.truthy w.st.currentParentFolder with
        | false => exact Or.inl rfl
        | true => exact Or.inr (hinv.current ht)
      · intro hok
        cases ht : Js.truthy w.st.currentParentFolder with
        | false => exact Or.inl rfl
        | true =>
          obtain ⟨g, hg, h1, h2⟩ := hinv.current ht
          exact Or.inr ⟨g, (hsync hok).mem_iff.mpr hg, h1, h2⟩

/-- Witness of C25: the project "Marketing" is opened, the user drills into "Logos",
creates the folder "New" there and goes back; the table has no cycle. -/
theorem createFolder_keeps_folder_tree_witness :
    Acyclic (run exWorld [.chipDblClick exLogos,
      .createFolder "New" (some exNewRow) (some (exFolders ++ [exNewFolder])),
      .backClick]).table ∧
    ∀ a, ¬ Below (run exWorld [.chipDblClick exLogos,
      .createFolder "New" (some exNewRow) (some (exFolders ++ [exNewFolder])),
      .backClick]).table a a :=
  (createFolder_keeps_folder_tree exFolders exState "p1"
    ⟨some [exRootAsset, exNestedAsset], false⟩ exProject
    [.chipDblClick exLogos,
      .createFolder "New" (some exNewRow) (some (exFolders ++ [exNewFolder])), .backClick]
    _ (by decide) (List.Perm.refl _) (by decide)
    (by unfold ParentsInProject; decide) ⟨exRank, by decide⟩ (by decide) rfl).1.2.2

end Hosted
